import Mathlib

/-!
# read_space: cache-aside repositories and event coordination

A shallow embedding of the Go services of the repository (book, order,
exchange, user-library and user services) together with theorems about
their cache-aside protocol.

Conventions of the embedding.

* A Go function `f(ctx, args) (T, error)` that talks to a store and a cache
  becomes a pure function that takes the store state and the cache state
  and returns the result together with the new states.
* A Go `error` is a value of `Error`; `(T, error)` is `Except Error T`.
* A Go slice is `Slice α = Option (List α)`; `none` is the `nil` slice, which
  `encoding/json` renders as `null`, and `some []` is the empty non-nil slice.
* Redis and MongoDB are external collaborators.  They are modelled by their
  contract: a key/value table with a per-entry TTL, and a list of documents
  addressed by their id.  Both carry a fault schedule (which of the next
  commands fail with a network error) and a record of the commands issued,
  so that "the store is not queried" and "the cache is not written" are
  statements about the state.
* `encoding/json` is modelled by its round trip: what `json.Marshal` wrote is
  what `json.Unmarshal` reads back into a variable of the same Go type.
  `json.Marshal` refuses a `float32` that is not finite; books carry two.
* A MongoDB document is modelled by the fields the code reads and writes.
  A struct with `bson` tags (`domain.Book`) is its own document.  A struct
  without them is stored under its lower-cased field names next to a
  document id `_id` that the driver generates, and next to the fields that
  the update operators of the repositories address by other names.
* Expiry of cache entries is not modelled: every statement about a cached
  value is about reads within its TTL.  The TTL is kept with the entry.
* A goroutine that fills the cache is taken to have completed when the
  method that started it returns.
* Contexts, logging and metrics have no effect on results and are left out.
-/

namespace ReadSpace

/-! ## Go runtime and driver values -/

/-- Go error values that the services create, compare or pass on. -/
inductive Error where
  /-- The sentinel `redis.Nil`: the key is absent. -/
  | redisNil
  /-- A failed round trip to Redis or MongoDB. -/
  | network (msg : String)
  /-- The sentinel `primitive.ErrInvalidHex` and the `encoding/hex` errors. -/
  | invalidHex
  /-- The sentinel `mongo.ErrNoDocuments`. -/
  | noDocuments
  /-- A write rejected by the store (duplicate `_id`). -/
  | duplicateKey
  /-- An `encoding/json` decoding error. -/
  | unmarshal
  /-- The `encoding/json` encoding error `UnsupportedValueError`: a float that
  is not finite. -/
  | unsupportedValue
  /-- A write the MongoDB server refuses: `$push` or `$pull` on a field that
  holds something other than an array. -/
  | badValue
  /-- The value of `errors.New(msg)`. -/
  | new (msg : String)
  /-- The value of `fmt.Errorf(pre + ": %w", inner)`. -/
  | wrapped (pre : String) (inner : Error)
  /-- The value of `status.Error(code, msg)` of gRPC. -/
  | status (code : String) (msg : String)
  /-- The value of `status.Errorf(code, msg + ": %v", cause)` of gRPC. -/
  | statusf (code : String) (msg : String) (cause : Error)
  /-- The value of `status.Errorf(code, msg + " %q", arg)` of gRPC. -/
  | statusq (code : String) (msg : String) (arg : String)
  deriving DecidableEq, Repr

deriving instance DecidableEq for Except

/-- Go slice: `none` is `nil`. -/
abbrev Slice (α : Type) := Option (List α)

/-- The slice a `var xs []T; for ... { xs = append(xs, x) }` loop builds from
the elements `l`: `nil` when there is none. -/
def Slice.collect {α : Type} (l : List α) : Slice α :=
  match l with
  | [] => none
  | x :: xs => some (x :: xs)

/-- Elements of a slice (`range` over `nil` yields nothing). -/
def Slice.elems {α : Type} (s : Slice α) : List α := s.getD []

/-- Go `time.Duration`, in nanoseconds. -/
abbrev Duration := Nat

/-- Go `time.Minute`. -/
def Minute : Duration := 60 * 1000000000

/-- Value of `primitive.DateTime`: milliseconds since the epoch. -/
abbrev DateTime := Int

/-- A `primitive.ObjectID`: twelve bytes, held as the number they spell
big-endian (below `2 ^ 96`). -/
structure ObjectID where
  val : Nat
  deriving DecidableEq, Repr

/-- The zero id `primitive.NilObjectID`. -/
def NilObjectID : ObjectID := ⟨0⟩

/-- Lower-case hex digit of a nibble (`encoding/hex` table). -/
def hexDigit (n : Nat) : Char := "0123456789abcdef".data.getD (n % 16) '0'

/-- The `k` low hex digits of `n`, most significant first. -/
def hexNibbles : Nat → Nat → List Char
  | 0, _ => []
  | k + 1, n => hexNibbles k (n / 16) ++ [hexDigit (n % 16)]

/-- Method `ObjectID.Hex`: 24 lower-case hex characters. -/
def ObjectID.Hex (id : ObjectID) : String := String.mk (hexNibbles 24 id.val)

/-- Function `fromHexChar` of `encoding/hex`: both cases of a-f are accepted. -/
def fromHexChar (c : Char) : Option Nat :=
  let n := c.toNat
  if 48 ≤ n ∧ n ≤ 57 then some (n - 48)
  else if 97 ≤ n ∧ n ≤ 102 then some (n - 87)
  else if 65 ≤ n ∧ n ≤ 70 then some (n - 55)
  else none

/-- Big-endian value of a string of hex digits, `none` at the first character
that is not one. -/
def decodeHex : List Char → Nat → Option Nat
  | [], acc => some acc
  | c :: cs, acc =>
    match fromHexChar c with
    | none => none
    | some d => decodeHex cs (acc * 16 + d)

/-- Function `primitive.ObjectIDFromHex`: the string must have length 24 and
consist of hex digits of either case.  (The driver counts bytes and this
counts characters; a string passes either test together with the digit test
exactly when it is 24 ASCII hex digits.) -/
def ObjectIDFromHex (s : String) : Except Error ObjectID :=
  if s.length ≠ 24 then .error .invalidHex
  else
    match decodeHex s.data 0 with
    | none => .error .invalidHex
    | some n => .ok ⟨n⟩

/-! ## Redis client -/

/-- Commands sent to Redis. -/
inductive RedisCmd where
  | get (key : String)
  | set (key : String) (ttl : Duration)
  | del (key : String)
  deriving DecidableEq, Repr

/-- State of the Redis client as one service sees it: the table (value and
TTL per key), the fault schedule (the head says whether the next command
fails, and with which message; an empty schedule means no failure) and the
commands sent so far. -/
structure Redis (β : Type) where
  kv : List (String × β × Duration)
  faults : List (Option String)
  log : List RedisCmd
  deriving DecidableEq, Repr

/-- No failure is scheduled: every cache command will succeed. -/
def Redis.healthy {β : Type} (r : Redis β) : Prop := ∀ f ∈ r.faults, f = none

/-- A healthy, empty cache. -/
def Redis.empty {β : Type} : Redis β := ⟨[], [], []⟩

/-- State after a command has been sent: it is recorded and its slot of the
fault schedule is used up. -/
def Redis.sent {β : Type} (r : Redis β) (cmd : RedisCmd) : Redis β :=
  { r with faults := r.faults.tail, log := r.log ++ [cmd] }

/-- The failure, if any, that the fault schedule holds for the next command. -/
def Redis.fault {β : Type} (r : Redis β) : Option String :=
  match r.faults with
  | some msg :: _ => some msg
  | _ => none

/-- Command `GET key`: `redis.Nil` when the key is absent. -/
def Redis.Get {β : Type} (r : Redis β) (key : String) : Except Error β × Redis β :=
  match r.fault with
  | some msg => (.error (.network msg), r.sent (.get key))
  | none =>
    match r.kv.lookup key with
    | none => (.error .redisNil, r.sent (.get key))
    | some e => (.ok e.1, r.sent (.get key))

/-- Command `SET key val EX ttl`. -/
def Redis.Set {β : Type} (r : Redis β) (key : String) (val : β) (ttl : Duration) :
    Option Error × Redis β :=
  match r.fault with
  | some msg => (some (.network msg), r.sent (.set key ttl))
  | none =>
    (none, { r.sent (.set key ttl) with
               kv := (key, val, ttl) :: r.kv.filter (fun e => e.1 ≠ key) })

/-- Command `DEL key`: removing an absent key is not an error. -/
def Redis.Del {β : Type} (r : Redis β) (key : String) : Option Error × Redis β :=
  match r.fault with
  | some msg => (some (.network msg), r.sent (.del key))
  | none =>
    (none, { r.sent (.del key) with kv := r.kv.filter (fun e => e.1 ≠ key) })

/-- The entry (value and TTL) stored under a key. -/
def Redis.entry {β : Type} (r : Redis β) (key : String) : Option (β × Duration) :=
  r.kv.lookup key

/-! ## Book service -/

/-- A Go `float32` as far as the services go: a finite value, or one of the
values `encoding/json` refuses to encode.  The services do no arithmetic on
these numbers, so a finite value is held as the integer that names it
(tokens in the order of the values they name). -/
inductive Float32 where
  | num (v : Int)
  | posInf
  | negInf
  | nan
  deriving DecidableEq, Repr

instance (n : Nat) : OfNat Float32 n := ⟨.num n⟩

/-- The float is finite (neither an infinity nor NaN). -/
def Float32.finite : Float32 → Bool
  | .num _ => true
  | _ => false

/-- The order MongoDB sorts numbers in: NaN first, then `-Inf`, the finite
values, `+Inf`. -/
def Float32.sortsBefore : Float32 → Float32 → Bool
  | .nan, _ => true
  | .negInf, .nan => false
  | .negInf, _ => true
  | .num _, .nan => false
  | .num _, .negInf => false
  | .num a, .num b => a ≤ b
  | .num _, .posInf => true
  | .posInf, .posInf => true
  | .posInf, _ => false

/-- Struct `domain.Book`. -/
structure Book where
  ID : ObjectID
  Title : String
  Author : String
  Genre : String
  Language : String
  Description : String
  Rating : Float32
  Price : Float32
  Pages : Int
  PublishedDate : String
  deriving DecidableEq, Repr

/-- The zero value of `domain.Book`. -/
def Book.zero : Book := ⟨NilObjectID, "", "", "", "", "", 0, 0, 0, ""⟩

/-- What a key of the book cache can hold: the JSON of a book, the JSON of a
slice of books (`null` for the nil slice), or bytes that are not JSON. -/
inductive BookJSON where
  | book (b : Book)
  | list (l : Slice Book)
  | invalid (raw : String)
  deriving DecidableEq, Repr

/-- Decoding `json.Unmarshal(data, &book)` into a fresh `domain.Book`: JSON
`null` leaves the zero value, an array or malformed bytes are an error. -/
def unmarshalBook : BookJSON → Except Error Book
  | .book b => .ok b
  | .list none => .ok Book.zero
  | .list (some _) => .error .unmarshal
  | .invalid _ => .error .unmarshal

/-- Decoding `json.Unmarshal(data, &books)` into a nil `[]*domain.Book`: JSON
`null` leaves it nil. -/
def unmarshalBooks : BookJSON → Except Error (Slice Book)
  | .list l => .ok l
  | .book _ => .error .unmarshal
  | .invalid _ => .error .unmarshal

/-- Method `redisBookCache.Get`. -/
def redisBookCache.Get (c : Redis BookJSON) (key : String) :
    Except Error Book × Redis BookJSON :=
  match c.Get key with
  | (.error err, c1) => (.error err, c1)
  | (.ok data, c1) =>
    match unmarshalBook data with
    | .error err => (.error err, c1)
    | .ok book => (.ok book, c1)

/-- Encoding `json.Marshal(book)`: refused when the rating or the price is
not finite. -/
def marshalBook (book : Book) : Except Error BookJSON :=
  if book.Rating.finite ∧ book.Price.finite then .ok (.book book)
  else .error .unsupportedValue

/-- Encoding `json.Marshal(books)`: `null` for the nil slice; refused when a
book of the slice is. -/
def marshalBooks (books : Slice Book) : Except Error BookJSON :=
  if ∀ b ∈ books.elems, b.Rating.finite ∧ b.Price.finite then .ok (.list books)
  else .error .unsupportedValue

/-- Method `redisBookCache.Set`: when the book cannot be encoded the error is
returned and no command is sent. -/
def redisBookCache.Set (c : Redis BookJSON) (key : String) (book : Book)
    (expiration : Duration) : Option Error × Redis BookJSON :=
  match marshalBook book with
  | .error err => (some err, c)
  | .ok data => c.Set key data expiration

/-- Method `redisBookCache.GetList`. -/
def redisBookCache.GetList (c : Redis BookJSON) (key : String) :
    Except Error (Slice Book) × Redis BookJSON :=
  match c.Get key with
  | (.error err, c1) => (.error err, c1)
  | (.ok data, c1) =>
    match unmarshalBooks data with
    | .error err => (.error err, c1)
    | .ok books => (.ok books, c1)

/-- Method `redisBookCache.SetList`: when the list cannot be encoded the
error is returned and no command is sent. -/
def redisBookCache.SetList (c : Redis BookJSON) (key : String) (books : Slice Book)
    (expiration : Duration) : Option Error × Redis BookJSON :=
  match marshalBooks books with
  | .error err => (some err, c)
  | .ok data => c.Set key data expiration

/-- Method `redisBookCache.Delete`. -/
def redisBookCache.Delete (c : Redis BookJSON) (key : String) :
    Option Error × Redis BookJSON :=
  c.Del key

/-- Interface `repository.BookRepository`, over a store state `σ`. -/
structure BookRepository (σ : Type) where
  Create : σ → Book → Except Error Book × σ
  GetByID : σ → String → Except Error Book × σ
  ListAll : σ → Except Error (Slice Book) × σ
  Update : σ → Book → Except Error Book × σ
  Delete : σ → String → Option Error × σ
  ListByGenre : σ → String → Except Error (Slice Book) × σ
  ListByAuthor : σ → String → Except Error (Slice Book) × σ
  ListByLanguage : σ → String → Except Error (Slice Book) × σ
  ListTopRated : σ → Except Error (Slice Book) × σ
  ListNewArrivals : σ → Except Error (Slice Book) × σ
  SearchBooks : σ → String → Except Error (Slice Book) × σ
  RecommendBooks : σ → String → Except Error (Slice Book) × σ

/-! ## MongoDB collection -/

/-- State of a MongoDB collection as one service sees it: the documents in
natural order, the fault schedule of the driver (as for `Redis`), the
counter behind `primitive.NewObjectID`, the number of driver commands sent
so far, and the reading (in milliseconds) that `time.Now()` gives to the
repository method that runs next. -/
structure Collection (α : Type) where
  docs : List α
  faults : List (Option String)
  nextOID : Nat
  calls : Nat
  clock : DateTime
  deriving DecidableEq, Repr

/-- No failure is scheduled: every driver command will reach the server. -/
def Collection.healthy {α : Type} (c : Collection α) : Prop := ∀ f ∈ c.faults, f = none

/-- State after a driver command has been sent. -/
def Collection.sent {α : Type} (c : Collection α) : Collection α :=
  { c with faults := c.faults.tail, calls := c.calls + 1 }

/-- The failure, if any, scheduled for the next driver command. -/
def Collection.fault {α : Type} (c : Collection α) : Option String :=
  match c.faults with
  | some msg :: _ => some msg
  | _ => none

/-- Function `primitive.NewObjectID`: a fresh id from the counter. -/
def Collection.NewObjectID {α : Type} (c : Collection α) : ObjectID × Collection α :=
  (⟨c.nextOID % 2 ^ 96⟩, { c with nextOID := c.nextOID + 1 })

/-- Driver call `InsertOne`: rejected when a stored document clashes with the
new one on a unique index (`clash`; every collection has the one on `_id`). -/
def Collection.InsertOne {α : Type} (clash : α → α → Bool) (c : Collection α) (doc : α) :
    Option Error × Collection α :=
  match c.fault with
  | some msg => (some (.network msg), c.sent)
  | none =>
    if c.docs.any (fun d => clash d doc) then (some .duplicateKey, c.sent)
    else (none, { c.sent with docs := c.docs ++ [doc] })

/-- Driver call `FindOne(filter).Decode`: the first matching document, or
`mongo.ErrNoDocuments`. -/
def Collection.FindOne {α : Type} (c : Collection α) (filter : α → Bool) :
    Except Error α × Collection α :=
  match c.fault with
  | some msg => (.error (.network msg), c.sent)
  | none =>
    match c.docs.find? filter with
    | none => (.error .noDocuments, c.sent)
    | some d => (.ok d, c.sent)

/-- Driver call `Find(filter)` followed by the cursor loop of the
repositories: the matching documents in natural order, collected by
`append` into a slice that starts `nil`. -/
def Collection.Find {α : Type} (c : Collection α) (filter : α → Bool) :
    Except Error (Slice α) × Collection α :=
  match c.fault with
  | some msg => (.error (.network msg), c.sent)
  | none => (.ok (Slice.collect (c.docs.filter filter)), c.sent)

/-- The documents with the first one matching `filter` replaced by its image
under `update`. -/
def updateFirst {α : Type} (filter : α → Bool) (update : α → α) : List α → List α
  | [] => []
  | d :: ds => if filter d then update d :: ds else d :: updateFirst filter update ds

/-- The documents without the first one matching `filter`. -/
def deleteFirst {α : Type} (filter : α → Bool) : List α → List α
  | [] => []
  | d :: ds => if filter d then ds else d :: deleteFirst filter ds

/-- Driver call `FindOneAndUpdate(filter, update)` with
`ReturnDocument: After`: the first matching document is updated and its
post-image returned, or `mongo.ErrNoDocuments`. -/
def Collection.FindOneAndUpdate {α : Type} (c : Collection α) (filter : α → Bool)
    (update : α → α) : Except Error α × Collection α :=
  match c.fault with
  | some msg => (.error (.network msg), c.sent)
  | none =>
    match c.docs.find? filter with
    | none => (.error .noDocuments, c.sent)
    | some d => (.ok (update d), { c.sent with docs := updateFirst filter update c.docs })

/-- Driver call `DeleteOne(filter)`: deleting nothing is not an error. -/
def Collection.DeleteOne {α : Type} (c : Collection α) (filter : α → Bool) :
    Option Error × Collection α :=
  match c.fault with
  | some msg => (some (.network msg), c.sent)
  | none => (none, { c.sent with docs := deleteFirst filter c.docs })

/-- Driver call `FindOneAndUpdate(filter, update)` with
`ReturnDocument: After` for an update the server may refuse (an operator that
does not apply to the matched document): the command then fails and nothing
is written. -/
def Collection.FindOneAndUpdateWith {α : Type} (c : Collection α) (filter : α → Bool)
    (update : α → Except Error α) : Except Error α × Collection α :=
  match c.fault with
  | some msg => (.error (.network msg), c.sent)
  | none =>
    match c.docs.find? filter with
    | none => (.error .noDocuments, c.sent)
    | some d =>
      match update d with
      | .error err => (.error err, c.sent)
      | .ok d1 => (.ok d1, { c.sent with docs := updateFirst filter (fun _ => d1) c.docs })

/-- Method `Decode(&v)` on the outcome of `FindOne` or `FindOneAndUpdate`:
`decode` is what the struct reads from the document. -/
def decodeOne {δ α σ : Type} (decode : δ → α) : Except Error δ × σ → Except Error α × σ
  | (.error err, s) => (.error err, s)
  | (.ok d, s) => (.ok (decode d), s)

/-- The cursor loop with `cur.Decode(&v)` on the outcome of `Find`. -/
def decodeAll {δ α σ : Type} (decode : δ → α) :
    Except Error (Slice δ) × σ → Except Error (Slice α) × σ
  | (.error err, s) => (.error err, s)
  | (.ok docs, s) => (.ok (docs.map (List.map decode)), s)

/-- A field of a stored document that the update operators `$push` and
`$pull` address: absent from the document, holding `null` (what the driver
stores for a `nil` slice), or holding an array of ids. -/
inductive ArrayField where
  | missing
  | null
  | array (ids : List ObjectID)
  deriving DecidableEq, Repr

/-- The value `$set` stores for a slice of ids. -/
def ArrayField.ofSlice : Slice ObjectID → ArrayField
  | none => .null
  | some l => .array l

/-- Update operator `$push`: it creates the array when the field is absent,
appends to an array, and is refused by the server on any other value. -/
def ArrayField.push : ArrayField → ObjectID → Except Error ArrayField
  | .missing, x => .ok (.array [x])
  | .array l, x => .ok (.array (l ++ [x]))
  | .null, _ => .error .badValue

/-- Update operator `$pull`: it has nothing to do when the field is absent,
removes every occurrence from an array, and is refused by the server on any
other value. -/
def ArrayField.pull : ArrayField → ObjectID → Except Error ArrayField
  | .missing, _ => .ok .missing
  | .array l, x => .ok (.array (l.filter (fun y => y ≠ x)))
  | .null, _ => .error .badValue

/-! ### `mongoBookRepo` -/

/-- Method `mongoBookRepo.Create`. -/
def mongoBookRepo.Create (st : Collection Book) (book : Book) :
    Except Error Book × Collection Book :=
  let (book, st) :=
    if book.ID = NilObjectID then
      let (oid, st1) := st.NewObjectID
      ({ book with ID := oid }, st1)
    else (book, st)
  match st.InsertOne (fun d e => d.ID = e.ID) book with
  | (some err, st1) => (.error err, st1)
  | (none, st1) => (.ok book, st1)

/-- Method `mongoBookRepo.GetByID`. -/
def mongoBookRepo.GetByID (st : Collection Book) (id : String) :
    Except Error Book × Collection Book :=
  match ObjectIDFromHex id with
  | .error _ => (.error (.new "invalid id format"), st)
  | .ok objID =>
    match st.FindOne (fun b => b.ID = objID) with
    | (.error err, st1) => (.error err, st1)
    | (.ok book, st1) => (.ok book, st1)

/-- Method `mongoBookRepo.findByFilterWithOpts` without options. -/
def mongoBookRepo.findByFilter (st : Collection Book) (filter : Book → Bool) :
    Except Error (Slice Book) × Collection Book :=
  st.Find filter

/-- Method `mongoBookRepo.ListAll`. -/
def mongoBookRepo.ListAll (st : Collection Book) : Except Error (Slice Book) × Collection Book :=
  st.Find (fun _ => true)

/-- Method `mongoBookRepo.Update`: `$set` of the whole book on the document
with its `_id`. -/
def mongoBookRepo.Update (st : Collection Book) (book : Book) :
    Except Error Book × Collection Book :=
  if book.ID = NilObjectID then (.error (.new "book ID is empty"), st)
  else
    match st.FindOneAndUpdate (fun b => b.ID = book.ID) (fun _ => book) with
    | (.error err, st1) => (.error err, st1)
    | (.ok updatedBook, st1) => (.ok updatedBook, st1)

/-- Method `mongoBookRepo.Delete`. -/
def mongoBookRepo.Delete (st : Collection Book) (id : String) :
    Option Error × Collection Book :=
  match ObjectIDFromHex id with
  | .error _ => (some (.new "invalid id format"), st)
  | .ok objID => st.DeleteOne (fun b => b.ID = objID)

/-- Method `mongoBookRepo.ListByGenre`. -/
def mongoBookRepo.ListByGenre (st : Collection Book) (genre : String) :
    Except Error (Slice Book) × Collection Book :=
  mongoBookRepo.findByFilter st (fun b => b.Genre = genre)

/-- Method `mongoBookRepo.ListByAuthor`. -/
def mongoBookRepo.ListByAuthor (st : Collection Book) (author : String) :
    Except Error (Slice Book) × Collection Book :=
  mongoBookRepo.findByFilter st (fun b => b.Author = author)

/-- Method `mongoBookRepo.ListByLanguage`. -/
def mongoBookRepo.ListByLanguage (st : Collection Book) (language : String) :
    Except Error (Slice Book) × Collection Book :=
  mongoBookRepo.findByFilter st (fun b => b.Language = language)

/-- Driver call `Find` with a sort and `SetLimit(10)`, as used by
`findByFilterWithOpts`: `order` is the sort the server applies. -/
def mongoBookRepo.findSortedLimit (st : Collection Book) (order : List Book → List Book) :
    Except Error (Slice Book) × Collection Book :=
  match st.fault with
  | some msg => (.error (.network msg), st.sent)
  | none => (.ok (Slice.collect ((order st.docs).take 10)), st.sent)

/-- Method `mongoBookRepo.ListTopRated`: rating descending, ten books. -/
def mongoBookRepo.ListTopRated (st : Collection Book) :
    Except Error (Slice Book) × Collection Book :=
  mongoBookRepo.findSortedLimit st
    (List.insertionSort (fun a b => Float32.sortsBefore b.Rating a.Rating = true))

/-- Method `mongoBookRepo.ListNewArrivals`: sorted on `created_at`, a field no
book document has, so the natural order stands; ten books. -/
def mongoBookRepo.ListNewArrivals (st : Collection Book) :
    Except Error (Slice Book) × Collection Book :=
  mongoBookRepo.findSortedLimit st id

/-- Method `mongoBookRepo.SearchBooks`; `textMatch` is the `$text` search of
the server's text index. -/
def mongoBookRepo.SearchBooks (textMatch : String → Book → Bool) (st : Collection Book)
    (keyword : String) : Except Error (Slice Book) × Collection Book :=
  mongoBookRepo.findByFilter st (textMatch keyword)

/-- Method `mongoBookRepo.RecommendBooks`. -/
def mongoBookRepo.RecommendBooks (st : Collection Book) (_bookID : String) :
    Except Error (Slice Book) × Collection Book :=
  mongoBookRepo.ListTopRated st

/-- The `mongoBookRepo` as a `BookRepository`. -/
def mongoBookRepo (textMatch : String → Book → Bool) : BookRepository (Collection Book) where
  Create := mongoBookRepo.Create
  GetByID := mongoBookRepo.GetByID
  ListAll := mongoBookRepo.ListAll
  Update := mongoBookRepo.Update
  Delete := mongoBookRepo.Delete
  ListByGenre := mongoBookRepo.ListByGenre
  ListByAuthor := mongoBookRepo.ListByAuthor
  ListByLanguage := mongoBookRepo.ListByLanguage
  ListTopRated := mongoBookRepo.ListTopRated
  ListNewArrivals := mongoBookRepo.ListNewArrivals
  SearchBooks := mongoBookRepo.SearchBooks textMatch
  RecommendBooks := mongoBookRepo.RecommendBooks

/-! ### `cachedBookRepo` -/

/-- Method `cachedBookRepo.getCacheKeyForBook`. -/
def cachedBookRepo.getCacheKeyForBook (id : String) : String := "book:" ++ id

/-- Method `cachedBookRepo.getCacheKeyForList`. -/
def cachedBookRepo.getCacheKeyForList (listType : String) : String := "books:" ++ listType

/-- Method `cachedBookRepo.Create`. -/
def cachedBookRepo.Create {σ : Type} (repo : BookRepository σ) (st : σ) (c : Redis BookJSON)
    (book : Book) : Except Error Book × σ × Redis BookJSON :=
  match repo.Create st book with
  | (.error err, st1) => (.error err, st1, c)
  | (.ok created, st1) =>
    let (_, c1) := redisBookCache.Delete c (cachedBookRepo.getCacheKeyForList "all")
    (.ok created, st1, c1)

/-- Method `cachedBookRepo.GetByID`. -/
def cachedBookRepo.GetByID {σ : Type} (repo : BookRepository σ) (st : σ) (c : Redis BookJSON)
    (id : String) : Except Error Book × σ × Redis BookJSON :=
  let cacheKey := cachedBookRepo.getCacheKeyForBook id
  match redisBookCache.Get c cacheKey with
  | (.ok book, c1) => (.ok book, st, c1)
  | (.error _, c1) =>
    match repo.GetByID st id with
    | (.error err, st1) => (.error err, st1, c1)
    | (.ok book, st1) =>
      let (_, c2) := redisBookCache.Set c1 cacheKey book (10 * Minute)
      (.ok book, st1, c2)

/-- Method `cachedBookRepo.ListAll`. -/
def cachedBookRepo.ListAll {σ : Type} (repo : BookRepository σ) (st : σ) (c : Redis BookJSON) :
    Except Error (Slice Book) × σ × Redis BookJSON :=
  let cacheKey := cachedBookRepo.getCacheKeyForList "all"
  match redisBookCache.GetList c cacheKey with
  | (.ok (some books), c1) => (.ok (some books), st, c1)
  | (_, c1) =>
    match repo.ListAll st with
    | (.error err, st1) => (.error err, st1, c1)
    | (.ok books, st1) =>
      let (_, c2) := redisBookCache.SetList c1 cacheKey books (5 * Minute)
      (.ok books, st1, c2)

/-- Method `cachedBookRepo.Update`. -/
def cachedBookRepo.Update {σ : Type} (repo : BookRepository σ) (st : σ) (c : Redis BookJSON)
    (book : Book) : Except Error Book × σ × Redis BookJSON :=
  match repo.Update st book with
  | (.error err, st1) => (.error err, st1, c)
  | (.ok updated, st1) =>
    let (_, c1) := redisBookCache.Delete c (cachedBookRepo.getCacheKeyForBook updated.ID.Hex)
    let (_, c2) := redisBookCache.Delete c1 (cachedBookRepo.getCacheKeyForList "all")
    (.ok updated, st1, c2)

/-- Method `cachedBookRepo.Delete`. -/
def cachedBookRepo.Delete {σ : Type} (repo : BookRepository σ) (st : σ) (c : Redis BookJSON)
    (id : String) : Option Error × σ × Redis BookJSON :=
  match repo.Delete st id with
  | (some err, st1) => (some err, st1, c)
  | (none, st1) =>
    let (_, c1) := redisBookCache.Delete c (cachedBookRepo.getCacheKeyForBook id)
    let (_, c2) := redisBookCache.Delete c1 (cachedBookRepo.getCacheKeyForList "all")
    (none, st1, c2)

/-- Method `cachedBookRepo.ListByGenre`. -/
def cachedBookRepo.ListByGenre {σ : Type} (repo : BookRepository σ) (st : σ)
    (c : Redis BookJSON) (genre : String) : Except Error (Slice Book) × σ × Redis BookJSON :=
  let cacheKey := cachedBookRepo.getCacheKeyForList ("genre:" ++ genre)
  match redisBookCache.GetList c cacheKey with
  | (.ok (some books), c1) => (.ok (some books), st, c1)
  | (_, c1) =>
    match repo.ListByGenre st genre with
    | (.error err, st1) => (.error err, st1, c1)
    | (.ok books, st1) =>
      let (_, c2) := redisBookCache.SetList c1 cacheKey books (10 * Minute)
      (.ok books, st1, c2)

/-- Method `cachedBookRepo.ListByAuthor`. -/
def cachedBookRepo.ListByAuthor {σ : Type} (repo : BookRepository σ) (st : σ)
    (c : Redis BookJSON) (author : String) : Except Error (Slice Book) × σ × Redis BookJSON :=
  let cacheKey := cachedBookRepo.getCacheKeyForList ("author:" ++ author)
  match redisBookCache.GetList c cacheKey with
  | (.ok (some books), c1) => (.ok (some books), st, c1)
  | (_, c1) =>
    match repo.ListByAuthor st author with
    | (.error err, st1) => (.error err, st1, c1)
    | (.ok books, st1) =>
      let (_, c2) := redisBookCache.SetList c1 cacheKey books (10 * Minute)
      (.ok books, st1, c2)

/-- Method `cachedBookRepo.ListByLanguage`. -/
def cachedBookRepo.ListByLanguage {σ : Type} (repo : BookRepository σ) (st : σ)
    (c : Redis BookJSON) (language : String) :
    Except Error (Slice Book) × σ × Redis BookJSON :=
  let cacheKey := cachedBookRepo.getCacheKeyForList ("language:" ++ language)
  match redisBookCache.GetList c cacheKey with
  | (.ok (some books), c1) => (.ok (some books), st, c1)
  | (_, c1) =>
    match repo.ListByLanguage st language with
    | (.error err, st1) => (.error err, st1, c1)
    | (.ok books, st1) =>
      let (_, c2) := redisBookCache.SetList c1 cacheKey books (10 * Minute)
      (.ok books, st1, c2)

/-- Method `cachedBookRepo.ListTopRated`. -/
def cachedBookRepo.ListTopRated {σ : Type} (repo : BookRepository σ) (st : σ)
    (c : Redis BookJSON) : Except Error (Slice Book) × σ × Redis BookJSON :=
  let cacheKey := cachedBookRepo.getCacheKeyForList "top_rated"
  match redisBookCache.GetList c cacheKey with
  | (.ok (some books), c1) => (.ok (some books), st, c1)
  | (_, c1) =>
    match repo.ListTopRated st with
    | (.error err, st1) => (.error err, st1, c1)
    | (.ok books, st1) =>
      let (_, c2) := redisBookCache.SetList c1 cacheKey books (15 * Minute)
      (.ok books, st1, c2)

/-- Method `cachedBookRepo.ListNewArrivals`. -/
def cachedBookRepo.ListNewArrivals {σ : Type} (repo : BookRepository σ) (st : σ)
    (c : Redis BookJSON) : Except Error (Slice Book) × σ × Redis BookJSON :=
  let cacheKey := cachedBookRepo.getCacheKeyForList "new_arrivals"
  match redisBookCache.GetList c cacheKey with
  | (.ok (some books), c1) => (.ok (some books), st, c1)
  | (_, c1) =>
    match repo.ListNewArrivals st with
    | (.error err, st1) => (.error err, st1, c1)
    | (.ok books, st1) =>
      let (_, c2) := redisBookCache.SetList c1 cacheKey books (30 * Minute)
      (.ok books, st1, c2)

/-- Method `cachedBookRepo.SearchBooks`. -/
def cachedBookRepo.SearchBooks {σ : Type} (repo : BookRepository σ) (st : σ)
    (c : Redis BookJSON) (keyword : String) :
    Except Error (Slice Book) × σ × Redis BookJSON :=
  let (res, st1) := repo.SearchBooks st keyword
  (res, st1, c)

/-- Method `cachedBookRepo.RecommendBooks`. -/
def cachedBookRepo.RecommendBooks {σ : Type} (repo : BookRepository σ) (st : σ)
    (c : Redis BookJSON) (bookID : String) :
    Except Error (Slice Book) × σ × Redis BookJSON :=
  let cacheKey := cachedBookRepo.getCacheKeyForList ("recommend:" ++ bookID)
  match redisBookCache.GetList c cacheKey with
  | (.ok (some books), c1) => (.ok (some books), st, c1)
  | (_, c1) =>
    match repo.RecommendBooks st bookID with
    | (.error err, st1) => (.error err, st1, c1)
    | (.ok books, st1) =>
      let (_, c2) := redisBookCache.SetList c1 cacheKey books (30 * Minute)
      (.ok books, st1, c2)

/-! ## Order service

`domain.Order`, `domain.ExchangeOffer` and `domain.UserBook` carry no `bson`
tags, unlike `domain.Book`.  The driver therefore stores and decodes their
fields under the lower-cased field names (`id`, `userid`, `bookids`,
`status`, `createdat`, `updatedat`, ...), and it adds a document id `_id` of
its own to every inserted document, since none of them has a field of that
name.  The repositories filter and update by `_id`, `user_id`, `book_ids`,
`updated_at`, ...: of these only `status` is a field that `Decode` reads.
A stored document is modelled with both sets of fields.

Orders, offers, library entries and users hold ids, strings and integers
only, so `json.Marshal` encodes every one of them: the branch their caches
have for its error is never taken and has no counterpart here. -/

/-- Struct `domain.Order`. -/
structure Order where
  ID : ObjectID
  UserID : ObjectID
  BookIDs : Slice ObjectID
  Status : String
  CreatedAt : DateTime
  UpdatedAt : DateTime
  deriving DecidableEq, Repr

/-- The zero value of `domain.Order`. -/
def Order.zero : Order := ⟨NilObjectID, NilObjectID, none, "", 0, 0⟩

/-- A document of the collection `orders`.  `fields` are the six fields of
the struct as `InsertOne` wrote them under their lower-cased names, and what
`Decode` reads back; `_id` is the document id the driver generated;
`user_id`, `book_ids` and `updated_at` are fields that exist only once an
update has written them. -/
structure OrderDoc where
  _id : ObjectID
  fields : Order
  user_id : Option ObjectID
  book_ids : ArrayField
  updated_at : Option DateTime
  deriving DecidableEq, Repr

/-- What a key of the order cache can hold. -/
inductive OrderJSON where
  | order (o : Order)
  | list (l : Slice Order)
  | invalid (raw : String)
  deriving DecidableEq, Repr

/-- Decoding `json.Unmarshal([]byte(val), &order)`. -/
def unmarshalOrder : OrderJSON → Except Error Order
  | .order o => .ok o
  | .list none => .ok Order.zero
  | .list (some _) => .error .unmarshal
  | .invalid _ => .error .unmarshal

/-- Decoding `json.Unmarshal([]byte(val), &orders)`. -/
def unmarshalOrders : OrderJSON → Except Error (Slice Order)
  | .list l => .ok l
  | .order _ => .error .unmarshal
  | .invalid _ => .error .unmarshal

/-- Constant `orderCacheTTL`. -/
def orderCacheTTL : Duration := 15 * Minute

/-- Method `orderCache.orderKey`. -/
def orderCache.orderKey (id : String) : String := "order:" ++ id

/-- Method `orderCache.userOrdersKey`. -/
def orderCache.userOrdersKey (userID : String) : String := "user_orders:" ++ userID

/-- Method `orderCache.Get`: `(nil, nil)` on `redis.Nil`. -/
def orderCache.Get (c : Redis OrderJSON) (id : String) :
    Except Error (Option Order) × Redis OrderJSON :=
  let key := orderCache.orderKey id
  match c.Get key with
  | (.error err, c1) =>
    if err = .redisNil then (.ok none, c1)
    else (.error (.wrapped "redis get error" err), c1)
  | (.ok val, c1) =>
    match unmarshalOrder val with
    | .error err => (.error (.wrapped "json unmarshal error" err), c1)
    | .ok order => (.ok (some order), c1)

/-- Method `orderCache.Set`. -/
def orderCache.Set (c : Redis OrderJSON) (order : Order) : Option Error × Redis OrderJSON :=
  let key := orderCache.orderKey order.ID.Hex
  match c.Set key (.order order) orderCacheTTL with
  | (some err, c1) => (some (.wrapped "redis set error" err), c1)
  | (none, c1) => (none, c1)

/-- Method `orderCache.Delete`. -/
def orderCache.Delete (c : Redis OrderJSON) (id : String) : Option Error × Redis OrderJSON :=
  let key := orderCache.orderKey id
  match c.Del key with
  | (some err, c1) => (some (.wrapped "redis del error" err), c1)
  | (none, c1) => (none, c1)

/-- Method `orderCache.SetByUser`. -/
def orderCache.SetByUser (c : Redis OrderJSON) (userID : String) (orders : Slice Order) :
    Option Error × Redis OrderJSON :=
  let key := orderCache.userOrdersKey userID
  match c.Set key (.list orders) orderCacheTTL with
  | (some err, c1) => (some (.wrapped "redis set error" err), c1)
  | (none, c1) => (none, c1)

/-- Method `orderCache.GetByUser`: `(nil, nil)` on `redis.Nil`. -/
def orderCache.GetByUser (c : Redis OrderJSON) (userID : String) :
    Except Error (Slice Order) × Redis OrderJSON :=
  let key := orderCache.userOrdersKey userID
  match c.Get key with
  | (.error err, c1) =>
    if err = .redisNil then (.ok none, c1)
    else (.error (.wrapped "redis get error" err), c1)
  | (.ok val, c1) =>
    match unmarshalOrders val with
    | .error err => (.error (.wrapped "json unmarshal error" err), c1)
    | .ok orders => (.ok orders, c1)

/-- Method `orderCache.DeleteByUser`. -/
def orderCache.DeleteByUser (c : Redis OrderJSON) (userID : String) :
    Option Error × Redis OrderJSON :=
  let key := orderCache.userOrdersKey userID
  match c.Del key with
  | (some err, c1) => (some (.wrapped "redis del error" err), c1)
  | (none, c1) => (none, c1)

/-- Method `mongoOrderRepo.Create`.  The document handed to `InsertOne` has
no field `_id`, so the driver draws one more id for it. -/
def mongoOrderRepo.Create (st : Collection OrderDoc) (c : Redis OrderJSON) (order : Order) :
    Except Error Order × Collection OrderDoc × Redis OrderJSON :=
  let (oid, st0) := st.NewObjectID
  let now := st.clock
  let order := { order with ID := oid, CreatedAt := now, UpdatedAt := now }
  let (docID, st0) := st0.NewObjectID
  match st0.InsertOne (fun d e => d._id = e._id) ⟨docID, order, none, .missing, none⟩ with
  | (some err, st1) => (.error err, st1, c)
  | (none, st1) =>
    let (_, c1) := orderCache.DeleteByUser c order.UserID.Hex
    (.ok order, st1, c1)

/-- Method `mongoOrderRepo.GetByID`.  The goroutine `go r.cache.Set(...)` is
taken to have completed when the method returns. -/
def mongoOrderRepo.GetByID (st : Collection OrderDoc) (c : Redis OrderJSON) (id : String) :
    Except Error Order × Collection OrderDoc × Redis OrderJSON :=
  match orderCache.Get c id with
  | (.error err, c1) => (.error err, st, c1)
  | (.ok (some cached), c1) => (.ok cached, st, c1)
  | (.ok none, c1) =>
    match ObjectIDFromHex id with
    | .error err => (.error err, st, c1)
    | .ok objID =>
      match decodeOne OrderDoc.fields (st.FindOne (fun d => d._id = objID)) with
      | (.error err, st1) => (.error err, st1, c1)
      | (.ok o, st1) =>
        let (_, c2) := orderCache.Set c1 o
        (.ok o, st1, c2)

/-- Method `mongoOrderRepo.ListByUser`.  The goroutine
`go r.cache.SetByUser(...)` is taken to have completed when the method
returns. -/
def mongoOrderRepo.ListByUser (st : Collection OrderDoc) (c : Redis OrderJSON)
    (userID : String) : Except Error (Slice Order) × Collection OrderDoc × Redis OrderJSON :=
  match orderCache.GetByUser c userID with
  | (.error err, c1) => (.error err, st, c1)
  | (.ok (some cached), c1) => (.ok (some cached), st, c1)
  | (.ok none, c1) =>
    match ObjectIDFromHex userID with
    | .error err => (.error err, st, c1)
    | .ok uid =>
      match decodeAll OrderDoc.fields (st.Find (fun d => d.user_id = some uid)) with
      | (.error err, st1) => (.error err, st1, c1)
      | (.ok orders, st1) =>
        let (_, c2) := orderCache.SetByUser c1 userID orders
        (.ok orders, st1, c2)

/-- Method `mongoOrderRepo.updateStatusWithCache`. -/
def mongoOrderRepo.updateStatusWithCache (st : Collection OrderDoc) (c : Redis OrderJSON)
    (id status : String) : Except Error Order × Collection OrderDoc × Redis OrderJSON :=
  match ObjectIDFromHex id with
  | .error err => (.error err, st, c)
  | .ok objID =>
    match decodeOne OrderDoc.fields (st.FindOne (fun d => d._id = objID)) with
    | (.error err, st1) => (.error err, st1, c)
    | (.ok existing, st1) =>
      let now := st.clock
      match decodeOne OrderDoc.fields (st1.FindOneAndUpdate (fun d => d._id = objID)
          (fun d => { d with fields := { d.fields with Status := status },
                             updated_at := some now })) with
      | (.error err, st2) => (.error err, st2, c)
      | (.ok updated, st2) =>
        let (_, c1) := orderCache.Delete c id
        let (_, c2) := orderCache.DeleteByUser c1 existing.UserID.Hex
        (.ok updated, st2, c2)

/-- Method `mongoOrderRepo.Cancel`. -/
def mongoOrderRepo.Cancel (st : Collection OrderDoc) (c : Redis OrderJSON) (id : String) :
    Except Error Order × Collection OrderDoc × Redis OrderJSON :=
  mongoOrderRepo.updateStatusWithCache st c id "Cancelled"

/-- Method `mongoOrderRepo.Return`. -/
def mongoOrderRepo.Return (st : Collection OrderDoc) (c : Redis OrderJSON) (id : String) :
    Except Error Order × Collection OrderDoc × Redis OrderJSON :=
  mongoOrderRepo.updateStatusWithCache st c id "Returned"

/-- Method `mongoOrderRepo.Update`. -/
def mongoOrderRepo.Update (st : Collection OrderDoc) (c : Redis OrderJSON) (order : Order) :
    Except Error Order × Collection OrderDoc × Redis OrderJSON :=
  let now := st.clock
  match decodeOne OrderDoc.fields (st.FindOneAndUpdate (fun d => d._id = order.ID)
      (fun d => { d with fields := { d.fields with Status := order.Status },
                         user_id := some order.UserID,
                         book_ids := ArrayField.ofSlice order.BookIDs,
                         updated_at := some now })) with
  | (.error err, st1) => (.error err, st1, c)
  | (.ok updated, st1) =>
    let (_, c1) := orderCache.Delete c order.ID.Hex
    let (_, c2) := orderCache.DeleteByUser c1 order.UserID.Hex
    (.ok updated, st1, c2)

/-! ## Message bus -/

/-- A field value of an event payload. -/
inductive JVal where
  | str (s : String)
  | strs (l : List String)
  deriving DecidableEq, Repr

/-- JSON object of an event: field names with their values, in struct order. -/
abbrev Payload := List (String × JVal)

/-- State of the NATS connection: the messages accepted by the bus, oldest
first, and the fault schedule of `Publish`. -/
structure Nats where
  published : List (String × Payload)
  faults : List (Option String)
  deriving DecidableEq, Repr

/-- Method `nats.Conn.Publish`. -/
def Nats.Publish (nc : Nats) (subject : String) (data : Payload) : Option Error × Nats :=
  match nc.faults with
  | some msg :: rest => (some (.network msg), { nc with faults := rest })
  | _ => (none, { published := nc.published ++ [(subject, data)], faults := nc.faults.tail })

/-! ## Exchange service -/

/-- Struct `domain.ExchangeOffer`. -/
structure ExchangeOffer where
  ID : ObjectID
  OwnerID : ObjectID
  CounterpartyID : ObjectID
  OfferedBookIDs : Slice ObjectID
  RequestedBookIDs : Slice ObjectID
  Status : String
  CreatedAt : DateTime
  UpdatedAt : DateTime
  deriving DecidableEq, Repr

/-- Interface `repository.ExchangeRepository`, over a store state `σ`. -/
structure ExchangeRepository (σ : Type) where
  CreateOffer : σ → ExchangeOffer → Except Error ExchangeOffer × σ
  GetOffer : σ → String → Except Error ExchangeOffer × σ
  ListOffersByUser : σ → String → Except Error (Slice ExchangeOffer) × σ
  ListPendingOffers : σ → Except Error (Slice ExchangeOffer) × σ
  AcceptOffer : σ → String → Except Error ExchangeOffer × σ
  DeclineOffer : σ → String → Except Error ExchangeOffer × σ
  DeleteOffer : σ → String → Option Error × σ
  UpdateOffer : σ → ExchangeOffer → Except Error ExchangeOffer × σ
  AddOfferedBook : σ → String → String → Except Error ExchangeOffer × σ
  RemoveOfferedBook : σ → String → String → Except Error ExchangeOffer × σ
  ListAllOffers : σ → Except Error (Slice ExchangeOffer) × σ
  ListOffersByStatus : σ → String → Except Error (Slice ExchangeOffer) × σ

/-- A document of the collection `exchange_offers`.  `fields` are the eight
fields of the struct as `InsertOne` wrote them under their lower-cased names,
and what `Decode` reads back; `_id` is the document id the driver generated;
the other fields exist only once an update has written them. -/
structure OfferDoc where
  _id : ObjectID
  fields : ExchangeOffer
  owner_id : Option ObjectID
  counterparty_id : Option ObjectID
  offered_book_ids : ArrayField
  requested_book_ids : ArrayField
  updated_at : Option DateTime
  deriving DecidableEq, Repr

/-- Method `mongoExchangeRepo.CreateOffer`.  The document handed to
`InsertOne` has no field `_id`, so the driver draws one more id for it. -/
def mongoExchangeRepo.CreateOffer (st : Collection OfferDoc) (offer : ExchangeOffer) :
    Except Error ExchangeOffer × Collection OfferDoc :=
  let (oid, st0) := st.NewObjectID
  let now := st.clock
  let offer := { offer with ID := oid, CreatedAt := now, UpdatedAt := now, Status := "PENDING" }
  let (docID, st0) := st0.NewObjectID
  match st0.InsertOne (fun d e => d._id = e._id)
      ⟨docID, offer, none, none, .missing, .missing, none⟩ with
  | (some err, st1) => (.error err, st1)
  | (none, st1) => (.ok offer, st1)

/-- Method `mongoExchangeRepo.GetOffer`. -/
def mongoExchangeRepo.GetOffer (st : Collection OfferDoc) (id : String) :
    Except Error ExchangeOffer × Collection OfferDoc :=
  match ObjectIDFromHex id with
  | .error err => (.error err, st)
  | .ok objID => decodeOne OfferDoc.fields (st.FindOne (fun d => d._id = objID))

/-- Method `mongoExchangeRepo.ListOffersByUser`. -/
def mongoExchangeRepo.ListOffersByUser (st : Collection OfferDoc) (ownerID : String) :
    Except Error (Slice ExchangeOffer) × Collection OfferDoc :=
  match ObjectIDFromHex ownerID with
  | .error err => (.error err, st)
  | .ok oid => decodeAll OfferDoc.fields (st.Find (fun d => d.owner_id = some oid))

/-- Method `mongoExchangeRepo.ListPendingOffers`. -/
def mongoExchangeRepo.ListPendingOffers (st : Collection OfferDoc) :
    Except Error (Slice ExchangeOffer) × Collection OfferDoc :=
  decodeAll OfferDoc.fields (st.Find (fun d => d.fields.Status = "PENDING"))

/-- Method `mongoExchangeRepo.updateStatus`. -/
def mongoExchangeRepo.updateStatus (st : Collection OfferDoc) (id status : String) :
    Except Error ExchangeOffer × Collection OfferDoc :=
  match ObjectIDFromHex id with
  | .error err => (.error err, st)
  | .ok objID =>
    let now := st.clock
    decodeOne OfferDoc.fields (st.FindOneAndUpdate (fun d => d._id = objID)
      (fun d => { d with fields := { d.fields with Status := status },
                         updated_at := some now }))

/-- Method `mongoExchangeRepo.AcceptOffer`. -/
def mongoExchangeRepo.AcceptOffer (st : Collection OfferDoc) (id : String) :
    Except Error ExchangeOffer × Collection OfferDoc :=
  mongoExchangeRepo.updateStatus st id "ACCEPTED"

/-- Method `mongoExchangeRepo.DeclineOffer`. -/
def mongoExchangeRepo.DeclineOffer (st : Collection OfferDoc) (id : String) :
    Except Error ExchangeOffer × Collection OfferDoc :=
  mongoExchangeRepo.updateStatus st id "DECLINED"

/-- Method `mongoExchangeRepo.DeleteOffer`. -/
def mongoExchangeRepo.DeleteOffer (st : Collection OfferDoc) (id : String) :
    Option Error × Collection OfferDoc :=
  match ObjectIDFromHex id with
  | .error err => (some err, st)
  | .ok objID => st.DeleteOne (fun d => d._id = objID)

/-- Method `mongoExchangeRepo.UpdateOffer`. -/
def mongoExchangeRepo.UpdateOffer (st : Collection OfferDoc) (offer : ExchangeOffer) :
    Except Error ExchangeOffer × Collection OfferDoc :=
  let now := st.clock
  decodeOne OfferDoc.fields (st.FindOneAndUpdate (fun d => d._id = offer.ID)
    (fun d => { d with fields := { d.fields with Status := offer.Status },
                       owner_id := some offer.OwnerID,
                       counterparty_id := some offer.CounterpartyID,
                       offered_book_ids := ArrayField.ofSlice offer.OfferedBookIDs,
                       requested_book_ids := ArrayField.ofSlice offer.RequestedBookIDs,
                       updated_at := some now }))

/-- Method `mongoExchangeRepo.AddOfferedBook`. -/
def mongoExchangeRepo.AddOfferedBook (st : Collection OfferDoc) (offerID bookID : String) :
    Except Error ExchangeOffer × Collection OfferDoc :=
  match ObjectIDFromHex offerID with
  | .error err => (.error err, st)
  | .ok objID =>
    match ObjectIDFromHex bookID with
    | .error err => (.error err, st)
    | .ok bid =>
      let now := st.clock
      decodeOne OfferDoc.fields (st.FindOneAndUpdateWith (fun d => d._id = objID)
        (fun d => (d.offered_book_ids.push bid).map
          (fun a => { d with offered_book_ids := a, updated_at := some now })))

/-- Method `mongoExchangeRepo.RemoveOfferedBook`. -/
def mongoExchangeRepo.RemoveOfferedBook (st : Collection OfferDoc)
    (offerID bookID : String) : Except Error ExchangeOffer × Collection OfferDoc :=
  match ObjectIDFromHex offerID with
  | .error err => (.error err, st)
  | .ok objID =>
    match ObjectIDFromHex bookID with
    | .error err => (.error err, st)
    | .ok bid =>
      let now := st.clock
      decodeOne OfferDoc.fields (st.FindOneAndUpdateWith (fun d => d._id = objID)
        (fun d => (d.offered_book_ids.pull bid).map
          (fun a => { d with offered_book_ids := a, updated_at := some now })))

/-- Method `mongoExchangeRepo.ListAllOffers`. -/
def mongoExchangeRepo.ListAllOffers (st : Collection OfferDoc) :
    Except Error (Slice ExchangeOffer) × Collection OfferDoc :=
  decodeAll OfferDoc.fields (st.Find (fun _ => true))

/-- Method `mongoExchangeRepo.ListOffersByStatus`. -/
def mongoExchangeRepo.ListOffersByStatus (st : Collection OfferDoc) (status : String) :
    Except Error (Slice ExchangeOffer) × Collection OfferDoc :=
  decodeAll OfferDoc.fields (st.Find (fun d => d.fields.Status = status))

/-- The `mongoExchangeRepo` as an `ExchangeRepository`. -/
def mongoExchangeRepo : ExchangeRepository (Collection OfferDoc) where
  CreateOffer := mongoExchangeRepo.CreateOffer
  GetOffer := mongoExchangeRepo.GetOffer
  ListOffersByUser := mongoExchangeRepo.ListOffersByUser
  ListPendingOffers := mongoExchangeRepo.ListPendingOffers
  AcceptOffer := mongoExchangeRepo.AcceptOffer
  DeclineOffer := mongoExchangeRepo.DeclineOffer
  DeleteOffer := mongoExchangeRepo.DeleteOffer
  UpdateOffer := mongoExchangeRepo.UpdateOffer
  AddOfferedBook := mongoExchangeRepo.AddOfferedBook
  RemoveOfferedBook := mongoExchangeRepo.RemoveOfferedBook
  ListAllOffers := mongoExchangeRepo.ListAllOffers
  ListOffersByStatus := mongoExchangeRepo.ListOffersByStatus

/-- What a key of the exchange cache can hold. -/
inductive OffersJSON where
  | list (l : Slice ExchangeOffer)
  | invalid (raw : String)
  deriving DecidableEq, Repr

/-- Decoding `json.Unmarshal(data, &offers)`. -/
def unmarshalOffers : OffersJSON → Except Error (Slice ExchangeOffer)
  | .list l => .ok l
  | .invalid _ => .error .unmarshal

/-- The TTL `main` of the exchange service passes to `NewRedisExchangeCache`. -/
def exchangeCacheTTL : Duration := 5 * Minute

/-- Method `RedisExchangeCache.ListByUser`; `ttl` is the field `c.ttl`. -/
def RedisExchangeCache.ListByUser {σ : Type} (repo : ExchangeRepository σ) (ttl : Duration)
    (st : σ) (c : Redis OffersJSON) (userID : String) :
    Except Error (Slice ExchangeOffer) × σ × Redis OffersJSON :=
  let key := "exchange:offers:user:" ++ userID
  let fromStore := fun (c1 : Redis OffersJSON) =>
    match repo.ListOffersByUser st userID with
    | (.error err, st1) => (Except.error err, st1, c1)
    | (.ok offers, st1) =>
      let (_, c2) := c1.Set key (.list offers) ttl
      (.ok offers, st1, c2)
  match c.Get key with
  | (.ok data, c1) =>
    match unmarshalOffers data with
    | .ok offers => (.ok offers, st, c1)
    | .error _ => fromStore c1
  | (.error err, c1) =>
    if err ≠ .redisNil then (.error err, st, c1)
    else fromStore c1

/-- Method `RedisExchangeCache.ListPending`; `ttl` is the field `c.ttl`. -/
def RedisExchangeCache.ListPending {σ : Type} (repo : ExchangeRepository σ) (ttl : Duration)
    (st : σ) (c : Redis OffersJSON) :
    Except Error (Slice ExchangeOffer) × σ × Redis OffersJSON :=
  let key := "exchange:offers:pending"
  let fromStore := fun (c1 : Redis OffersJSON) =>
    match repo.ListPendingOffers st with
    | (.error err, st1) => (Except.error err, st1, c1)
    | (.ok offers, st1) =>
      let (_, c2) := c1.Set key (.list offers) ttl
      (.ok offers, st1, c2)
  match c.Get key with
  | (.ok data, c1) =>
    match unmarshalOffers data with
    | .ok offers => (.ok offers, st, c1)
    | .error _ => fromStore c1
  | (.error err, c1) =>
    if err ≠ .redisNil then (.error err, st, c1)
    else fromStore c1

/-- Method `RedisExchangeCache.InvalidateUser`. -/
def RedisExchangeCache.InvalidateUser (c : Redis OffersJSON) (userID : String) :
    Option Error × Redis OffersJSON :=
  c.Del ("exchange:offers:user:" ++ userID)

/-- Method `RedisExchangeCache.InvalidatePending`. -/
def RedisExchangeCache.InvalidatePending (c : Redis OffersJSON) :
    Option Error × Redis OffersJSON :=
  c.Del "exchange:offers:pending"

/-- Method `exchangeUseCase.CreateOffer`.  The owner whose list is invalidated
is read from the offer passed in; the repository is taken to leave that
field of it alone, as `mongoExchangeRepo.CreateOffer` does. -/
def exchangeUseCase.CreateOffer {σ : Type} (repo : ExchangeRepository σ) (st : σ)
    (c : Redis OffersJSON) (offer : ExchangeOffer) :
    Except Error ExchangeOffer × σ × Redis OffersJSON :=
  match repo.CreateOffer st offer with
  | (.error err, st1) => (.error err, st1, c)
  | (.ok created, st1) =>
    let (_, c1) := RedisExchangeCache.InvalidatePending c
    let (_, c2) := RedisExchangeCache.InvalidateUser c1 offer.OwnerID.Hex
    (.ok created, st1, c2)

/-- Method `exchangeUseCase.GetOfferByID`. -/
def exchangeUseCase.GetOfferByID {σ : Type} (repo : ExchangeRepository σ) (st : σ)
    (c : Redis OffersJSON) (id : String) : Except Error ExchangeOffer × σ × Redis OffersJSON :=
  let (res, st1) := repo.GetOffer st id
  (res, st1, c)

/-- Method `exchangeUseCase.AcceptOffer`. -/
def exchangeUseCase.AcceptOffer {σ : Type} (repo : ExchangeRepository σ) (st : σ)
    (c : Redis OffersJSON) (offerID requesterID : String) :
    Except Error ExchangeOffer × σ × Redis OffersJSON :=
  match repo.AcceptOffer st offerID with
  | (.error err, st1) => (.error err, st1, c)
  | (.ok offer, st1) =>
    let (_, c1) := RedisExchangeCache.InvalidatePending c
    let (_, c2) := RedisExchangeCache.InvalidateUser c1 offer.OwnerID.Hex
    let (_, c3) := RedisExchangeCache.InvalidateUser c2 requesterID
    (.ok offer, st1, c3)

/-- Method `exchangeUseCase.DeclineOffer`. -/
def exchangeUseCase.DeclineOffer {σ : Type} (repo : ExchangeRepository σ) (st : σ)
    (c : Redis OffersJSON) (id : String) : Except Error ExchangeOffer × σ × Redis OffersJSON :=
  match repo.DeclineOffer st id with
  | (.error err, st1) => (.error err, st1, c)
  | (.ok o, st1) =>
    let (_, c1) := RedisExchangeCache.InvalidatePending c
    let (_, c2) := RedisExchangeCache.InvalidateUser c1 o.OwnerID.Hex
    (.ok o, st1, c2)

/-- Method `exchangeUseCase.DeleteOffer`. -/
def exchangeUseCase.DeleteOffer {σ : Type} (repo : ExchangeRepository σ) (st : σ)
    (c : Redis OffersJSON) (id : String) : Option Error × σ × Redis OffersJSON :=
  match repo.GetOffer st id with
  | (.error err, st1) => (some err, st1, c)
  | (.ok o, st1) =>
    match repo.DeleteOffer st1 id with
    | (some err, st2) => (some err, st2, c)
    | (none, st2) =>
      let (_, c1) := RedisExchangeCache.InvalidatePending c
      let (_, c2) := RedisExchangeCache.InvalidateUser c1 o.OwnerID.Hex
      (none, st2, c2)

/-- Method `exchangeUseCase.UpdateOffer`. -/
def exchangeUseCase.UpdateOffer {σ : Type} (repo : ExchangeRepository σ) (st : σ)
    (c : Redis OffersJSON) (offer : ExchangeOffer) :
    Except Error ExchangeOffer × σ × Redis OffersJSON :=
  match repo.UpdateOffer st offer with
  | (.error err, st1) => (.error err, st1, c)
  | (.ok updated, st1) =>
    let (_, c1) := RedisExchangeCache.InvalidatePending c
    let (_, c2) := RedisExchangeCache.InvalidateUser c1 offer.OwnerID.Hex
    (.ok updated, st1, c2)

/-- Method `exchangeUseCase.AddOfferedBook`. -/
def exchangeUseCase.AddOfferedBook {σ : Type} (repo : ExchangeRepository σ) (st : σ)
    (c : Redis OffersJSON) (offerID bookID : String) :
    Except Error ExchangeOffer × σ × Redis OffersJSON :=
  match repo.AddOfferedBook st offerID bookID with
  | (.error err, st1) => (.error err, st1, c)
  | (.ok updated, st1) =>
    let (_, c1) := RedisExchangeCache.InvalidatePending c
    let (_, c2) := RedisExchangeCache.InvalidateUser c1 updated.OwnerID.Hex
    (.ok updated, st1, c2)

/-- Method `exchangeUseCase.RemoveOfferedBook`. -/
def exchangeUseCase.RemoveOfferedBook {σ : Type} (repo : ExchangeRepository σ) (st : σ)
    (c : Redis OffersJSON) (offerID bookID : String) :
    Except Error ExchangeOffer × σ × Redis OffersJSON :=
  match repo.RemoveOfferedBook st offerID bookID with
  | (.error err, st1) => (.error err, st1, c)
  | (.ok updated, st1) =>
    let (_, c1) := RedisExchangeCache.InvalidatePending c
    let (_, c2) := RedisExchangeCache.InvalidateUser c1 updated.OwnerID.Hex
    (.ok updated, st1, c2)

/-- Message `exchangepb.CreateOfferRequest`. -/
structure CreateOfferRequest where
  OwnerId : String
  CounterpartyId : String
  OfferedBookIds : List String
  RequestedBookIds : List String
  deriving DecidableEq, Repr

/-- Message `exchangepb.AcceptOfferRequest`. -/
structure AcceptOfferRequest where
  OfferId : String
  RequesterId : String
  deriving DecidableEq, Repr

/-- Message `exchangepb.OfferID`. -/
structure OfferID where
  Id : String
  deriving DecidableEq, Repr

/-- Message `exchangepb.ExchangeOffer`. -/
structure ExchangeOfferPB where
  Id : String
  OwnerId : String
  CounterpartyId : String
  OfferedBookIds : List String
  RequestedBookIds : List String
  Status : String
  CreatedAt : String
  UpdatedAt : String
  deriving DecidableEq, Repr

/-- Function `toHexs` of the exchange handler. -/
def toHexs (ids : Slice ObjectID) : List String := (ids.getD []).map ObjectID.Hex

/-- Function `toObjectIDs` of the exchange handler: an id that does not parse
leaves the zero id in its place. -/
def toObjectIDs (strs : List String) : Slice ObjectID :=
  some (strs.map (fun s =>
    match ObjectIDFromHex s with
    | .ok oid => oid
    | .error _ => NilObjectID))

/-- Function `mapDomain` of the exchange handler; `fmtTime` renders
`DateTime.Time().String()`. -/
def mapDomain (fmtTime : DateTime → String) (o : ExchangeOffer) : ExchangeOfferPB where
  Id := o.ID.Hex
  OwnerId := o.OwnerID.Hex
  CounterpartyId := o.CounterpartyID.Hex
  OfferedBookIds := toHexs o.OfferedBookIDs
  RequestedBookIds := toHexs o.RequestedBookIDs
  Status := o.Status
  CreatedAt := fmtTime o.CreatedAt
  UpdatedAt := fmtTime o.UpdatedAt

/-- Method `ExchangeHandler.CreateOffer`; `now` is the handler's reading of
`time.Now()`. -/
def ExchangeHandler.CreateOffer {σ : Type} (repo : ExchangeRepository σ)
    (fmtTime : DateTime → String) (now : DateTime) (st : σ) (c : Redis OffersJSON) (nc : Nats)
    (req : Option CreateOfferRequest) :
    Except Error ExchangeOfferPB × σ × Redis OffersJSON × Nats :=
  match req with
  | none =>
    (.error (.status "InvalidArgument"
      "owner_id, counterparty_id, offered_book_ids and requested_book_ids are required"),
      st, c, nc)
  | some req =>
    if req.OwnerId = "" ∨ req.CounterpartyId = "" ∨
        req.OfferedBookIds.length = 0 ∨ req.RequestedBookIds.length = 0 then
      (.error (.status "InvalidArgument"
        "owner_id, counterparty_id, offered_book_ids and requested_book_ids are required"),
        st, c, nc)
    else
      match ObjectIDFromHex req.OwnerId with
      | .error _ => (.error (.status "InvalidArgument" "invalid owner_id"), st, c, nc)
      | .ok ownerOID =>
        match ObjectIDFromHex req.CounterpartyId with
        | .error _ => (.error (.status "InvalidArgument" "invalid counterparty_id"), st, c, nc)
        | .ok cpOID =>
          let offered := toObjectIDs req.OfferedBookIds
          let requested := toObjectIDs req.RequestedBookIds
          let offer : ExchangeOffer :=
            { ID := NilObjectID, OwnerID := ownerOID, CounterpartyID := cpOID,
              OfferedBookIDs := offered, RequestedBookIDs := requested,
              Status := "PENDING", CreatedAt := now, UpdatedAt := now }
          match exchangeUseCase.CreateOffer repo st c offer with
          | (.error err, st1, c1) =>
            (.error (.statusf "Internal" "cannot create offer" err), st1, c1, nc)
          | (.ok created, st1, c1) =>
            let (_, nc1) := nc.Publish "exchange.created" [("offer_id", .str created.ID.Hex)]
            (.ok (mapDomain fmtTime created), st1, c1, nc1)

/-- Method `ExchangeHandler.AcceptOffer`. -/
def ExchangeHandler.AcceptOffer {σ : Type} (repo : ExchangeRepository σ)
    (fmtTime : DateTime → String) (st : σ) (c : Redis OffersJSON) (nc : Nats)
    (req : Option AcceptOfferRequest) :
    Except Error ExchangeOfferPB × σ × Redis OffersJSON × Nats :=
  match req with
  | none =>
    (.error (.status "InvalidArgument" "offer_id and requester_id are required"), st, c, nc)
  | some req =>
    if req.OfferId = "" ∨ req.RequesterId = "" then
      (.error (.status "InvalidArgument" "offer_id and requester_id are required"), st, c, nc)
    else
      match exchangeUseCase.AcceptOffer repo st c req.OfferId req.RequesterId with
      | (.error err, st1, c1) =>
        (.error (.statusf "Internal" "cannot accept offer" err), st1, c1, nc)
      | (.ok offer, st1, c1) => (.ok (mapDomain fmtTime offer), st1, c1, nc)

/-- Method `ExchangeHandler.DeclineOffer`. -/
def ExchangeHandler.DeclineOffer {σ : Type} (repo : ExchangeRepository σ)
    (fmtTime : DateTime → String) (st : σ) (c : Redis OffersJSON) (nc : Nats)
    (req : Option OfferID) :
    Except Error ExchangeOfferPB × σ × Redis OffersJSON × Nats :=
  match req with
  | none => (.error (.status "InvalidArgument" "offer id is required"), st, c, nc)
  | some req =>
    if req.Id = "" then
      (.error (.status "InvalidArgument" "offer id is required"), st, c, nc)
    else
      match exchangeUseCase.DeclineOffer repo st c req.Id with
      | (.error err, st1, c1) =>
        (.error (.statusf "Internal" "cannot decline offer" err), st1, c1, nc)
      | (.ok offer, st1, c1) => (.ok (mapDomain fmtTime offer), st1, c1, nc)

/-! ## User-library service -/

/-- Struct `domain.UserBook`. -/
structure UserBook where
  ID : ObjectID
  UserID : ObjectID
  BookID : ObjectID
  deriving DecidableEq, Repr

/-- Interface `repository.UserBookRepo`, over a store state `σ`. -/
structure UserBookRepo (σ : Type) where
  AssignBook : σ → UserBook → Except Error UserBook × σ
  UnassignBook : σ → String → String → Option Error × σ
  ListUserBooks : σ → String → Except Error (Slice UserBook) × σ
  GetEntry : σ → String → Except Error UserBook × σ
  DeleteEntry : σ → String → Option Error × σ
  UpdateEntry : σ → UserBook → Except Error UserBook × σ
  ListAllEntries : σ → Except Error (Slice UserBook) × σ
  ListByBook : σ → String → Except Error (Slice UserBook) × σ

/-- A document of the collection `user_books`.  `fields` are the three fields
of the struct as `InsertOne` wrote them under their lower-cased names (`id`,
`userid`, `bookid`), and what `Decode` reads back; `_id` is the document id
the driver generated; `user_id` and `book_id` exist only once `UpdateEntry`
has written them. -/
structure UserBookDoc where
  _id : ObjectID
  fields : UserBook
  user_id : Option ObjectID
  book_id : Option ObjectID
  deriving DecidableEq, Repr

/-- Method `mongoUserBookRepo.AssignBook`.  The document handed to
`InsertOne` has no field `_id`, so the driver draws one more id for it. -/
def mongoUserBookRepo.AssignBook (st : Collection UserBookDoc) (entry : UserBook) :
    Except Error UserBook × Collection UserBookDoc :=
  let (oid, st0) := st.NewObjectID
  let entry := { entry with ID := oid }
  let (docID, st0) := st0.NewObjectID
  match st0.InsertOne (fun d e => d._id = e._id) ⟨docID, entry, none, none⟩ with
  | (some err, st1) => (.error err, st1)
  | (none, st1) => (.ok entry, st1)

/-- Method `mongoUserBookRepo.UnassignBook`. -/
def mongoUserBookRepo.UnassignBook (st : Collection UserBookDoc) (userID bookID : String) :
    Option Error × Collection UserBookDoc :=
  match ObjectIDFromHex userID with
  | .error err => (some err, st)
  | .ok uo =>
    match ObjectIDFromHex bookID with
    | .error err => (some err, st)
    | .ok bo => st.DeleteOne (fun d => d.user_id = some uo ∧ d.book_id = some bo)

/-- Method `mongoUserBookRepo.ListUserBooks`. -/
def mongoUserBookRepo.ListUserBooks (st : Collection UserBookDoc) (userID : String) :
    Except Error (Slice UserBook) × Collection UserBookDoc :=
  match ObjectIDFromHex userID with
  | .error err => (.error err, st)
  | .ok uo => decodeAll UserBookDoc.fields (st.Find (fun d => d.user_id = some uo))

/-- Method `mongoUserBookRepo.GetEntry`. -/
def mongoUserBookRepo.GetEntry (st : Collection UserBookDoc) (id : String) :
    Except Error UserBook × Collection UserBookDoc :=
  match ObjectIDFromHex id with
  | .error err => (.error err, st)
  | .ok oid => decodeOne UserBookDoc.fields (st.FindOne (fun d => d._id = oid))

/-- Method `mongoUserBookRepo.DeleteEntry`. -/
def mongoUserBookRepo.DeleteEntry (st : Collection UserBookDoc) (id : String) :
    Option Error × Collection UserBookDoc :=
  match ObjectIDFromHex id with
  | .error err => (some err, st)
  | .ok oid => st.DeleteOne (fun d => d._id = oid)

/-- Method `mongoUserBookRepo.UpdateEntry`: the update sets `user_id` and
`book_id`. -/
def mongoUserBookRepo.UpdateEntry (st : Collection UserBookDoc) (entry : UserBook) :
    Except Error UserBook × Collection UserBookDoc :=
  decodeOne UserBookDoc.fields (st.FindOneAndUpdate (fun d => d._id = entry.ID)
    (fun d => { d with user_id := some entry.UserID, book_id := some entry.BookID }))

/-- Method `mongoUserBookRepo.ListAllEntries`. -/
def mongoUserBookRepo.ListAllEntries (st : Collection UserBookDoc) :
    Except Error (Slice UserBook) × Collection UserBookDoc :=
  decodeAll UserBookDoc.fields (st.Find (fun _ => true))

/-- Method `mongoUserBookRepo.ListByBook`. -/
def mongoUserBookRepo.ListByBook (st : Collection UserBookDoc) (bookID : String) :
    Except Error (Slice UserBook) × Collection UserBookDoc :=
  match ObjectIDFromHex bookID with
  | .error err => (.error err, st)
  | .ok bo => decodeAll UserBookDoc.fields (st.Find (fun d => d.book_id = some bo))

/-- The `mongoUserBookRepo` as a `UserBookRepo`. -/
def mongoUserBookRepo : UserBookRepo (Collection UserBookDoc) where
  AssignBook := mongoUserBookRepo.AssignBook
  UnassignBook := mongoUserBookRepo.UnassignBook
  ListUserBooks := mongoUserBookRepo.ListUserBooks
  GetEntry := mongoUserBookRepo.GetEntry
  DeleteEntry := mongoUserBookRepo.DeleteEntry
  UpdateEntry := mongoUserBookRepo.UpdateEntry
  ListAllEntries := mongoUserBookRepo.ListAllEntries
  ListByBook := mongoUserBookRepo.ListByBook

/-- What a key of the user-library cache can hold. -/
inductive UserBooksJSON where
  | list (l : Slice UserBook)
  | invalid (raw : String)
  deriving DecidableEq, Repr

/-- Decoding `json.Unmarshal(data, &entries)`. -/
def unmarshalUserBooks : UserBooksJSON → Except Error (Slice UserBook)
  | .list l => .ok l
  | .invalid _ => .error .unmarshal

/-- The TTL `main` of the user-library service passes to
`NewRedisUserLibraryCache`. -/
def userLibraryCacheTTL : Duration := 5 * Minute

/-- Method `RedisUserLibraryCache.Get`; `ttl` is the field `c.ttl`. -/
def RedisUserLibraryCache.Get {σ : Type} (repo : UserBookRepo σ) (ttl : Duration)
    (st : σ) (c : Redis UserBooksJSON) (userID : String) :
    Except Error (Slice UserBook) × σ × Redis UserBooksJSON :=
  let key := "user_books:" ++ userID
  let fromRepo := fun (c1 : Redis UserBooksJSON) =>
    match repo.ListUserBooks st userID with
    | (.error err, st1) => (Except.error err, st1, c1)
    | (.ok entries, st1) =>
      let (_, c2) := c1.Set key (.list entries) ttl
      (.ok entries, st1, c2)
  match c.Get key with
  | (.ok data, c1) =>
    match unmarshalUserBooks data with
    | .ok entries => (.ok entries, st, c1)
    | .error _ => fromRepo c1
  | (.error err, c1) =>
    if err ≠ .redisNil then (.error err, st, c1)
    else fromRepo c1

/-- Method `RedisUserLibraryCache.Invalidate`. -/
def RedisUserLibraryCache.Invalidate (c : Redis UserBooksJSON) (userID : String) :
    Option Error × Redis UserBooksJSON :=
  c.Del ("user_books:" ++ userID)

/-! ## User service -/

/-- Modelled from the spec: struct `domain.User`, whose declaration is not
among the sources; the handler and the spec give it an id, a name, an
e-mail address and a password. -/
structure User where
  ID : ObjectID
  Name : String
  Email : String
  Password : String
  deriving DecidableEq, Repr

/-- What a key of the user cache can hold. -/
inductive UserJSON where
  | user (u : User)
  | invalid (raw : String)
  deriving DecidableEq, Repr

/-- Decoding `json.Unmarshal(data, &user)`. -/
def unmarshalUser : UserJSON → Except Error User
  | .user u => .ok u
  | .invalid _ => .error .unmarshal

/-- Constant `userCacheTTL`. -/
def userCacheTTL : Duration := 15 * Minute

/-- Function `userKey`. -/
def userKey (id : String) : String := "user:" ++ id

/-- Method `UserCache.Get`: `(nil, nil)` on `redis.Nil`. -/
def UserCache.Get (c : Redis UserJSON) (id : String) :
    Except Error (Option User) × Redis UserJSON :=
  match c.Get (userKey id) with
  | (.error err, c1) =>
    if err = .redisNil then (.ok none, c1)
    else (.error err, c1)
  | (.ok data, c1) =>
    match unmarshalUser data with
    | .error err => (.error err, c1)
    | .ok user => (.ok (some user), c1)

/-- Method `UserCache.Set`. -/
def UserCache.Set (c : Redis UserJSON) (user : User) : Option Error × Redis UserJSON :=
  c.Set (userKey user.ID.Hex) (.user user) userCacheTTL

/-- Method `UserCache.Delete`. -/
def UserCache.Delete (c : Redis UserJSON) (id : String) : Option Error × Redis UserJSON :=
  c.Del (userKey id)

/-- Method `mongoUserRepo.Create`; the collection has a unique index on
`email`.  The goroutine that fills the cache is taken to have completed when
the method returns. -/
def mongoUserRepo.Create (st : Collection User) (c : Redis UserJSON) (user : User) :
    Except Error User × Collection User × Redis UserJSON :=
  let (oid, st0) := st.NewObjectID
  let user := { user with ID := oid }
  match st0.InsertOne (fun d e => d.ID = e.ID ∨ d.Email = e.Email) user with
  | (some err, st1) => (.error err, st1, c)
  | (none, st1) =>
    let (_, c1) := UserCache.Set c user
    (.ok user, st1, c1)

/-- Method `mongoUserRepo.GetByID`.  The goroutine that fills the cache is
taken to have completed when the method returns. -/
def mongoUserRepo.GetByID (st : Collection User) (c : Redis UserJSON) (id : String) :
    Except Error User × Collection User × Redis UserJSON :=
  match UserCache.Get c id with
  | (.ok (some user), c1) => (.ok user, st, c1)
  | (_, c1) =>
    match ObjectIDFromHex id with
    | .error err => (.error err, st, c1)
    | .ok objID =>
      match st.FindOne (fun u => u.ID = objID) with
      | (.error err, st1) => (.error err, st1, c1)
      | (.ok user, st1) =>
        let (_, c2) := UserCache.Set c1 user
        (.ok user, st1, c2)

/-! ## Order service: the remaining repository methods, use case and handler -/

/-- Method `mongoOrderRepo.AddBook`. -/
def mongoOrderRepo.AddBook (st : Collection OrderDoc) (c : Redis OrderJSON)
    (orderID bookID : String) : Except Error Order × Collection OrderDoc × Redis OrderJSON :=
  match ObjectIDFromHex orderID with
  | .error err => (.error err, st, c)
  | .ok objID =>
    match ObjectIDFromHex bookID with
    | .error err => (.error err, st, c)
    | .ok bid =>
      let now := st.clock
      match decodeOne OrderDoc.fields (st.FindOneAndUpdateWith (fun d => d._id = objID)
          (fun d => (d.book_ids.push bid).map
            (fun a => { d with book_ids := a, updated_at := some now }))) with
      | (.error err, st1) => (.error err, st1, c)
      | (.ok updated, st1) =>
        let (_, c1) := orderCache.Delete c orderID
        let (_, c2) := orderCache.DeleteByUser c1 updated.UserID.Hex
        (.ok updated, st1, c2)

/-- Method `mongoOrderRepo.RemoveBook`. -/
def mongoOrderRepo.RemoveBook (st : Collection OrderDoc) (c : Redis OrderJSON)
    (orderID bookID : String) : Except Error Order × Collection OrderDoc × Redis OrderJSON :=
  match ObjectIDFromHex orderID with
  | .error err => (.error err, st, c)
  | .ok objID =>
    match ObjectIDFromHex bookID with
    | .error err => (.error err, st, c)
    | .ok bid =>
      let now := st.clock
      match decodeOne OrderDoc.fields (st.FindOneAndUpdateWith (fun d => d._id = objID)
          (fun d => (d.book_ids.pull bid).map
            (fun a => { d with book_ids := a, updated_at := some now }))) with
      | (.error err, st1) => (.error err, st1, c)
      | (.ok updated, st1) =>
        let (_, c1) := orderCache.Delete c orderID
        let (_, c2) := orderCache.DeleteByUser c1 updated.UserID.Hex
        (.ok updated, st1, c2)

/-- Method `mongoOrderRepo.ListAll`. -/
def mongoOrderRepo.ListAll (st : Collection OrderDoc) (c : Redis OrderJSON) :
    Except Error (Slice Order) × Collection OrderDoc × Redis OrderJSON :=
  let (res, st1) := decodeAll OrderDoc.fields (st.Find (fun _ => true))
  (res, st1, c)

/-- Method `mongoOrderRepo.ListByStatus`. -/
def mongoOrderRepo.ListByStatus (st : Collection OrderDoc) (c : Redis OrderJSON)
    (status : String) : Except Error (Slice Order) × Collection OrderDoc × Redis OrderJSON :=
  let (res, st1) := decodeAll OrderDoc.fields (st.Find (fun d => d.fields.Status = status))
  (res, st1, c)

/-- Method `mongoOrderRepo.Delete`. -/
def mongoOrderRepo.Delete (st : Collection OrderDoc) (c : Redis OrderJSON) (id : String) :
    Option Error × Collection OrderDoc × Redis OrderJSON :=
  match ObjectIDFromHex id with
  | .error err => (some err, st, c)
  | .ok objID =>
    match decodeOne OrderDoc.fields (st.FindOne (fun d => d._id = objID)) with
    | (.error err, st1) => (some err, st1, c)
    | (.ok existing, st1) =>
      match st1.DeleteOne (fun d => d._id = objID) with
      | (some err, st2) => (some err, st2, c)
      | (none, st2) =>
        let (_, c1) := orderCache.Delete c id
        let (_, c2) := orderCache.DeleteByUser c1 existing.UserID.Hex
        (none, st2, c2)

/-- Interface `repository.OrderRepository`, over a state `σ` (store and
cache together). -/
structure OrderRepository (σ : Type) where
  Create : σ → Order → Except Error Order × σ
  GetByID : σ → String → Except Error Order × σ
  ListByUser : σ → String → Except Error (Slice Order) × σ
  Cancel : σ → String → Except Error Order × σ
  Return : σ → String → Except Error Order × σ
  Update : σ → Order → Except Error Order × σ
  AddBook : σ → String → String → Except Error Order × σ
  RemoveBook : σ → String → String → Except Error Order × σ
  ListAll : σ → Except Error (Slice Order) × σ
  ListByStatus : σ → String → Except Error (Slice Order) × σ
  Delete : σ → String → Option Error × σ

/-- The `mongoOrderRepo` as an `OrderRepository`; its state is the collection
with the order cache. -/
def mongoOrderRepo : OrderRepository (Collection OrderDoc × Redis OrderJSON) where
  Create := fun s order =>
    let r := mongoOrderRepo.Create s.1 s.2 order
    (r.1, r.2.1, r.2.2)
  GetByID := fun s id =>
    let r := mongoOrderRepo.GetByID s.1 s.2 id
    (r.1, r.2.1, r.2.2)
  ListByUser := fun s userID =>
    let r := mongoOrderRepo.ListByUser s.1 s.2 userID
    (r.1, r.2.1, r.2.2)
  Cancel := fun s id =>
    let r := mongoOrderRepo.Cancel s.1 s.2 id
    (r.1, r.2.1, r.2.2)
  Return := fun s id =>
    let r := mongoOrderRepo.Return s.1 s.2 id
    (r.1, r.2.1, r.2.2)
  Update := fun s order =>
    let r := mongoOrderRepo.Update s.1 s.2 order
    (r.1, r.2.1, r.2.2)
  AddBook := fun s orderID bookID =>
    let r := mongoOrderRepo.AddBook s.1 s.2 orderID bookID
    (r.1, r.2.1, r.2.2)
  RemoveBook := fun s orderID bookID =>
    let r := mongoOrderRepo.RemoveBook s.1 s.2 orderID bookID
    (r.1, r.2.1, r.2.2)
  ListAll := fun s =>
    let r := mongoOrderRepo.ListAll s.1 s.2
    (r.1, r.2.1, r.2.2)
  ListByStatus := fun s status =>
    let r := mongoOrderRepo.ListByStatus s.1 s.2 status
    (r.1, r.2.1, r.2.2)
  Delete := fun s id =>
    let r := mongoOrderRepo.Delete s.1 s.2 id
    (r.1, r.2.1, r.2.2)

/-- Method `orderUseCase.CreateOrder`. -/
def orderUseCase.CreateOrder {σ : Type} (repo : OrderRepository σ) (st : σ) (order : Order) :
    Except Error Order × σ :=
  repo.Create st order

/-- Method `orderUseCase.CancelOrder`. -/
def orderUseCase.CancelOrder {σ : Type} (repo : OrderRepository σ) (st : σ) (id : String) :
    Except Error Order × σ :=
  repo.Cancel st id

/-- Method `orderUseCase.ReturnBook`. -/
def orderUseCase.ReturnBook {σ : Type} (repo : OrderRepository σ) (st : σ) (id : String) :
    Except Error Order × σ :=
  repo.Return st id

/-- Method `orderUseCase.DeleteOrder`. -/
def orderUseCase.DeleteOrder {σ : Type} (repo : OrderRepository σ) (st : σ) (id : String) :
    Option Error × σ :=
  repo.Delete st id

/-- Message `pb.CreateOrderRequest`. -/
structure CreateOrderRequest where
  UserId : String
  BookIds : List String
  deriving DecidableEq, Repr

/-- Message `pb.OrderID`. -/
structure OrderID where
  Id : String
  deriving DecidableEq, Repr

/-- Message `pb.Order`. -/
structure OrderPB where
  Id : String
  UserId : String
  BookIds : List String
  Status : String
  CreatedAt : String
  UpdatedAt : String
  deriving DecidableEq, Repr

/-- Function `mapDomain` of the order handler; `fmtTime` renders
`DateTime.Time().String()`. -/
def OrderHandler.mapDomain (fmtTime : DateTime → String) (o : Order) : OrderPB where
  Id := o.ID.Hex
  UserId := o.UserID.Hex
  BookIds := (o.BookIDs.getD []).map ObjectID.Hex
  Status := o.Status
  CreatedAt := fmtTime o.CreatedAt
  UpdatedAt := fmtTime o.UpdatedAt

/-- The loop of `OrderHandler.CreateOrder` that parses the book ids into
`bids` (which starts `nil`): the first id that does not parse ends the call. -/
def OrderHandler.parseBookIDs : List String → Slice ObjectID → Except Error (Slice ObjectID)
  | [], bids => .ok bids
  | id :: rest, bids =>
    match ObjectIDFromHex id with
    | .error _ => .error (.statusq "InvalidArgument" "invalid book_id" id)
    | .ok oid => OrderHandler.parseBookIDs rest (some (bids.getD [] ++ [oid]))

/-- Method `OrderHandler.CreateOrder`; `newID` is what the handler's call of
`primitive.NewObjectID()` returns. -/
def OrderHandler.CreateOrder {σ : Type} (repo : OrderRepository σ)
    (fmtTime : DateTime → String) (newID : ObjectID) (st : σ) (nc : Nats)
    (req : Option CreateOrderRequest) : Except Error OrderPB × σ × Nats :=
  match req with
  | none => (.error (.status "InvalidArgument" "user_id and book_ids are required"), st, nc)
  | some req =>
    if req.UserId = "" ∨ req.BookIds.length = 0 then
      (.error (.status "InvalidArgument" "user_id and book_ids are required"), st, nc)
    else
      match ObjectIDFromHex req.UserId with
      | .error _ => (.error (.status "InvalidArgument" "invalid user_id"), st, nc)
      | .ok uid =>
        match OrderHandler.parseBookIDs req.BookIds none with
        | .error err => (.error err, st, nc)
        | .ok bids =>
          let ord : Order :=
            { ID := newID, UserID := uid, BookIDs := bids, Status := "Created",
              CreatedAt := 0, UpdatedAt := 0 }
          match orderUseCase.CreateOrder repo st ord with
          | (.error err, st1) =>
            (.error (.statusf "Internal" "cannot create order" err), st1, nc)
          | (.ok created, st1) =>
            let (_, nc1) := nc.Publish "orders.created"
              [("order_id", .str created.ID.Hex), ("user_id", .str created.UserID.Hex),
               ("book_ids", .strs req.BookIds)]
            (.ok (OrderHandler.mapDomain fmtTime created), st1, nc1)

/-- Method `OrderHandler.CancelOrder`. -/
def OrderHandler.CancelOrder {σ : Type} (repo : OrderRepository σ)
    (fmtTime : DateTime → String) (st : σ) (nc : Nats) (req : Option OrderID) :
    Except Error OrderPB × σ × Nats :=
  match req with
  | none => (.error (.status "InvalidArgument" "order id is required"), st, nc)
  | some req =>
    if req.Id = "" then (.error (.status "InvalidArgument" "order id is required"), st, nc)
    else
      match orderUseCase.CancelOrder repo st req.Id with
      | (.error err, st1) => (.error (.statusf "Internal" "cannot cancel order" err), st1, nc)
      | (.ok o, st1) => (.ok (OrderHandler.mapDomain fmtTime o), st1, nc)

/-- Method `OrderHandler.ReturnBook`. -/
def OrderHandler.ReturnBook {σ : Type} (repo : OrderRepository σ)
    (fmtTime : DateTime → String) (st : σ) (nc : Nats) (req : Option OrderID) :
    Except Error OrderPB × σ × Nats :=
  match req with
  | none => (.error (.status "InvalidArgument" "order id is required"), st, nc)
  | some req =>
    if req.Id = "" then (.error (.status "InvalidArgument" "order id is required"), st, nc)
    else
      match orderUseCase.ReturnBook repo st req.Id with
      | (.error err, st1) => (.error (.statusf "Internal" "cannot return order" err), st1, nc)
      | (.ok o, st1) => (.ok (OrderHandler.mapDomain fmtTime o), st1, nc)

/-- Method `OrderHandler.DeleteOrder`; the result `none` is the reply
`&pb.Empty` without error. -/
def OrderHandler.DeleteOrder {σ : Type} (repo : OrderRepository σ) (st : σ) (nc : Nats)
    (req : Option OrderID) : Option Error × σ × Nats :=
  match req with
  | none => (some (.status "InvalidArgument" "order id is required"), st, nc)
  | some req =>
    if req.Id = "" then (some (.status "InvalidArgument" "order id is required"), st, nc)
    else
      match orderUseCase.DeleteOrder repo st req.Id with
      | (some err, st1) => (some (.statusf "Internal" "cannot delete order" err), st1, nc)
      | (none, st1) => (none, st1, nc)

/-- Proof device: the writes to a stored offer that set `updated_at`, as one
type, so that "two successive writes" can be quantified over. -/
inductive OfferWrite where
  | accept (id : String)
  | decline (id : String)
  | update (offer : ExchangeOffer)
  | addBook (offerID bookID : String)
  | removeBook (offerID bookID : String)
  deriving DecidableEq, Repr

/-- The repository call an `OfferWrite` stands for. -/
def OfferWrite.run (w : OfferWrite) (st : Collection OfferDoc) :
    Except Error ExchangeOffer × Collection OfferDoc :=
  match w with
  | .accept id => mongoExchangeRepo.AcceptOffer st id
  | .decline id => mongoExchangeRepo.DeclineOffer st id
  | .update offer => mongoExchangeRepo.UpdateOffer st offer
  | .addBook offerID bookID => mongoExchangeRepo.AddOfferedBook st offerID bookID
  | .removeBook offerID bookID => mongoExchangeRepo.RemoveOfferedBook st offerID bookID

/-- The document id an `OfferWrite` puts in its filter on `_id`. -/
def OfferWrite.docID : OfferWrite → Except Error ObjectID
  | .accept id => ObjectIDFromHex id
  | .decline id => ObjectIDFromHex id
  | .update offer => .ok offer.ID
  | .addBook offerID _ => ObjectIDFromHex offerID
  | .removeBook offerID _ => ObjectIDFromHex offerID

/-- Proof device: the writes to a stored order that set `updated_at`. -/
inductive OrderWrite where
  | cancel (id : String)
  | giveBack (id : String)
  | update (order : Order)
  | addBook (orderID bookID : String)
  | removeBook (orderID bookID : String)
  deriving DecidableEq, Repr

/-- The repository call an `OrderWrite` stands for (`giveBack` is `Return`). -/
def OrderWrite.run (w : OrderWrite) (st : Collection OrderDoc) (c : Redis OrderJSON) :
    Except Error Order × Collection OrderDoc × Redis OrderJSON :=
  match w with
  | .cancel id => mongoOrderRepo.Cancel st c id
  | .giveBack id => mongoOrderRepo.Return st c id
  | .update order => mongoOrderRepo.Update st c order
  | .addBook orderID bookID => mongoOrderRepo.AddBook st c orderID bookID
  | .removeBook orderID bookID => mongoOrderRepo.RemoveBook st c orderID bookID

/-- The document id an `OrderWrite` puts in its filter on `_id`. -/
def OrderWrite.docID : OrderWrite → Except Error ObjectID
  | .cancel id => ObjectIDFromHex id
  | .giveBack id => ObjectIDFromHex id
  | .update order => .ok order.ID
  | .addBook orderID _ => ObjectIDFromHex orderID
  | .removeBook orderID _ => ObjectIDFromHex orderID

/-- The value of `updated_at` in the offer document with the id `oid`, if
there is such a document and it has the field. -/
def OfferDoc.updatedAtOf (docs : List OfferDoc) (oid : ObjectID) : Option DateTime :=
  (docs.find? (fun d => d._id = oid)).bind (fun d => d.updated_at)

/-- The value of `updated_at` in the order document with the id `oid`, if
there is such a document and it has the field. -/
def OrderDoc.updatedAtOf (docs : List OrderDoc) (oid : ObjectID) : Option DateTime :=
  (docs.find? (fun d => d._id = oid)).bind (fun d => d.updated_at)

/-! ## Book, user and user-library services: use cases and emitting handlers -/

/-- Method `bookUseCase.CreateBook`. -/
def bookUseCase.CreateBook {σ : Type} (repo : BookRepository σ) (st : σ) (book : Book) :
    Except Error Book × σ :=
  repo.Create st book

/-- Message `pb.Book`; `Pages` is an `int32`. -/
structure BookPB where
  Id : String
  Title : String
  Author : String
  Genre : String
  Language : String
  Description : String
  Rating : Float32
  Price : Float32
  Pages : Int
  PublishedDate : String
  deriving DecidableEq, Repr

/-- Message `pb.CreateBookRequest`. -/
structure CreateBookRequest where
  Book : Option BookPB
  deriving DecidableEq, Repr

/-- Go conversion `int32(n)` of an `int`. -/
def toInt32 (n : Int) : Int := (n + 2 ^ 31) % 2 ^ 32 - 2 ^ 31

/-- Method `BookHandler.CreateBook`. -/
def BookHandler.CreateBook {σ : Type} (repo : BookRepository σ) (st : σ) (nc : Nats)
    (req : Option CreateBookRequest) : Except Error BookPB × σ × Nats :=
  match req with
  | none => (.error (.status "InvalidArgument" "empty request"), st, nc)
  | some req =>
    match req.Book with
    | none => (.error (.status "InvalidArgument" "empty request"), st, nc)
    | some b =>
      let book : Book :=
        { ID := NilObjectID, Title := b.Title, Author := b.Author, Genre := b.Genre,
          Language := b.Language, Description := b.Description, Rating := b.Rating,
          Price := b.Price, Pages := b.Pages, PublishedDate := b.PublishedDate }
      match bookUseCase.CreateBook repo st book with
      | (.error err, st1) => (.error err, st1, nc)
      | (.ok created, st1) =>
        let (_, nc1) := nc.Publish "book.created"
          [("id", .str created.ID.Hex), ("title", .str created.Title),
           ("author", .str created.Author)]
        (.ok { Id := created.ID.Hex, Title := created.Title, Author := created.Author,
               Genre := created.Genre, Language := created.Language,
               Description := created.Description, Rating := created.Rating,
               Price := created.Price, Pages := toInt32 created.Pages,
               PublishedDate := created.PublishedDate }, st1, nc1)

/-- Interface `repository.UserRepository` of the user service, over a state
`σ` (store and cache together). -/
structure UserRepository (σ : Type) where
  Create : σ → User → Except Error User × σ
  GetByID : σ → String → Except Error User × σ
  ListAll : σ → Except Error (Slice User) × σ

/-- Method `mongoUserRepo.ListAll`. -/
def mongoUserRepo.ListAll (st : Collection User) (c : Redis UserJSON) :
    Except Error (Slice User) × Collection User × Redis UserJSON :=
  let (res, st1) := st.Find (fun _ => true)
  (res, st1, c)

/-- The `mongoUserRepo` as a `UserRepository`; its state is the collection
with the user cache. -/
def mongoUserRepo : UserRepository (Collection User × Redis UserJSON) where
  Create := fun s user =>
    let r := mongoUserRepo.Create s.1 s.2 user
    (r.1, r.2.1, r.2.2)
  GetByID := fun s id =>
    let r := mongoUserRepo.GetByID s.1 s.2 id
    (r.1, r.2.1, r.2.2)
  ListAll := fun s =>
    let r := mongoUserRepo.ListAll s.1 s.2
    (r.1, r.2.1, r.2.2)

/-- Method `userUseCase.CreateUser`. -/
def userUseCase.CreateUser {σ : Type} (repo : UserRepository σ) (st : σ) (user : User) :
    Except Error User × σ :=
  repo.Create st user

/-- Method `userUseCase.GetUserByID`. -/
def userUseCase.GetUserByID {σ : Type} (repo : UserRepository σ) (st : σ) (id : String) :
    Except Error User × σ :=
  repo.GetByID st id

/-- Message `pb.User` of the user service. -/
structure UserPB where
  Id : String
  Name : String
  Email : String
  Password : String
  deriving DecidableEq, Repr

/-- Message `pb.CreateUserRequest`. -/
structure CreateUserRequest where
  User : Option UserPB
  deriving DecidableEq, Repr

/-- Method `UserHandler.CreateUser`. -/
def UserHandler.CreateUser {σ : Type} (repo : UserRepository σ) (st : σ) (nc : Nats)
    (req : Option CreateUserRequest) : Except Error UserPB × σ × Nats :=
  match req with
  | none => (.error (.status "InvalidArgument" "empty request"), st, nc)
  | some req =>
    match req.User with
    | none => (.error (.status "InvalidArgument" "empty request"), st, nc)
    | some u =>
      let user : User :=
        { ID := NilObjectID, Name := u.Name, Email := u.Email, Password := u.Password }
      match userUseCase.CreateUser repo st user with
      | (.error err, st1) => (.error (.statusf "Internal" "cannot create user" err), st1, nc)
      | (.ok created, st1) =>
        let (_, nc1) := nc.Publish "user.created"
          [("id", .str created.ID.Hex), ("name", .str created.Name),
           ("email", .str created.Email)]
        (.ok { Id := created.ID.Hex, Name := created.Name, Email := created.Email,
               Password := created.Password }, st1, nc1)

/-- Method `UserHandler.GetUser`. -/
def UserHandler.GetUser {σ : Type} (repo : UserRepository σ) (st : σ)
    (req : Option String) : Except Error UserPB × σ :=
  match req with
  | none => (.error (.status "InvalidArgument" "user ID is required"), st)
  | some id =>
    if id = "" then (.error (.status "InvalidArgument" "user ID is required"), st)
    else
      match userUseCase.GetUserByID repo st id with
      | (.error err, st1) => (.error (.statusf "NotFound" "user not found" err), st1)
      | (.ok user, st1) =>
        (.ok { Id := user.ID.Hex, Name := user.Name, Email := user.Email,
               Password := user.Password }, st1)

/-- Method `userLibraryUseCase.AssignBook`; `newID` is what the use case's
call of `primitive.NewObjectID()` returns. -/
def userLibraryUseCase.AssignBook {σ : Type} (repo : UserBookRepo σ) (newID : ObjectID)
    (st : σ) (c : Redis UserBooksJSON) (userID bookID : String) :
    Except Error UserBook × σ × Redis UserBooksJSON :=
  match ObjectIDFromHex userID with
  | .error err => (.error err, st, c)
  | .ok uid =>
    match ObjectIDFromHex bookID with
    | .error err => (.error err, st, c)
    | .ok bid =>
      let entry : UserBook := { ID := newID, UserID := uid, BookID := bid }
      match repo.AssignBook st entry with
      | (.error err, st1) => (.error err, st1, c)
      | (.ok assigned, st1) =>
        let (_, c1) := RedisUserLibraryCache.Invalidate c userID
        (.ok assigned, st1, c1)

/-- Method `userLibraryUseCase.UnassignBook`. -/
def userLibraryUseCase.UnassignBook {σ : Type} (repo : UserBookRepo σ) (st : σ)
    (c : Redis UserBooksJSON) (userID bookID : String) :
    Option Error × σ × Redis UserBooksJSON :=
  match repo.UnassignBook st userID bookID with
  | (some err, st1) => (some err, st1, c)
  | (none, st1) =>
    let (_, c1) := RedisUserLibraryCache.Invalidate c userID
    (none, st1, c1)

/-- Method `userLibraryUseCase.ListUserBooks`; `ttl` is the TTL of the cache
it was built with. -/
def userLibraryUseCase.ListUserBooks {σ : Type} (repo : UserBookRepo σ) (ttl : Duration)
    (st : σ) (c : Redis UserBooksJSON) (userID : String) :
    Except Error (Slice UserBook) × σ × Redis UserBooksJSON :=
  RedisUserLibraryCache.Get repo ttl st c userID

/-- Method `userLibraryUseCase.GetEntry`. -/
def userLibraryUseCase.GetEntry {σ : Type} (repo : UserBookRepo σ) (st : σ)
    (c : Redis UserBooksJSON) (id : String) :
    Except Error UserBook × σ × Redis UserBooksJSON :=
  let (res, st1) := repo.GetEntry st id
  (res, st1, c)

/-- Method `userLibraryUseCase.DeleteEntry`. -/
def userLibraryUseCase.DeleteEntry {σ : Type} (repo : UserBookRepo σ) (st : σ)
    (c : Redis UserBooksJSON) (id : String) : Option Error × σ × Redis UserBooksJSON :=
  let (res, st1) := repo.DeleteEntry st id
  (res, st1, c)

/-- Method `userLibraryUseCase.UpdateEntry`. -/
def userLibraryUseCase.UpdateEntry {σ : Type} (repo : UserBookRepo σ) (st : σ)
    (c : Redis UserBooksJSON) (ub : UserBook) :
    Except Error UserBook × σ × Redis UserBooksJSON :=
  match repo.UpdateEntry st ub with
  | (.error err, st1) => (.error err, st1, c)
  | (.ok updated, st1) =>
    let (_, c1) := RedisUserLibraryCache.Invalidate c ub.UserID.Hex
    (.ok updated, st1, c1)

/-- Message `userpb.UserBook`. -/
structure UserBookPB where
  Id : String
  UserId : String
  BookId : String
  deriving DecidableEq, Repr

/-- Messages `userpb.AssignBookRequest` and `userpb.UnassignBookRequest`. -/
structure AssignBookRequest where
  UserId : String
  BookId : String
  deriving DecidableEq, Repr

/-- Messages `userpb.GetEntryRequest` and `userpb.DeleteEntryRequest`. -/
structure EntryIDRequest where
  Id : String
  deriving DecidableEq, Repr

/-- Message `userpb.UpdateEntryRequest`. -/
structure UpdateEntryRequest where
  Entry : Option UserBookPB
  deriving DecidableEq, Repr

/-- Function `toProto` of the user-library handler. -/
def toProto (u : UserBook) : UserBookPB := ⟨u.ID.Hex, u.UserID.Hex, u.BookID.Hex⟩

/-- Method `UserLibraryHandler.AssignBook`. -/
def UserLibraryHandler.AssignBook {σ : Type} (repo : UserBookRepo σ) (newID : ObjectID)
    (st : σ) (c : Redis UserBooksJSON) (nc : Nats) (req : AssignBookRequest) :
    Except Error UserBookPB × σ × Redis UserBooksJSON × Nats :=
  if req.UserId = "" ∨ req.BookId = "" then
    (.error (.status "InvalidArgument" "user_id and book_id are required"), st, c, nc)
  else
    match userLibraryUseCase.AssignBook repo newID st c req.UserId req.BookId with
    | (.error err, st1, c1) =>
      (.error (.statusf "Internal" "cannot assign book" err), st1, c1, nc)
    | (.ok entry, st1, c1) =>
      let (_, nc1) := nc.Publish "userlibrary.book.assigned"
        [("user_id", .str req.UserId), ("book_id", .str req.BookId)]
      (.ok (toProto entry), st1, c1, nc1)

/-- Method `UserLibraryHandler.UnassignBook`; the result `none` is the reply
`Success: true` without error. -/
def UserLibraryHandler.UnassignBook {σ : Type} (repo : UserBookRepo σ) (st : σ)
    (c : Redis UserBooksJSON) (nc : Nats) (req : AssignBookRequest) :
    Option Error × σ × Redis UserBooksJSON × Nats :=
  if req.UserId = "" ∨ req.BookId = "" then
    (some (.status "InvalidArgument" "user_id and book_id are required"), st, c, nc)
  else
    match userLibraryUseCase.UnassignBook repo st c req.UserId req.BookId with
    | (some err, st1, c1) =>
      (some (.statusf "Internal" "cannot unassign book" err), st1, c1, nc)
    | (none, st1, c1) =>
      let (_, nc1) := nc.Publish "userlibrary.book.unassigned"
        [("user_id", .str req.UserId), ("book_id", .str req.BookId)]
      (none, st1, c1, nc1)

/-- Method `UserLibraryHandler.DeleteEntry`; the result `none` is the reply
`Success: true` without error. -/
def UserLibraryHandler.DeleteEntry {σ : Type} (repo : UserBookRepo σ) (st : σ)
    (c : Redis UserBooksJSON) (nc : Nats) (req : EntryIDRequest) :
    Option Error × σ × Redis UserBooksJSON × Nats :=
  if req.Id = "" then (some (.status "InvalidArgument" "id is required"), st, c, nc)
  else
    match userLibraryUseCase.GetEntry repo st c req.Id with
    | (.error err, st1, c1) =>
      (some (.statusf "NotFound" "entry not found" err), st1, c1, nc)
    | (.ok e, st1, c1) =>
      match userLibraryUseCase.DeleteEntry repo st1 c1 req.Id with
      | (some err, st2, c2) =>
        (some (.statusf "Internal" "cannot delete entry" err), st2, c2, nc)
      | (none, st2, c2) =>
        let (_, nc1) := nc.Publish "userlibrary.entry.deleted"
          [("id", .str req.Id), ("user_id", .str e.UserID.Hex)]
        (none, st2, c2, nc1)

/-- Method `UserLibraryHandler.UpdateEntry`. -/
def UserLibraryHandler.UpdateEntry {σ : Type} (repo : UserBookRepo σ) (st : σ)
    (c : Redis UserBooksJSON) (nc : Nats) (req : UpdateEntryRequest) :
    Except Error UserBookPB × σ × Redis UserBooksJSON × Nats :=
  match req.Entry with
  | none => (.error (.status "InvalidArgument" "entry with id is required"), st, c, nc)
  | some entry =>
    if entry.Id = "" then
      (.error (.status "InvalidArgument" "entry with id is required"), st, c, nc)
    else
      match ObjectIDFromHex entry.Id with
      | .error _ => (.error (.status "InvalidArgument" "invalid entry id"), st, c, nc)
      | .ok oid =>
        match ObjectIDFromHex entry.UserId with
        | .error _ => (.error (.status "InvalidArgument" "invalid user_id"), st, c, nc)
        | .ok uo =>
          match ObjectIDFromHex entry.BookId with
          | .error _ => (.error (.status "InvalidArgument" "invalid book_id"), st, c, nc)
          | .ok bo =>
            let dom : UserBook := { ID := oid, UserID := uo, BookID := bo }
            match userLibraryUseCase.UpdateEntry repo st c dom with
            | (.error err, st1, c1) =>
              (.error (.statusf "Internal" "cannot update entry" err), st1, c1, nc)
            | (.ok updated, st1, c1) =>
              let (_, nc1) := nc.Publish "userlibrary.entry.updated"
                [("id", .str entry.Id), ("user_id", .str entry.UserId),
                 ("book_id", .str entry.BookId)]
              (.ok (toProto updated), st1, c1, nc1)

/-! ## Notification service -/

/-- Struct `domain.OrderCreatedEvent`. -/
structure OrderCreatedEvent where
  OrderID : String
  UserID : String
  BookIDs : Slice String
  deriving DecidableEq, Repr

/-- Struct `domain.UserCreatedEvent`. -/
structure UserCreatedEvent where
  Id : String
  Name : String
  Email : String
  deriving DecidableEq, Repr

/-- Struct `domain.OrderCompletedEvent`. -/
structure OrderCompletedEvent where
  OrderID : String
  UserID : String
  BookIDs : Slice String
  deriving DecidableEq, Repr

/-- Struct `domain.OrderDeletedEvent`. -/
structure OrderDeletedEvent where
  OrderID : String
  UserID : String
  BookIDs : Slice String
  deriving DecidableEq, Repr

/-- Struct `domain.OfferCreatedEvent`. -/
structure OfferCreatedEvent where
  OfferID : String
  OwnerID : String
  deriving DecidableEq, Repr

/-- Struct `domain.OfferDeclinedEvent`. -/
structure OfferDeclinedEvent where
  OfferID : String
  OwnerID : String
  deriving DecidableEq, Repr

/-- Struct `domain.OfferAcceptedEvent`. -/
structure OfferAcceptedEvent where
  OfferID : String
  OwnerID : String
  Counterparty : String
  deriving DecidableEq, Repr

/-- Struct `domain.BookAssignedEvent`. -/
structure BookAssignedEvent where
  UserID : String
  BookID : String
  deriving DecidableEq, Repr

/-- Struct `domain.BookUnassignedEvent`. -/
structure BookUnassignedEvent where
  UserID : String
  BookID : String
  deriving DecidableEq, Repr

/-- Struct `domain.EntryDeletedEvent`. -/
structure EntryDeletedEvent where
  EntryID : String
  UserID : String
  deriving DecidableEq, Repr

/-- Struct `domain.EntryUpdatedEvent`. -/
structure EntryUpdatedEvent where
  EntryID : String
  UserID : String
  BookID : String
  deriving DecidableEq, Repr

/-- One call of the e-mail sink `sendEmail(to, subject, body)`. -/
structure Mail where
  recipient : String
  subject : String
  body : String
  deriving DecidableEq, Repr

/-- What a `Notifier` has done so far: the ids it passed to the accounts
service's `GetUser`, and the calls of the e-mail sink, both oldest first. -/
structure Outbox where
  lookups : List String
  mails : List Mail
  deriving DecidableEq, Repr

/-- The remote `GetUser` of the accounts service as the notifier sees it: an
error, or the user of the response.  (`UserHandler.GetUser` fills the `User`
of every response it returns without error.) -/
abbrev UserServiceClient := String → Except Error UserPB

/-- Method `Notifier.getEmail`. -/
def Notifier.getEmail (userClient : UserServiceClient) (w : Outbox) (userID : String) :
    Except Error String × Outbox :=
  match userClient userID with
  | .error err =>
    (.error (.wrapped "grpc GetUser" err), { w with lookups := w.lookups ++ [userID] })
  | .ok user => (.ok user.Email, { w with lookups := w.lookups ++ [userID] })

/-- The call `n.sendEmail(to, subject, body)`. -/
def Outbox.sendEmail (w : Outbox) (recipient subject body : String) : Outbox :=
  { w with mails := w.mails ++ [⟨recipient, subject, body⟩] }

/-- Method `Notifier.SendOrderConfirmation`. -/
def Notifier.SendOrderConfirmation (userClient : UserServiceClient) (w : Outbox)
    (evt : OrderCreatedEvent) : Outbox :=
  match Notifier.getEmail userClient w evt.UserID with
  | (.error _, w1) => w1
  | (.ok email, w1) =>
    w1.sendEmail email "Ваш заказ оформлен" ("Спасибо за заказ " ++ evt.OrderID ++ "!")

/-- Method `Notifier.SendWelcome`. -/
def Notifier.SendWelcome (_userClient : UserServiceClient) (w : Outbox)
    (evt : UserCreatedEvent) : Outbox :=
  w.sendEmail evt.Email "Добро пожаловать в ReadSpace!"
    ("Привет, " ++ evt.Name ++ "!\n\nСпасибо за регистрацию.")

/-- Method `Notifier.SendOrderCompleted`. -/
def Notifier.SendOrderCompleted (userClient : UserServiceClient) (w : Outbox)
    (evt : OrderCompletedEvent) : Outbox :=
  match Notifier.getEmail userClient w evt.UserID with
  | (.error _, w1) => w1
  | (.ok email, w1) =>
    w1.sendEmail email "Ваш заказ возвращён"
      ("Заказ " ++ evt.OrderID ++ " помечен как возвращён.")

/-- Method `Notifier.SendOrderDeleted`. -/
def Notifier.SendOrderDeleted (userClient : UserServiceClient) (w : Outbox)
    (evt : OrderDeletedEvent) : Outbox :=
  match Notifier.getEmail userClient w evt.UserID with
  | (.error _, w1) => w1
  | (.ok email, w1) =>
    w1.sendEmail email "Ваш заказ удалён" ("Заказ " ++ evt.OrderID ++ " был удалён.")

/-- Method `Notifier.SendOfferCreated`. -/
def Notifier.SendOfferCreated (userClient : UserServiceClient) (w : Outbox)
    (evt : OfferCreatedEvent) : Outbox :=
  match Notifier.getEmail userClient w evt.OwnerID with
  | (.error _, w1) => w1
  | (.ok email, w1) =>
    w1.sendEmail email "Поступило новое предложение обмена"
      ("Ваше предложение " ++ evt.OfferID ++ " создано.")

/-- Method `Notifier.SendOfferDeclined`. -/
def Notifier.SendOfferDeclined (userClient : UserServiceClient) (w : Outbox)
    (evt : OfferDeclinedEvent) : Outbox :=
  match Notifier.getEmail userClient w evt.OwnerID with
  | (.error _, w1) => w1
  | (.ok email, w1) =>
    w1.sendEmail email "Ваше предложение обмена отклонено"
      ("Предложение " ++ evt.OfferID ++ " было отклонено.")

/-- Method `Notifier.SendOfferAccepted`. -/
def Notifier.SendOfferAccepted (userClient : UserServiceClient) (w : Outbox)
    (evt : OfferAcceptedEvent) : Outbox :=
  match Notifier.getEmail userClient w evt.OwnerID with
  | (.error _, w1) => w1
  | (.ok email, w1) =>
    w1.sendEmail email "Ваше предложение обмена принято"
      ("Предложение " ++ evt.OfferID ++ " принято пользователем " ++ evt.Counterparty ++ ".")

/-- Method `Notifier.SendBookAssigned`. -/
def Notifier.SendBookAssigned (userClient : UserServiceClient) (w : Outbox)
    (evt : BookAssignedEvent) : Outbox :=
  match Notifier.getEmail userClient w evt.UserID with
  | (.error _, w1) => w1
  | (.ok email, w1) =>
    w1.sendEmail email "Book Assigned"
      ("The book " ++ evt.BookID ++ " has been assigned to you.")

/-- Method `Notifier.SendBookUnassigned`. -/
def Notifier.SendBookUnassigned (userClient : UserServiceClient) (w : Outbox)
    (evt : BookUnassignedEvent) : Outbox :=
  match Notifier.getEmail userClient w evt.UserID with
  | (.error _, w1) => w1
  | (.ok email, w1) =>
    w1.sendEmail email "Book Unassigned"
      ("The book " ++ evt.BookID ++ " has been unassigned from you.")

/-- Method `Notifier.SendEntryDeleted`. -/
def Notifier.SendEntryDeleted (userClient : UserServiceClient) (w : Outbox)
    (evt : EntryDeletedEvent) : Outbox :=
  match Notifier.getEmail userClient w evt.UserID with
  | (.error _, w1) => w1
  | (.ok email, w1) =>
    w1.sendEmail email "Library Entry Deleted"
      ("Your library entry " ++ evt.EntryID ++ " was deleted.")

/-- Method `Notifier.SendEntryUpdated`. -/
def Notifier.SendEntryUpdated (userClient : UserServiceClient) (w : Outbox)
    (evt : EntryUpdatedEvent) : Outbox :=
  match Notifier.getEmail userClient w evt.UserID with
  | (.error _, w1) => w1
  | (.ok email, w1) =>
    w1.sendEmail email "Library Entry Updated"
      ("Your library entry " ++ evt.EntryID ++ " was updated (new book " ++ evt.BookID ++ ").")

/-- The string field `key` of a JSON object as `json.Unmarshal` fills a
`string` struct field: left empty when the key is absent, an error when the
value is not a string.  (Keys are matched as the publishers write them.) -/
def Payload.stringField (p : Payload) (key : String) : Except Error String :=
  match p.lookup key with
  | none => .ok ""
  | some (.str s) => .ok s
  | some (.strs _) => .error .unmarshal

/-- Decoding `json.Unmarshal(m.Data, &evt)` into a `domain.UserCreatedEvent`;
`none` stands for message bytes that are not a JSON object. -/
def unmarshalUserCreated (data : Option Payload) : Except Error UserCreatedEvent :=
  match data with
  | none => .error .unmarshal
  | some p =>
    match p.stringField "id" with
    | .error err => .error err
    | .ok id =>
      match p.stringField "name" with
      | .error err => .error err
      | .ok name =>
        match p.stringField "email" with
        | .error err => .error err
        | .ok email => .ok ⟨id, name, email⟩

/-- The callback `SubscribeAll` registers on the subject `user.created`. -/
def SubscribeAll.onUserCreated (userClient : UserServiceClient) (w : Outbox)
    (data : Option Payload) : Outbox :=
  match unmarshalUserCreated data with
  | .error _ => w
  | .ok evt => Notifier.SendWelcome userClient w evt

/-- The text `body` contains the text `s`. -/
def Mentions (body s : String) : Prop := s.data <:+: body.data

instance (body s : String) : Decidable (Mentions body s) :=
  inferInstanceAs (Decidable (s.data <:+: body.data))

/-! ## Exchange use case: read paths and the library client -/

/-- Method `exchangeUseCase.ListOffersByUser`; `ttl` is the TTL of the cache
the use case was built with. -/
def exchangeUseCase.ListOffersByUser {σ : Type} (repo : ExchangeRepository σ)
    (ttl : Duration) (st : σ) (c : Redis OffersJSON) (ownerID : String) :
    Except Error (Slice ExchangeOffer) × σ × Redis OffersJSON :=
  RedisExchangeCache.ListByUser repo ttl st c ownerID

/-- Method `exchangeUseCase.ListPendingOffers`. -/
def exchangeUseCase.ListPendingOffers {σ : Type} (repo : ExchangeRepository σ)
    (ttl : Duration) (st : σ) (c : Redis OffersJSON) :
    Except Error (Slice ExchangeOffer) × σ × Redis OffersJSON :=
  RedisExchangeCache.ListPending repo ttl st c

/-- What the library client `u.libClient` of the exchange use case has been
sent: the `UnassignBook` and the `AssignBook` requests, oldest first. -/
structure LibraryClient where
  unassignCalls : List AssignBookRequest
  assignCalls : List AssignBookRequest
  deriving DecidableEq, Repr

/-- Struct `exchangeUseCase`: the states of its three collaborators, the
store behind `repo`, the `cache` and the `libClient`. -/
structure ExchangeUseCaseState (σ : Type) where
  repo : σ
  cache : Redis OffersJSON
  libClient : LibraryClient

/-- Method `exchangeUseCase.AcceptOffer` as a step on the three collaborators
of the use case.  The method body never mentions `u.libClient`, so the
library client is handed on as it is. -/
def exchangeUseCase.AcceptOffer.run {σ : Type} (repo : ExchangeRepository σ)
    (u : ExchangeUseCaseState σ) (offerID requesterID : String) :
    Except Error ExchangeOffer × ExchangeUseCaseState σ :=
  let r := exchangeUseCase.AcceptOffer repo u.repo u.cache offerID requesterID
  (r.1, { repo := r.2.1, cache := r.2.2, libClient := u.libClient })

/-! ## Notification service: subscriptions -/

/-- Subscriptions of the notification service's NATS connection: the
subjects with a registered handler, oldest first, and the fault schedule of
`Subscribe`. -/
structure Subscriptions where
  subjects : List String
  faults : List (Option String)
  deriving DecidableEq, Repr

/-- Method `nats.Conn.Subscribe`, as far as the subject goes. -/
def Subscriptions.Subscribe (s : Subscriptions) (subject : String) :
    Option Error × Subscriptions :=
  match s.faults with
  | some msg :: rest => (some (.network msg), { s with faults := rest })
  | _ => (none, { subjects := s.subjects ++ [subject], faults := s.faults.tail })

/-- The `Subscribe` calls of `SubscribeAll` on the subjects given, in order,
with its `return err` at the first call that fails. -/
def subscribeEach : List String → Subscriptions → Option Error × Subscriptions
  | [], s => (none, s)
  | subject :: rest, s =>
    match s.Subscribe subject with
    | (some err, s1) => (some err, s1)
    | (none, s1) => subscribeEach rest s1

/-- Function `SubscribeAll`: the subjects it subscribes to, in the order of
its `Subscribe` calls. -/
def SubscribeAll (s : Subscriptions) : Option Error × Subscriptions :=
  subscribeEach
    ["orders.created", "user.created", "order.completed", "order.deleted",
     "exchange.offered", "exchange.accepted", "exchange.declined",
     "userlibrary.book.assigned", "userlibrary.book.unassigned",
     "userlibrary.entry.deleted", "userlibrary.entry.updated"] s

/-- Decoding `json.Unmarshal(m.Data, &evt)` into a `domain.EntryUpdatedEvent`;
`none` stands for message bytes that are not a JSON object. -/
def unmarshalEntryUpdated (data : Option Payload) : Except Error EntryUpdatedEvent :=
  match data with
  | none => .error .unmarshal
  | some p =>
    match p.stringField "id" with
    | .error err => .error err
    | .ok id =>
      match p.stringField "user_id" with
      | .error err => .error err
      | .ok userID =>
        match p.stringField "book_id" with
        | .error err => .error err
        | .ok bookID => .ok ⟨id, userID, bookID⟩

/-- The callback `SubscribeAll` registers on the subject
`userlibrary.entry.updated`. -/
def SubscribeAll.onEntryUpdated (userClient : UserServiceClient) (w : Outbox)
    (data : Option Payload) : Outbox :=
  match unmarshalEntryUpdated data with
  | .error _ => w
  | .ok evt => Notifier.SendEntryUpdated userClient w evt

/-! ## Cache key families -/

/-- The cache key families of the services, each as a function of its
argument: `getCacheKeyForBook` and `getCacheKeyForList` (books), `orderKey`
and `userOrdersKey` (orders), `userKey` (users), the key of
`RedisUserLibraryCache`, and the two keys of `RedisExchangeCache` (the
pending list has no argument). -/
def keyFamilies : List (String → String) :=
  [cachedBookRepo.getCacheKeyForBook, cachedBookRepo.getCacheKeyForList,
   orderCache.orderKey, orderCache.userOrdersKey, userKey,
   fun uid => "user_books:" ++ uid,
   fun uid => "exchange:offers:user:" ++ uid,
   fun _ => "exchange:offers:pending"]

/-- The list qualifiers `cachedBookRepo` passes to `getCacheKeyForList`, each
kind as a function of its argument (`all`, `top_rated` and `new_arrivals`
have none). -/
def bookListQualifiers : List (String → String) :=
  [fun _ => "all", fun g => "genre:" ++ g, fun a => "author:" ++ a,
   fun l => "language:" ++ l, fun _ => "top_rated", fun _ => "new_arrivals",
   fun id => "recommend:" ++ id]

/-- The drop-on-lookup-failure property of a notifier method `send` that
looks up the user named by the field `who` of its event: for every accounts
client, earlier record and event, one `GetUser` call is made, with
`who evt`; when that call returns an error the e-mail sink is not called;
and in every case the sink is called at most once. -/
def DropsOnLookupFailure {ε : Type} (send : UserServiceClient → Outbox → ε → Outbox)
    (who : ε → String) : Prop :=
  ∀ (userClient : UserServiceClient) (w : Outbox) (evt : ε),
    (send userClient w evt).lookups = w.lookups ++ [who evt] ∧
    (∀ err, userClient (who evt) = .error err → (send userClient w evt).mails = w.mails) ∧
    ((send userClient w evt).mails = w.mails ∨
      ∃ m, (send userClient w evt).mails = w.mails ++ [m])

/-- The recipient property of a notifier method `send`: for every accounts
client, earlier record and event, when `GetUser` of `who evt` returns the
user `user`, the method makes that one lookup and calls the e-mail sink
once, with recipient `user.Email` and a body that contains `primary evt`. -/
def MailsTheUser {ε : Type} (send : UserServiceClient → Outbox → ε → Outbox)
    (who primary : ε → String) : Prop :=
  ∀ (userClient : UserServiceClient) (w : Outbox) (evt : ε) (user : UserPB),
    userClient (who evt) = .ok user →
    ∃ subject body,
      send userClient w evt
        = { lookups := w.lookups ++ [who evt],
            mails := w.mails ++ [⟨user.Email, subject, body⟩] } ∧
      Mentions body (primary evt)

/-! ## Properties of the cached list reads -/

/-- Proof device: the shape the seven cached list reads of `cachedBookRepo`
share, with the store call, the list qualifier and the TTL as parameters.
Each read is shown equal to an instance (`cachedBookRepo.ListAll_eq` and the
like), so that the protocol is proved once. -/
def cachedBookRepo.listRead {σ : Type} (fetch : σ → Except Error (Slice Book) × σ)
    (listType : String) (ttl : Duration) (st : σ) (c : Redis BookJSON) :
    Except Error (Slice Book) × σ × Redis BookJSON :=
  let cacheKey := cachedBookRepo.getCacheKeyForList listType
  match redisBookCache.GetList c cacheKey with
  | (.ok (some books), c1) => (.ok (some books), st, c1)
  | (_, c1) =>
    match fetch st with
    | (.error err, st1) => (.error err, st1, c1)
    | (.ok books, st1) =>
      let (_, c2) := redisBookCache.SetList c1 cacheKey books ttl
      (.ok books, st1, c2)

/-- The cache-miss-populates property of a cached list read `read` that keeps
its list under `key` and obtains it from the store call `fetch`: when the
cache is healthy, the lookup of the first read misses and the store returns
the non-nil list `L`, which `json.Marshal` accepts (every book of it has a
finite rating and price), the first read returns `L`, and the read that
follows returns `L` again, leaves the store state as it is (no store call)
and sends one `GET` only. -/
def MissPopulates {σ : Type}
    (read : σ → Redis BookJSON → Except Error (Slice Book) × σ × Redis BookJSON)
    (fetch : σ → Except Error (Slice Book) × σ) (key : String) : Prop :=
  ∀ (st st1 : σ) (c : Redis BookJSON) (L : List Book),
    c.healthy →
    (∀ l, (redisBookCache.GetList c key).1 ≠ .ok (some l)) →
    (∀ b ∈ L, b.Rating.finite = true ∧ b.Price.finite = true) →
    fetch st = (.ok (some L), st1) →
    (read st c).1 = .ok (some L) ∧ (read st c).2.1 = st1 ∧
    read st1 (read st c).2.2 = (.ok (some L), st1, (read st c).2.2.sent (.get key))

/-- What a cached list read does with a nil list: when the cache is healthy,
the lookup misses and the store returns the nil slice, the read returns nil
and stores JSON `null` under `key` with the TTL `ttl`; the read that follows
does not take that entry for a hit: it is again the store call (its result
and store state are those of `fetch`). -/
def NilRefetches {σ : Type}
    (read : σ → Redis BookJSON → Except Error (Slice Book) × σ × Redis BookJSON)
    (fetch : σ → Except Error (Slice Book) × σ) (key : String) (ttl : Duration) : Prop :=
  ∀ (st st1 : σ) (c : Redis BookJSON),
    c.healthy →
    (∀ l, (redisBookCache.GetList c key).1 ≠ .ok (some l)) →
    fetch st = (.ok none, st1) →
    (read st c).1 = .ok none ∧ (read st c).2.1 = st1 ∧
    (read st c).2.2.entry key = some (.list none, ttl) ∧
    (read st1 (read st c).2.2).1 = (fetch st1).1 ∧
    (read st1 (read st c).2.2).2.1 = (fetch st1).2

/-- The TTL property of a cached list read `read` that keeps its list under
`key`: when the cache is healthy, the lookup misses and the store call
`fetch` returns `books`, the entry written under `key` is the JSON of `books`
with TTL `ttl`.  A list that `json.Marshal` refuses (a book of it has a
rating or price that is not finite) is not written at all: the table is
left as it was, so no population takes place. -/
def PopulatesWithTTL {σ : Type}
    (read : σ → Redis BookJSON → Except Error (Slice Book) × σ × Redis BookJSON)
    (fetch : σ → Except Error (Slice Book) × σ) (key : String) (ttl : Duration) : Prop :=
  ∀ (st st1 : σ) (c : Redis BookJSON) (books : Slice Book),
    c.healthy →
    (∀ l, (redisBookCache.GetList c key).1 ≠ .ok (some l)) →
    fetch st = (.ok books, st1) →
    ((∀ b ∈ books.elems, b.Rating.finite = true ∧ b.Price.finite = true) →
      (read st c).2.2.entry key = some (.list books, ttl)) ∧
    (¬ (∀ b ∈ books.elems, b.Rating.finite = true ∧ b.Price.finite = true) →
      (read st c).2.2.kv = c.kv)

/-! ## Concrete inputs used by the counterexamples and witnesses -/

/-- A book of genre `sci-fi` that has no id yet. -/
def newSciFiBook : Book := ⟨NilObjectID, "X", "", "sci-fi", "", "", 0, 0, 0, ""⟩

/-- A healthy book collection without documents. -/
def emptyBookStore : Collection Book := ⟨[], [], 1000, 0, 0⟩

/-- A text search that matches nothing. -/
def noTextMatch : String → Book → Bool := fun _ _ => false

/-- A stored book; its id has the canonical hex form
`0000000000000000000000ab`. -/
def sampleBook : Book := ⟨⟨171⟩, "Dune", "Herbert", "sci-fi", "en", "", 4, 10, 600, "1965"⟩

/-- The same book after an edit of its title. -/
def sampleBookEdited : Book := { sampleBook with Title := "Dune (revised)" }

/-- A healthy book collection that holds `sampleBook`. -/
def sampleBookStore : Collection Book := ⟨[sampleBook], [], 1000, 0, 0⟩

/-- A stored book whose rating is `+Inf`, a value of `float32` that BSON
stores and `encoding/json` refuses. -/
def unratedBook : Book := { sampleBook with Rating := .posInf }

/-- A healthy book collection that holds `unratedBook`. -/
def unratedBookStore : Collection Book := ⟨[unratedBook], [], 1000, 0, 0⟩

/-- The canonical spelling of the id of `sampleBook` and of the document id of
`sampleOrderDoc` and `sampleOfferDoc`. -/
def lowerSpelling : String := "0000000000000000000000ab"

/-- Another spelling that `ObjectIDFromHex` parses to the same id. -/
def upperSpelling : String := "0000000000000000000000AB"

/-- A stored order in status `Created`, as `Decode` reads it; its field `ID`
has the hex form `0000000000000000000000aa`. -/
def sampleOrder : Order := ⟨⟨170⟩, ⟨1⟩, some [⟨2⟩], "Created", 100, 100⟩

/-- The document that holds `sampleOrder`, as `mongoOrderRepo.Create` writes
it: the document id is the id drawn right after the one of the order. -/
def sampleOrderDoc : OrderDoc := ⟨⟨171⟩, sampleOrder, none, .missing, none⟩

/-- A healthy order collection that holds `sampleOrderDoc`; the clock reads
200. -/
def sampleOrderStore : Collection OrderDoc := ⟨[sampleOrderDoc], [], 1000, 0, 200⟩

/-- The order `OrderHandler.CreateOrder` hands to the repository for the user
`...01` and the book `...02`. -/
def sampleNewOrder : Order := ⟨NilObjectID, ⟨1⟩, some [⟨2⟩], "Created", 0, 0⟩

/-- A healthy order collection without documents whose id counter stands at
170 and whose clock reads 100. -/
def freshOrderStore : Collection OrderDoc := ⟨[], [], 170, 0, 100⟩

/-- A book collection whose next driver command fails. -/
def downBookStore : Collection Book := ⟨[sampleBook], [some "connection refused"], 1000, 0, 0⟩

/-- A stored offer in status `PENDING`, as `Decode` reads it; its field `ID`
has the hex form `0000000000000000000000aa`. -/
def sampleOffer : ExchangeOffer :=
  ⟨⟨170⟩, ⟨1⟩, ⟨2⟩, some [⟨3⟩], some [⟨4⟩], "PENDING", 100, 100⟩

/-- The document that holds `sampleOffer`, as `mongoExchangeRepo.CreateOffer`
writes it: the document id is the id drawn right after the one of the
offer. -/
def sampleOfferDoc : OfferDoc := ⟨⟨171⟩, sampleOffer, none, none, .missing, .missing, none⟩

/-- An offer collection whose next driver command fails. -/
def downOfferStore : Collection OfferDoc :=
  ⟨[sampleOfferDoc], [some "connection refused"], 1000, 0, 200⟩

/-- The offer `ExchangeHandler.CreateOffer` hands to the use case for the
request `sampleCreateOffer` at the time 100. -/
def sampleNewOffer : ExchangeOffer :=
  ⟨NilObjectID, ⟨1⟩, ⟨2⟩, some [⟨3⟩], some [⟨4⟩], "PENDING", 100, 100⟩

/-- A healthy offer collection without documents whose id counter stands at
170 and whose clock reads 100. -/
def freshOfferStore : Collection OfferDoc := ⟨[], [], 170, 0, 100⟩

/-- A stored book of another genre. -/
def fantasyBook : Book :=
  ⟨⟨9⟩, "Earthsea", "Le Guin", "fantasy", "en", "", 5, 8, 200, "1968"⟩

/-- A healthy book collection without a book of genre `sci-fi`. -/
def fantasyBookStore : Collection Book := ⟨[fantasyBook], [], 1000, 0, 0⟩

/-- A cache whose next command fails with a timeout. -/
def timeoutCache {β : Type} : Redis β := ⟨[], [some "i/o timeout"], []⟩

/-- A healthy offer collection that holds `sampleOfferDoc`; the clock reads
200. -/
def sampleOfferStore : Collection OfferDoc := ⟨[sampleOfferDoc], [], 1000, 0, 200⟩

/-- A library entry of the user with id `...01`, as `Decode` reads it. -/
def sampleUserBook : UserBook := ⟨⟨6⟩, ⟨1⟩, ⟨2⟩⟩

/-- The document that holds `sampleUserBook`, as
`mongoUserBookRepo.AssignBook` writes it: the document id `...07` is the id
drawn right after the one of the entry. -/
def sampleUserBookDoc : UserBookDoc := ⟨⟨7⟩, sampleUserBook, none, none⟩

/-- A healthy library collection that holds `sampleUserBookDoc`. -/
def sampleUserBookStore : Collection UserBookDoc := ⟨[sampleUserBookDoc], [], 1000, 0, 0⟩

/-- A healthy library collection without documents whose id counter stands
at 6. -/
def freshUserBookStore : Collection UserBookDoc := ⟨[], [], 6, 0, 0⟩

/-- A healthy exchange cache whose list for the user `...01` is not JSON. -/
def garbledOffersCache : Redis OffersJSON :=
  ⟨[("exchange:offers:user:000000000000000000000001", .invalid "\x7b", 5 * Minute)], [], []⟩

/-- A stored user. -/
def sampleUser : User := ⟨⟨171⟩, "Ada", "ada@example.org", "secret"⟩

/-- A healthy user collection that holds `sampleUser`. -/
def sampleUserStore : Collection User := ⟨[sampleUser], [], 1000, 0, 0⟩

/-- A healthy offer collection without documents; the clock reads 200. -/
def emptyOfferStore : Collection OfferDoc := ⟨[], [], 1000, 0, 200⟩

/-- A well-formed request to create an offer. -/
def sampleCreateOffer : CreateOfferRequest :=
  ⟨"000000000000000000000001", "000000000000000000000002",
    ["000000000000000000000003"], ["000000000000000000000004"]⟩

/-- The offer `sampleOffer` after it has been declined, as `Decode` reads it. -/
def declinedOffer : ExchangeOffer := { sampleOffer with Status := "DECLINED" }

/-- The document `sampleOfferDoc` after `DeclineOffer` at the time 150. -/
def declinedOfferDoc : OfferDoc :=
  { sampleOfferDoc with fields := declinedOffer, updated_at := some 150 }

/-- A healthy offer collection that holds `declinedOfferDoc`; the clock reads
200. -/
def declinedOfferStore : Collection OfferDoc := ⟨[declinedOfferDoc], [], 1000, 0, 200⟩

/-- The order `sampleOrder` after it has been cancelled, as `Decode` reads
it. -/
def cancelledOrder : Order := { sampleOrder with Status := "Cancelled" }

/-- The document `sampleOrderDoc` after `Cancel` at the time 150. -/
def cancelledOrderDoc : OrderDoc :=
  { sampleOrderDoc with fields := cancelledOrder, updated_at := some 150 }

/-- A healthy order collection that holds `cancelledOrderDoc`; the clock
reads 200. -/
def cancelledOrderStore : Collection OrderDoc := ⟨[cancelledOrderDoc], [], 1000, 0, 200⟩

/-- A well-formed request to create an order of two books; the second id is
spelled in upper case. -/
def sampleCreateOrder : CreateOrderRequest :=
  ⟨"000000000000000000000001", ["0000000000000000000000b1", "0000000000000000000000B2"]⟩

/-- A healthy order collection without documents; the clock reads 200. -/
def emptyOrderStore : Collection OrderDoc := ⟨[], [], 1000, 0, 200⟩

/-- A bus that accepts messages. -/
def upBus : Nats := ⟨[], []⟩

/-- A bus whose next `Publish` fails. -/
def downBus : Nats := ⟨[], [some "nats: connection closed"]⟩

/-- An accounts service that answers no `GetUser` call. -/
def accountsDown : UserServiceClient := fun _ => .error (.status "Unavailable" "no connection")

/-- An accounts service that knows the user Ada under the id `lowerSpelling`. -/
def accountsWithAda : UserServiceClient := fun id =>
  if id = lowerSpelling then .ok ⟨lowerSpelling, "Ada", "ada@example.org", "secret"⟩
  else .error (.statusf "NotFound" "user not found" .noDocuments)

/-- A notifier that has done nothing yet. -/
def emptyOutbox : Outbox := ⟨[], []⟩

/-- The request of scenario S6 on the stored document `sampleUserBookDoc`,
addressed by its document id `...07`: the book id `...03` is to replace
`...02`. -/
def sampleUpdateEntry : UserBookPB :=
  ⟨"000000000000000000000007", "000000000000000000000001", "000000000000000000000003"⟩

/-- A connection without subscriptions on which every `Subscribe` succeeds. -/
def freshSubscriptions : Subscriptions := ⟨[], []⟩

/-- A `CreateBook` request. -/
def sampleCreateBook : CreateBookRequest :=
  ⟨some ⟨"", "Dune", "Herbert", "sci-fi", "en", "", 4, 10, 600, "1965"⟩⟩

/-- A library client that has received no call. -/
def idleLibraryClient : LibraryClient := ⟨[], []⟩

/-- A `CreateOffer` request whose only offered book id is no hex id. -/
def malformedBookOffer : CreateOfferRequest :=
  ⟨"000000000000000000000001", "000000000000000000000002",
    ["not-an-id"], ["000000000000000000000004"]⟩

/-- A `CreateOffer` request whose counterparty id is no hex id. -/
def malformedCounterpartyOffer : CreateOfferRequest :=
  ⟨"000000000000000000000001", "nobody",
    ["000000000000000000000003"], ["000000000000000000000004"]⟩

/-! # Theorems -/

/-! ## The Redis model -/

theorem Redis.fault_of_healthy {β : Type} {r : Redis β} (h : r.healthy) : r.fault = none := by
  unfold Redis.fault
  cases hf : r.faults with
  | nil => rfl
  | cons f fs =>
    have : f = none := h f (by simp [hf])
    subst this
    rfl

theorem Redis.healthy_sent {β : Type} {r : Redis β} (h : r.healthy) (cmd : RedisCmd) :
    (r.sent cmd).healthy := by
  intro f hf
  exact h f (List.mem_of_mem_tail hf)

theorem Redis.healthy_empty {β : Type} : (Redis.empty : Redis β).healthy := by
  intro f hf
  cases hf

theorem lookup_filter_ne_self {β : Type} (k : String) (l : List (String × β)) :
    (l.filter (fun e => e.1 ≠ k)).lookup k = none := by
  induction l with
  | nil => rfl
  | cons e es ih =>
    obtain ⟨a, b⟩ := e
    by_cases h : a = k
    · simpa [List.filter_cons, h] using ih
    · have hk : (k == a) = false := by
        simp only [beq_eq_false_iff_ne, ne_eq]
        exact fun hh => h hh.symm
      simpa [List.filter_cons, h, List.lookup, hk] using ih

theorem lookup_filter_ne_other {β : Type} {k k' : String} (hne : k' ≠ k)
    (l : List (String × β)) :
    (l.filter (fun e => e.1 ≠ k)).lookup k' = l.lookup k' := by
  induction l with
  | nil => rfl
  | cons e es ih =>
    obtain ⟨a, b⟩ := e
    by_cases h : a = k
    · subst h
      have hk : (k' == a) = false := by simpa using hne
      simpa [List.filter_cons, List.lookup, hk] using ih
    · by_cases h2 : k' = a
      · subst h2
        simp [List.filter_cons, h, List.lookup]
      · have hk : (k' == a) = false := by simpa using h2
        simpa [List.filter_cons, h, List.lookup, hk] using ih

/-! ## C1, C2: read-your-writes by id -/

/-- C1 (code bug): read-your-writes for books fails for an id spelled other
than the canonical lower-case hex.  `GetByID` with the upper-case spelling
fills the key `book:0000000000000000000000AB`; `Update` succeeds and deletes
`book:0000000000000000000000ab` and `books:all` (every cache command
succeeds); the next `GetByID` with the same upper-case spelling returns the
pre-update snapshot although the store holds the edited book. -/
theorem C1_update_then_read_other_spelling_is_stale :
    ObjectIDFromHex upperSpelling = .ok sampleBookEdited.ID ∧
    (let repo := mongoBookRepo noTextMatch
     let r1 := cachedBookRepo.GetByID repo sampleBookStore Redis.empty upperSpelling
     let r2 := cachedBookRepo.Update repo r1.2.1 r1.2.2 sampleBookEdited
     let r3 := cachedBookRepo.GetByID repo r2.2.1 r2.2.2 upperSpelling
     r1.1 = .ok sampleBook ∧
     r2.1 = .ok sampleBookEdited ∧
     r2.2.1.docs = [sampleBookEdited] ∧
     r2.2.2.log = [.get "book:0000000000000000000000AB",
                   .set "book:0000000000000000000000AB" (10 * Minute),
                   .del "book:0000000000000000000000ab",
                   .del "books:all"] ∧
     r3.1 = .ok sampleBook ∧
     r3.2.1.docs = [sampleBookEdited] ∧
     sampleBook ≠ sampleBookEdited) := by
  decide

/-- C2 (code bug): read-your-writes for orders fails between the two ids of
one order.  `Create` stores the order with the field `ID` `...aa` in a
document whose `_id` is `...ab`, the id the driver drew for it.  `GetByID`
with `...ab` finds the document and fills `order:...aa` (the key
`orderCache.Set` derives from `order.ID.Hex()`); `Cancel` with `...ab`
succeeds and deletes `order:...ab`, the key of the request string; the next
`GetByID` with `...aa`, the id every reply shows for this order, returns the
cached order in status `Created` although the store holds it as
`Cancelled`. -/
theorem C2_cancel_then_read_by_order_id_is_stale :
    ObjectIDFromHex "0000000000000000000000aa" = .ok sampleOrder.ID ∧
    ObjectIDFromHex "0000000000000000000000ab" = .ok sampleOrderDoc._id ∧
    (let r0 := mongoOrderRepo.Create freshOrderStore Redis.empty sampleNewOrder
     let r1 := mongoOrderRepo.GetByID r0.2.1 r0.2.2 "0000000000000000000000ab"
     let r2 := mongoOrderRepo.Cancel { r1.2.1 with clock := 200 } r1.2.2
       "0000000000000000000000ab"
     let r3 := mongoOrderRepo.GetByID r2.2.1 r2.2.2 "0000000000000000000000aa"
     r0.1 = .ok sampleOrder ∧
     r0.2.1.docs = [sampleOrderDoc] ∧
     r1.1 = .ok sampleOrder ∧
     r2.1 = .ok { sampleOrder with Status := "Cancelled" } ∧
     r2.2.1.docs = [{ sampleOrderDoc with fields := { sampleOrder with Status := "Cancelled" },
                                          updated_at := some 200 }] ∧
     r2.2.2.log = [.del "user_orders:000000000000000000000001",
                   .get "order:0000000000000000000000ab",
                   .set "order:0000000000000000000000aa" orderCacheTTL,
                   .del "order:0000000000000000000000ab",
                   .del "user_orders:000000000000000000000001"] ∧
     r3.1 = .ok sampleOrder ∧
     r3.2.1 = r2.2.1 ∧
     sampleOrder.Status = "Created") := by
  decide

/-! ## C3: a failed write leaves the cache alone -/

/-- C3: when the store call of a cached write fails with error `e`, the
operation returns exactly `e` and the cache state (table, fault schedule and
command record) is the one it was given: no key is deleted or set.  Stated
for `cachedBookRepo.Create/Update/Delete` and for
`exchangeUseCase.CreateOffer/AcceptOffer/DeclineOffer/UpdateOffer/
AddOfferedBook/RemoveOfferedBook`, over every implementation of the
repository interfaces. -/
theorem C3_failed_write_leaves_cache_untouched {σ τ : Type}
    (books : BookRepository σ) (offers : ExchangeRepository τ)
    (st st1 : σ) (xt xt1 : τ) (c : Redis BookJSON) (xc : Redis OffersJSON) (e : Error)
    (book : Book) (id : String) (offer : ExchangeOffer) (offerID requesterID bookID : String) :
    (books.Create st book = (.error e, st1) →
      cachedBookRepo.Create books st c book = (.error e, st1, c)) ∧
    (books.Update st book = (.error e, st1) →
      cachedBookRepo.Update books st c book = (.error e, st1, c)) ∧
    (books.Delete st id = (some e, st1) →
      cachedBookRepo.Delete books st c id = (some e, st1, c)) ∧
    (offers.CreateOffer xt offer = (.error e, xt1) →
      exchangeUseCase.CreateOffer offers xt xc offer = (.error e, xt1, xc)) ∧
    (offers.AcceptOffer xt offerID = (.error e, xt1) →
      exchangeUseCase.AcceptOffer offers xt xc offerID requesterID = (.error e, xt1, xc)) ∧
    (offers.DeclineOffer xt offerID = (.error e, xt1) →
      exchangeUseCase.DeclineOffer offers xt xc offerID = (.error e, xt1, xc)) ∧
    (offers.UpdateOffer xt offer = (.error e, xt1) →
      exchangeUseCase.UpdateOffer offers xt xc offer = (.error e, xt1, xc)) ∧
    (offers.AddOfferedBook xt offerID bookID = (.error e, xt1) →
      exchangeUseCase.AddOfferedBook offers xt xc offerID bookID = (.error e, xt1, xc)) ∧
    (offers.RemoveOfferedBook xt offerID bookID = (.error e, xt1) →
      exchangeUseCase.RemoveOfferedBook offers xt xc offerID bookID = (.error e, xt1, xc)) := by
  refine ⟨?_, ?_, ?_, ?_, ?_, ?_, ?_, ?_, ?_⟩
  · intro h; simp [cachedBookRepo.Create, h]
  · intro h; simp [cachedBookRepo.Update, h]
  · intro h; simp [cachedBookRepo.Delete, h]
  · intro h; simp [exchangeUseCase.CreateOffer, h]
  · intro h; simp [exchangeUseCase.AcceptOffer, h]
  · intro h; simp [exchangeUseCase.DeclineOffer, h]
  · intro h; simp [exchangeUseCase.UpdateOffer, h]
  · intro h; simp [exchangeUseCase.AddOfferedBook, h]
  · intro h; simp [exchangeUseCase.RemoveOfferedBook, h]

/-- Witness for C3: with MongoDB unreachable, each of the nine writes returns
the driver's error and hands back the cache it was given. -/
theorem C3_failed_write_leaves_cache_untouched_witness :
    cachedBookRepo.Create (mongoBookRepo noTextMatch) downBookStore Redis.empty sampleBookEdited
      = (.error (.network "connection refused"), downBookStore.sent, Redis.empty) ∧
    cachedBookRepo.Update (mongoBookRepo noTextMatch) downBookStore Redis.empty sampleBookEdited
      = (.error (.network "connection refused"), downBookStore.sent, Redis.empty) ∧
    cachedBookRepo.Delete (mongoBookRepo noTextMatch) downBookStore Redis.empty lowerSpelling
      = (some (.network "connection refused"), downBookStore.sent, Redis.empty) ∧
    exchangeUseCase.CreateOffer mongoExchangeRepo downOfferStore Redis.empty sampleOffer
      = (.error (.network "connection refused"),
          (downOfferStore.NewObjectID).2.NewObjectID.2.sent, Redis.empty) ∧
    exchangeUseCase.AcceptOffer mongoExchangeRepo downOfferStore Redis.empty lowerSpelling
        upperSpelling
      = (.error (.network "connection refused"), downOfferStore.sent, Redis.empty) ∧
    exchangeUseCase.DeclineOffer mongoExchangeRepo downOfferStore Redis.empty lowerSpelling
      = (.error (.network "connection refused"), downOfferStore.sent, Redis.empty) ∧
    exchangeUseCase.UpdateOffer mongoExchangeRepo downOfferStore Redis.empty sampleOffer
      = (.error (.network "connection refused"), downOfferStore.sent, Redis.empty) ∧
    exchangeUseCase.AddOfferedBook mongoExchangeRepo downOfferStore Redis.empty lowerSpelling
        upperSpelling
      = (.error (.network "connection refused"), downOfferStore.sent, Redis.empty) ∧
    exchangeUseCase.RemoveOfferedBook mongoExchangeRepo downOfferStore Redis.empty lowerSpelling
        upperSpelling
      = (.error (.network "connection refused"), downOfferStore.sent, Redis.empty) := by
  have hb := C3_failed_write_leaves_cache_untouched (mongoBookRepo noTextMatch)
    mongoExchangeRepo downBookStore downBookStore.sent downOfferStore downOfferStore.sent
    Redis.empty Redis.empty (.network "connection refused") sampleBookEdited lowerSpelling
    sampleOffer lowerSpelling upperSpelling upperSpelling
  have hc := C3_failed_write_leaves_cache_untouched (mongoBookRepo noTextMatch)
    mongoExchangeRepo downBookStore downBookStore.sent downOfferStore
    (downOfferStore.NewObjectID).2.NewObjectID.2.sent
    Redis.empty Redis.empty (.network "connection refused") sampleBookEdited lowerSpelling
    sampleOffer lowerSpelling upperSpelling upperSpelling
  exact ⟨hb.1 (by decide), hb.2.1 (by decide), hb.2.2.1 (by decide), hc.2.2.2.1 (by decide),
    hb.2.2.2.2.1 (by decide), hb.2.2.2.2.2.1 (by decide), hb.2.2.2.2.2.2.1 (by decide),
    hb.2.2.2.2.2.2.2.1 (by decide), hb.2.2.2.2.2.2.2.2 (by decide)⟩

/-! ## C4: read by id -/

theorem redisBookCache.SetList_encodable (c : Redis BookJSON) (key : String)
    (books : Slice Book) (ttl : Duration)
    (henc : ∀ b ∈ books.elems, b.Rating.finite = true ∧ b.Price.finite = true) :
    redisBookCache.SetList c key books ttl = c.Set key (.list books) ttl := by
  have hm : marshalBooks books = .ok (.list books) := by
    unfold marshalBooks
    rw [if_pos henc]
  simp only [redisBookCache.SetList, hm]

theorem redisBookCache.SetList_refused (c : Redis BookJSON) (key : String)
    (books : Slice Book) (ttl : Duration)
    (henc : ¬ ∀ b ∈ books.elems, b.Rating.finite = true ∧ b.Price.finite = true) :
    redisBookCache.SetList c key books ttl = (some .unsupportedValue, c) := by
  have hm : marshalBooks books = .error .unsupportedValue := by
    unfold marshalBooks
    rw [if_neg henc]
  simp only [redisBookCache.SetList, hm]

theorem redisBookCache.Set_encodable (c : Redis BookJSON) (key : String)
    (book : Book) (ttl : Duration)
    (henc : book.Rating.finite = true ∧ book.Price.finite = true) :
    redisBookCache.Set c key book ttl = c.Set key (.book book) ttl := by
  have hm : marshalBook book = .ok (.book book) := by
    unfold marshalBook
    rw [if_pos henc]
  simp only [redisBookCache.Set, hm]

theorem redisBookCache.Set_refused (c : Redis BookJSON) (key : String)
    (book : Book) (ttl : Duration)
    (henc : ¬ (book.Rating.finite = true ∧ book.Price.finite = true)) :
    redisBookCache.Set c key book ttl = (some .unsupportedValue, c) := by
  have hm : marshalBook book = .error .unsupportedValue := by
    unfold marshalBook
    rw [if_neg henc]
  simp only [redisBookCache.Set, hm]

theorem redisBookCache.Get_state (c : Redis BookJSON) (key : String) :
    (redisBookCache.Get c key).2 = c.sent (.get key) := by
  unfold redisBookCache.Get Redis.Get
  cases c.fault <;> simp only []
  cases List.lookup key c.kv <;> simp only []
  split <;> rfl

theorem Redis.entry_Set {β : Type} (r : Redis β) (key : String) (val : β) (ttl : Duration)
    (h : r.fault = none) : (r.Set key val ttl).2.entry key = some (val, ttl) := by
  simp [Redis.Set, h, Redis.entry, List.lookup]

/-- C4: `cachedBookRepo.GetByID` follows the read-by-id protocol, for every
repository implementation, store state, cache state and id.
(a) If the cache yields a book for `"book:" ++ id`, that book is returned and
the store state is the one given (the store is not queried).
(b) The cache lookup fails when the command fails, when the key is absent and
when the stored bytes do not decode; after any failed lookup the store is
queried, and when it finds the book, that book is returned, the cache
receives `Set` of exactly that book under `"book:" ++ id`, and the outcome
of that `Set` does not matter to the result.  When `json.Marshal` accepts the
book (its rating and price are finite) the `SET` command is sent, and when
the command succeeds the key holds the book for ten minutes; when
`json.Marshal` refuses the book, `Set` fails with that error before any
command is sent, and the book is returned all the same.
(c) When the store returns an error, that error is returned and the cache
table is the one given: the only command sent was the lookup. -/
theorem C4_GetByID_read_protocol {σ : Type} (repo : BookRepository σ) (st : σ)
    (c : Redis BookJSON) (id : String) :
    (∀ book c1, redisBookCache.Get c ("book:" ++ id) = (.ok book, c1) →
      cachedBookRepo.GetByID repo st c id = (.ok book, st, c1)) ∧
    ((∀ msg, c.fault = some msg →
        (redisBookCache.Get c ("book:" ++ id)).1 = .error (.network msg)) ∧
     (c.fault = none → c.kv.lookup ("book:" ++ id) = none →
        (redisBookCache.Get c ("book:" ++ id)).1 = .error .redisNil) ∧
     (∀ v ttl e, c.fault = none → c.kv.lookup ("book:" ++ id) = some (v, ttl) →
        unmarshalBook v = .error e →
        (redisBookCache.Get c ("book:" ++ id)).1 = .error e)) ∧
    (∀ e c1 book st1, redisBookCache.Get c ("book:" ++ id) = (.error e, c1) →
      repo.GetByID st id = (.ok book, st1) →
      cachedBookRepo.GetByID repo st c id
        = (.ok book, st1, (redisBookCache.Set c1 ("book:" ++ id) book (10 * Minute)).2) ∧
      (book.Rating.finite = true ∧ book.Price.finite = true →
        (redisBookCache.Set c1 ("book:" ++ id) book (10 * Minute)).2.log
          = c.log ++ [.get ("book:" ++ id), .set ("book:" ++ id) (10 * Minute)] ∧
        (c1.fault = none →
          (cachedBookRepo.GetByID repo st c id).2.2.entry ("book:" ++ id)
            = some (.book book, 10 * Minute))) ∧
      (¬ (book.Rating.finite = true ∧ book.Price.finite = true) →
        redisBookCache.Set c1 ("book:" ++ id) book (10 * Minute)
          = (some .unsupportedValue, c1))) ∧
    (∀ e c1 err st1, redisBookCache.Get c ("book:" ++ id) = (.error e, c1) →
      repo.GetByID st id = (.error err, st1) →
      cachedBookRepo.GetByID repo st c id = (.error err, st1, c1) ∧
      c1.kv = c.kv ∧ c1.log = c.log ++ [.get ("book:" ++ id)]) := by
  refine ⟨?_, ⟨?_, ?_, ?_⟩, ?_, ?_⟩
  · intro book c1 h
    simp [cachedBookRepo.GetByID, cachedBookRepo.getCacheKeyForBook, h]
  · intro msg h
    simp [redisBookCache.Get, Redis.Get, h]
  · intro h hk
    simp [redisBookCache.Get, Redis.Get, h, hk]
  · intro v ttl e h hk hv
    simp [redisBookCache.Get, Redis.Get, h, hk, hv]
  · intro e c1 book st1 h hs
    have hc1 : c1 = c.sent (.get ("book:" ++ id)) := by
      have := redisBookCache.Get_state c ("book:" ++ id)
      rw [h] at this
      exact this
    have hres : cachedBookRepo.GetByID repo st c id
        = (.ok book, st1, (redisBookCache.Set c1 ("book:" ++ id) book (10 * Minute)).2) := by
      simp [cachedBookRepo.GetByID, cachedBookRepo.getCacheKeyForBook, h, hs]
    refine ⟨hres, fun henc => ⟨?_, ?_⟩, fun henc => redisBookCache.Set_refused _ _ _ _ henc⟩
    · subst hc1
      rw [redisBookCache.Set_encodable _ _ _ _ henc]
      unfold Redis.Set
      cases (c.sent (.get ("book:" ++ id))).fault <;> simp [Redis.sent]
    · intro hf
      rw [hres, redisBookCache.Set_encodable _ _ _ _ henc]
      exact Redis.entry_Set c1 _ _ _ hf
  · intro e c1 err st1 h hs
    have hc1 : c1 = c.sent (.get ("book:" ++ id)) := by
      have := redisBookCache.Get_state c ("book:" ++ id)
      rw [h] at this
      exact this
    refine ⟨?_, ?_, ?_⟩
    · simp [cachedBookRepo.GetByID, cachedBookRepo.getCacheKeyForBook, h, hs]
    · subst hc1; rfl
    · subst hc1; rfl

/-- Witness for C4: on an empty healthy cache the lookup of the stored
book misses, the store finds it, and it is returned and cached. -/
theorem C4_GetByID_read_protocol_witness :
    cachedBookRepo.GetByID (mongoBookRepo noTextMatch) sampleBookStore Redis.empty lowerSpelling
      = (.ok sampleBook, sampleBookStore.sent,
          (redisBookCache.Set (Redis.empty.sent (.get ("book:" ++ lowerSpelling)))
            ("book:" ++ lowerSpelling) sampleBook (10 * Minute)).2) :=
  ((C4_GetByID_read_protocol (mongoBookRepo noTextMatch) sampleBookStore Redis.empty
      lowerSpelling).2.2.1 .redisNil (Redis.empty.sent (.get ("book:" ++ lowerSpelling)))
      sampleBook sampleBookStore.sent (by decide) (by decide)).1

/-- A book that `json.Marshal` refuses is returned by `GetByID` all the same:
`Set` fails before any command is sent, the failure is dropped, and the cache
has received the lookup only. -/
theorem cachedBookRepo.GetByID_of_refused_book :
    (let r := cachedBookRepo.GetByID (mongoBookRepo noTextMatch) unratedBookStore Redis.empty
       lowerSpelling
     r.1 = .ok unratedBook ∧ r.2.2.kv = [] ∧
     r.2.2.log = [.get "book:0000000000000000000000ab"]) ∧
    (let r := cachedBookRepo.ListAll (mongoBookRepo noTextMatch) unratedBookStore Redis.empty
     r.1 = .ok (some [unratedBook]) ∧ r.2.2.kv = [] ∧ r.2.2.log = [.get "books:all"]) := by
  decide

/-! ## Cached list reads of the book service -/

theorem cachedBookRepo.ListAll_eq {σ : Type} (repo : BookRepository σ) (st : σ)
    (c : Redis BookJSON) :
    cachedBookRepo.ListAll repo st c
      = cachedBookRepo.listRead repo.ListAll "all" (5 * Minute) st c := rfl

theorem cachedBookRepo.ListByGenre_eq {σ : Type} (repo : BookRepository σ) (st : σ)
    (c : Redis BookJSON) (genre : String) :
    cachedBookRepo.ListByGenre repo st c genre
      = cachedBookRepo.listRead (fun s => repo.ListByGenre s genre) ("genre:" ++ genre)
          (10 * Minute) st c := rfl

theorem cachedBookRepo.ListByAuthor_eq {σ : Type} (repo : BookRepository σ) (st : σ)
    (c : Redis BookJSON) (author : String) :
    cachedBookRepo.ListByAuthor repo st c author
      = cachedBookRepo.listRead (fun s => repo.ListByAuthor s author) ("author:" ++ author)
          (10 * Minute) st c := rfl

theorem cachedBookRepo.ListByLanguage_eq {σ : Type} (repo : BookRepository σ) (st : σ)
    (c : Redis BookJSON) (language : String) :
    cachedBookRepo.ListByLanguage repo st c language
      = cachedBookRepo.listRead (fun s => repo.ListByLanguage s language)
          ("language:" ++ language) (10 * Minute) st c := rfl

theorem cachedBookRepo.ListTopRated_eq {σ : Type} (repo : BookRepository σ) (st : σ)
    (c : Redis BookJSON) :
    cachedBookRepo.ListTopRated repo st c
      = cachedBookRepo.listRead repo.ListTopRated "top_rated" (15 * Minute) st c := rfl

theorem cachedBookRepo.ListNewArrivals_eq {σ : Type} (repo : BookRepository σ) (st : σ)
    (c : Redis BookJSON) :
    cachedBookRepo.ListNewArrivals repo st c
      = cachedBookRepo.listRead repo.ListNewArrivals "new_arrivals" (30 * Minute) st c := rfl

theorem cachedBookRepo.RecommendBooks_eq {σ : Type} (repo : BookRepository σ) (st : σ)
    (c : Redis BookJSON) (bookID : String) :
    cachedBookRepo.RecommendBooks repo st c bookID
      = cachedBookRepo.listRead (fun s => repo.RecommendBooks s bookID)
          ("recommend:" ++ bookID) (30 * Minute) st c := rfl

theorem Redis.Set_of_fault_none {β : Type} (r : Redis β) (key : String) (val : β)
    (ttl : Duration) (h : r.fault = none) :
    r.Set key val ttl
      = (none, { r.sent (.set key ttl) with
                   kv := (key, val, ttl) :: r.kv.filter (fun e => e.1 ≠ key) }) := by
  simp [Redis.Set, h]

theorem Redis.Del_of_fault_none {β : Type} (r : Redis β) (key : String)
    (h : r.fault = none) :
    r.Del key
      = (none, { r.sent (.del key) with kv := r.kv.filter (fun e => e.1 ≠ key) }) := by
  simp [Redis.Del, h]

theorem Redis.healthy_Set {β : Type} {r : Redis β} (h : r.healthy) (key : String) (val : β)
    (ttl : Duration) : (r.Set key val ttl).2.healthy := by
  rw [Redis.Set_of_fault_none r key val ttl (Redis.fault_of_healthy h)]
  intro f hf
  exact h f (List.mem_of_mem_tail hf)

theorem Redis.healthy_Del {β : Type} {r : Redis β} (h : r.healthy) (key : String) :
    (r.Del key).2.healthy := by
  rw [Redis.Del_of_fault_none r key (Redis.fault_of_healthy h)]
  intro f hf
  exact h f (List.mem_of_mem_tail hf)

theorem Redis.entry_Del_self {β : Type} {r : Redis β} (h : r.healthy) (key : String) :
    (r.Del key).2.entry key = none := by
  rw [Redis.Del_of_fault_none r key (Redis.fault_of_healthy h)]
  exact lookup_filter_ne_self key r.kv

theorem Redis.entry_Del_other {β : Type} (r : Redis β) {key k : String} (hne : k ≠ key) :
    (r.Del key).2.entry k = r.entry k := by
  unfold Redis.Del
  cases r.fault with
  | some msg => rfl
  | none => exact lookup_filter_ne_other hne r.kv

theorem redisBookCache.GetList_state (c : Redis BookJSON) (key : String) :
    (redisBookCache.GetList c key).2 = c.sent (.get key) := by
  unfold redisBookCache.GetList Redis.Get
  cases c.fault <;> simp only []
  cases List.lookup key c.kv <;> simp only []
  split <;> rfl

theorem redisBookCache.GetList_absent {c : Redis BookJSON} (h : c.healthy) {key : String}
    (hk : c.entry key = none) :
    redisBookCache.GetList c key = (.error .redisNil, c.sent (.get key)) := by
  unfold Redis.entry at hk
  simp [redisBookCache.GetList, Redis.Get, Redis.fault_of_healthy h, hk]

theorem redisBookCache.GetList_present {c : Redis BookJSON} (h : c.healthy) {key : String}
    {l : Slice Book} {ttl : Duration} (hk : c.entry key = some (.list l, ttl)) :
    redisBookCache.GetList c key = (.ok l, c.sent (.get key)) := by
  unfold Redis.entry at hk
  simp [redisBookCache.GetList, Redis.Get, Redis.fault_of_healthy h, hk, unmarshalBooks]

/-- A list read that misses the cache is the store call followed by `SetList`
of what the store returned. -/
theorem cachedBookRepo.listRead_miss {σ : Type} (fetch : σ → Except Error (Slice Book) × σ)
    (listType : String) (ttl : Duration) (st : σ) (c : Redis BookJSON)
    (hmiss : ∀ l, (redisBookCache.GetList c ("books:" ++ listType)).1 ≠ .ok (some l)) :
    cachedBookRepo.listRead fetch listType ttl st c
      = match fetch st with
        | (.error err, st1) => (.error err, st1, c.sent (.get ("books:" ++ listType)))
        | (.ok books, st1) =>
          (.ok books, st1,
            (redisBookCache.SetList (c.sent (.get ("books:" ++ listType)))
              ("books:" ++ listType) books ttl).2) := by
  have hst := redisBookCache.GetList_state c ("books:" ++ listType)
  unfold cachedBookRepo.listRead cachedBookRepo.getCacheKeyForList
  dsimp only
  rcases hg : redisBookCache.GetList c ("books:" ++ listType) with ⟨res, c1⟩
  rw [hg] at hst hmiss
  simp only at hst hmiss
  subst hst
  match res, hmiss with
  | .ok (some l), hmiss => exact absurd rfl (hmiss l)
  | .ok none, _ => rcases fetch st with ⟨_ | _, _⟩ <;> rfl
  | .error _, _ => rcases fetch st with ⟨_ | _, _⟩ <;> rfl

/-- A list read that finds a non-nil list under its key returns it and leaves
the store alone. -/
theorem cachedBookRepo.listRead_hit {σ : Type} (fetch : σ → Except Error (Slice Book) × σ)
    (listType : String) (ttl : Duration) (st : σ) (c : Redis BookJSON) (h : c.healthy)
    {l : List Book} {t : Duration}
    (hk : c.entry ("books:" ++ listType) = some (.list (some l), t)) :
    cachedBookRepo.listRead fetch listType ttl st c
      = (.ok (some l), st, c.sent (.get ("books:" ++ listType))) := by
  unfold cachedBookRepo.listRead cachedBookRepo.getCacheKeyForList
  dsimp only
  rw [redisBookCache.GetList_present h hk]

theorem Redis.entry_sent {β : Type} (r : Redis β) (cmd : RedisCmd) (k : String) :
    (r.sent cmd).entry k = r.entry k := rfl

theorem redisBookCache.GetList_null {c : Redis BookJSON} {key : String}
    (hk : ∀ e, c.entry key = some e → e.1 = .list none) (l : List Book) :
    (redisBookCache.GetList c key).1 ≠ .ok (some l) := by
  unfold Redis.entry at hk
  unfold redisBookCache.GetList Redis.Get
  cases c.fault with
  | some msg => simp
  | none =>
    cases hl : List.lookup key c.kv with
    | none => simp
    | some e =>
      have := hk e hl
      simp [this, unmarshalBooks]

/-- After a list read that missed and got `books` from the store, which
`json.Marshal` accepts, on a healthy cache: the result, the store state and
the entry written. -/
theorem cachedBookRepo.listRead_miss_ok {σ : Type}
    (fetch : σ → Except Error (Slice Book) × σ) (listType : String) (ttl : Duration)
    (st st1 : σ) (c : Redis BookJSON) (books : Slice Book) (h : c.healthy)
    (hmiss : ∀ l, (redisBookCache.GetList c ("books:" ++ listType)).1 ≠ .ok (some l))
    (henc : ∀ b ∈ books.elems, b.Rating.finite = true ∧ b.Price.finite = true)
    (hf : fetch st = (.ok books, st1)) :
    (cachedBookRepo.listRead fetch listType ttl st c).1 = .ok books ∧
    (cachedBookRepo.listRead fetch listType ttl st c).2.1 = st1 ∧
    (cachedBookRepo.listRead fetch listType ttl st c).2.2.healthy ∧
    (cachedBookRepo.listRead fetch listType ttl st c).2.2.entry ("books:" ++ listType)
      = some (.list books, ttl) := by
  rw [cachedBookRepo.listRead_miss fetch listType ttl st c hmiss, hf]
  have hs : (c.sent (.get ("books:" ++ listType))).healthy := Redis.healthy_sent h _
  simp only [redisBookCache.SetList_encodable _ _ _ _ henc]
  refine ⟨trivial, trivial, ?_, ?_⟩
  · exact Redis.healthy_Set hs _ _ _
  · exact Redis.entry_Set _ _ _ _ (Redis.fault_of_healthy hs)

/-- A list read whose lookup misses returns what the store call returns. -/
theorem cachedBookRepo.listRead_miss_fetch {σ : Type}
    (fetch : σ → Except Error (Slice Book) × σ) (listType : String) (ttl : Duration)
    (st : σ) (c : Redis BookJSON)
    (hmiss : ∀ l, (redisBookCache.GetList c ("books:" ++ listType)).1 ≠ .ok (some l)) :
    (cachedBookRepo.listRead fetch listType ttl st c).1 = (fetch st).1 ∧
    (cachedBookRepo.listRead fetch listType ttl st c).2.1 = (fetch st).2 := by
  rw [cachedBookRepo.listRead_miss fetch listType ttl st c hmiss]
  rcases fetch st with ⟨_ | _, _⟩ <;> exact ⟨rfl, rfl⟩

theorem cachedBookRepo.listRead_missPopulates {σ : Type}
    (fetch : σ → Except Error (Slice Book) × σ) (listType : String) (ttl : Duration) :
    MissPopulates (cachedBookRepo.listRead fetch listType ttl) fetch ("books:" ++ listType) := by
  intro st st1 c L h hmiss henc hf
  obtain ⟨h1, h2, h3, h4⟩ :=
    cachedBookRepo.listRead_miss_ok fetch listType ttl st st1 c (some L) h hmiss henc hf
  refine ⟨h1, h2, ?_⟩
  exact cachedBookRepo.listRead_hit fetch listType ttl st1 _ h3 h4

theorem cachedBookRepo.listRead_nilRefetches {σ : Type}
    (fetch : σ → Except Error (Slice Book) × σ) (listType : String) (ttl : Duration) :
    NilRefetches (cachedBookRepo.listRead fetch listType ttl) fetch ("books:" ++ listType)
      ttl := by
  intro st st1 c h hmiss hf
  obtain ⟨h1, h2, _, h4⟩ :=
    cachedBookRepo.listRead_miss_ok fetch listType ttl st st1 c none h hmiss
      (by intro b hb; cases hb) hf
  refine ⟨h1, h2, h4, ?_⟩
  apply cachedBookRepo.listRead_miss_fetch
  apply redisBookCache.GetList_null
  intro e he
  rw [h4] at he
  cases he
  rfl

/-! ## C7: a miss populates the cache -/

/-- C7 (counterexample): on an empty store and an empty healthy cache,
`ListAll` misses, obtains the empty (nil) list and stores it (`null`) under
`books:all`; the `ListAll` that follows is not served from the cache: it
queries the store a second time. -/
theorem C7_empty_list_is_fetched_again :
    let repo := mongoBookRepo noTextMatch
    let r1 := cachedBookRepo.ListAll repo emptyBookStore Redis.empty
    let r2 := cachedBookRepo.ListAll repo r1.2.1 r1.2.2
    r1.1 = .ok none ∧
    r1.2.1.calls = 1 ∧
    r1.2.2.entry "books:all" = some (.list none, 5 * Minute) ∧
    r2.1 = .ok none ∧
    r2.2.1.calls = 2 := by
  decide

/-- C7 (amended): for each of the seven cached list reads of `cachedBookRepo`
and every repository implementation: after a read that misses the cache and
obtains a non-nil list `L` from the store (cache commands succeeding), the
read that follows with the same argument returns `L` from the cache and does
not query the store (`MissPopulates`); when the store returns the nil slice,
which is what the Mongo repository returns for an empty result, `null` is
stored and the read that follows queries the store again (`NilRefetches`). -/
theorem C7_miss_populates_non_nil_lists {σ : Type} (repo : BookRepository σ) :
    (MissPopulates (cachedBookRepo.ListAll repo) repo.ListAll "books:all" ∧
     NilRefetches (cachedBookRepo.ListAll repo) repo.ListAll "books:all" (5 * Minute)) ∧
    (∀ g, MissPopulates (fun st c => cachedBookRepo.ListByGenre repo st c g)
            (fun st => repo.ListByGenre st g) ("books:" ++ ("genre:" ++ g)) ∧
          NilRefetches (fun st c => cachedBookRepo.ListByGenre repo st c g)
            (fun st => repo.ListByGenre st g) ("books:" ++ ("genre:" ++ g)) (10 * Minute)) ∧
    (∀ a, MissPopulates (fun st c => cachedBookRepo.ListByAuthor repo st c a)
            (fun st => repo.ListByAuthor st a) ("books:" ++ ("author:" ++ a)) ∧
          NilRefetches (fun st c => cachedBookRepo.ListByAuthor repo st c a)
            (fun st => repo.ListByAuthor st a) ("books:" ++ ("author:" ++ a)) (10 * Minute)) ∧
    (∀ l, MissPopulates (fun st c => cachedBookRepo.ListByLanguage repo st c l)
            (fun st => repo.ListByLanguage st l) ("books:" ++ ("language:" ++ l)) ∧
          NilRefetches (fun st c => cachedBookRepo.ListByLanguage repo st c l)
            (fun st => repo.ListByLanguage st l) ("books:" ++ ("language:" ++ l))
            (10 * Minute)) ∧
    (MissPopulates (cachedBookRepo.ListTopRated repo) repo.ListTopRated "books:top_rated" ∧
     NilRefetches (cachedBookRepo.ListTopRated repo) repo.ListTopRated "books:top_rated"
       (15 * Minute)) ∧
    (MissPopulates (cachedBookRepo.ListNewArrivals repo) repo.ListNewArrivals
       "books:new_arrivals" ∧
     NilRefetches (cachedBookRepo.ListNewArrivals repo) repo.ListNewArrivals
       "books:new_arrivals" (30 * Minute)) ∧
    (∀ b, MissPopulates (fun st c => cachedBookRepo.RecommendBooks repo st c b)
            (fun st => repo.RecommendBooks st b) ("books:" ++ ("recommend:" ++ b)) ∧
          NilRefetches (fun st c => cachedBookRepo.RecommendBooks repo st c b)
            (fun st => repo.RecommendBooks st b) ("books:" ++ ("recommend:" ++ b))
            (30 * Minute)) := by
  refine ⟨⟨?_, ?_⟩, fun g => ⟨?_, ?_⟩, fun a => ⟨?_, ?_⟩, fun l => ⟨?_, ?_⟩, ⟨?_, ?_⟩,
    ⟨?_, ?_⟩, fun b => ⟨?_, ?_⟩⟩
  · exact cachedBookRepo.listRead_missPopulates repo.ListAll "all" (5 * Minute)
  · exact cachedBookRepo.listRead_nilRefetches repo.ListAll "all" (5 * Minute)
  · exact cachedBookRepo.listRead_missPopulates _ ("genre:" ++ g) (10 * Minute)
  · exact cachedBookRepo.listRead_nilRefetches _ ("genre:" ++ g) (10 * Minute)
  · exact cachedBookRepo.listRead_missPopulates _ ("author:" ++ a) (10 * Minute)
  · exact cachedBookRepo.listRead_nilRefetches _ ("author:" ++ a) (10 * Minute)
  · exact cachedBookRepo.listRead_missPopulates _ ("language:" ++ l) (10 * Minute)
  · exact cachedBookRepo.listRead_nilRefetches _ ("language:" ++ l) (10 * Minute)
  · exact cachedBookRepo.listRead_missPopulates repo.ListTopRated "top_rated" (15 * Minute)
  · exact cachedBookRepo.listRead_nilRefetches repo.ListTopRated "top_rated" (15 * Minute)
  · exact cachedBookRepo.listRead_missPopulates repo.ListNewArrivals "new_arrivals"
      (30 * Minute)
  · exact cachedBookRepo.listRead_nilRefetches repo.ListNewArrivals "new_arrivals"
      (30 * Minute)
  · exact cachedBookRepo.listRead_missPopulates _ ("recommend:" ++ b) (30 * Minute)
  · exact cachedBookRepo.listRead_nilRefetches _ ("recommend:" ++ b) (30 * Minute)

/-- Witness for C7 (amended): on the store that holds `sampleBook` and an
empty healthy cache, `ListByGenre "sci-fi"` misses and obtains
`[sampleBook]`; the read that follows returns it with the store state
unchanged. -/
theorem C7_miss_populates_non_nil_lists_witness :
    let repo := mongoBookRepo noTextMatch
    let r1 := cachedBookRepo.ListByGenre repo sampleBookStore Redis.empty "sci-fi"
    r1.1 = .ok (some [sampleBook]) ∧ r1.2.1 = sampleBookStore.sent ∧
    cachedBookRepo.ListByGenre repo sampleBookStore.sent r1.2.2 "sci-fi"
      = (.ok (some [sampleBook]), sampleBookStore.sent,
          r1.2.2.sent (.get ("books:" ++ ("genre:" ++ "sci-fi")))) :=
  ((C7_miss_populates_non_nil_lists (mongoBookRepo noTextMatch)).2.1 "sci-fi").1
    sampleBookStore sampleBookStore.sent Redis.empty [sampleBook] Redis.healthy_empty
    (by intro l; simp [redisBookCache.GetList, Redis.Get, Redis.fault, Redis.empty])
    (by decide) (by decide)

/-! ## The MongoDB model -/

theorem Collection.fault_none_of_healthy {α : Type} {c : Collection α} (h : c.healthy) :
    c.fault = none := by
  unfold Collection.fault
  cases hf : c.faults with
  | nil => rfl
  | cons f fs =>
    have : f = none := h f (by simp [hf])
    subst this
    rfl

theorem Collection.healthy_after_sent {α : Type} {c : Collection α} (h : c.healthy) :
    c.sent.healthy := by
  intro f hf
  exact h f (List.mem_of_mem_tail hf)

theorem Redis.entry_Set_cases {β : Type} (r : Redis β) (key : String) (val : β)
    (ttl : Duration) (k : String) (e : β × Duration)
    (h : (r.Set key val ttl).2.entry k = some e) :
    (k = key ∧ e = (val, ttl)) ∨ r.entry k = some e := by
  unfold Redis.Set at h
  cases hf : r.fault with
  | some msg =>
    rw [hf] at h
    exact Or.inr h
  | none =>
    rw [hf] at h
    by_cases hk : k = key
    · subst hk
      left
      simp [Redis.entry, List.lookup] at h
      exact ⟨rfl, h.symm⟩
    · right
      have hb : (k == key) = false := by simpa using hk
      simp only [Redis.entry, List.lookup, hb] at h
      rw [lookup_filter_ne_other hk] at h
      exact h

theorem Redis.entry_Del_imp {β : Type} (r : Redis β) (key : String) (k : String)
    (e : β × Duration) (h : (r.Del key).2.entry k = some e) : r.entry k = some e := by
  unfold Redis.Del at h
  cases hf : r.fault with
  | some msg =>
    rw [hf] at h
    exact h
  | none =>
    rw [hf] at h
    by_cases hk : k = key
    · subst hk
      have := lookup_filter_ne_self k r.kv
      simp only [Redis.entry] at h
      rw [this] at h
      cases h
    · simp only [Redis.entry] at h
      rw [lookup_filter_ne_other hk] at h
      exact h

/-- The sample documents are the documents the repositories write: the
struct goes in with the id the repository drew for it and the document gets
the id the driver draws next.  A read by the id of the struct finds
nothing; a read by the id of the document finds the struct. -/
theorem sample_documents_are_written_by_the_repositories :
    (let r := mongoOrderRepo.Create freshOrderStore Redis.empty sampleNewOrder
     r.1 = .ok sampleOrder ∧ r.2.1.docs = [sampleOrderDoc] ∧
     (mongoOrderRepo.GetByID r.2.1 Redis.empty "0000000000000000000000aa").1
       = .error .noDocuments ∧
     (mongoOrderRepo.GetByID r.2.1 Redis.empty "0000000000000000000000ab").1
       = .ok sampleOrder ∧
     (mongoOrderRepo.ListByUser r.2.1 Redis.empty "000000000000000000000001").1
       = .ok none) ∧
    (let r := mongoExchangeRepo.CreateOffer freshOfferStore sampleNewOffer
     r.1 = .ok sampleOffer ∧ r.2.docs = [sampleOfferDoc] ∧
     (mongoExchangeRepo.GetOffer r.2 "0000000000000000000000aa").1 = .error .noDocuments ∧
     (mongoExchangeRepo.GetOffer r.2 "0000000000000000000000ab").1 = .ok sampleOffer ∧
     (mongoExchangeRepo.ListOffersByUser r.2 "000000000000000000000001").1 = .ok none ∧
     (mongoExchangeRepo.ListPendingOffers r.2).1 = .ok (some [sampleOffer])) ∧
    (let r := mongoUserBookRepo.AssignBook freshUserBookStore ⟨⟨5⟩, ⟨1⟩, ⟨2⟩⟩
     r.1 = .ok sampleUserBook ∧ r.2.docs = [sampleUserBookDoc] ∧
     (mongoUserBookRepo.GetEntry r.2 "000000000000000000000006").1 = .error .noDocuments ∧
     (mongoUserBookRepo.GetEntry r.2 "000000000000000000000007").1 = .ok sampleUserBook ∧
     (mongoUserBookRepo.ListUserBooks r.2 "000000000000000000000001").1 = .ok none) := by
  decide

/-- The update operators on a field that a `nil` slice was stored in: after
`Update` with an order without books the server refuses `$push` and `$pull`,
while on the document as `Create` wrote it `$push` creates the array. -/
theorem push_and_pull_on_stored_documents :
    (let r := mongoOrderRepo.AddBook sampleOrderStore Redis.empty lowerSpelling
       "000000000000000000000009"
     r.1 = .ok sampleOrder ∧
     r.2.1.docs = [{ sampleOrderDoc with book_ids := .array [⟨9⟩], updated_at := some 200 }]) ∧
    (let r1 := mongoOrderRepo.Update sampleOrderStore Redis.empty
       { sampleOrder with ID := ⟨171⟩, BookIDs := none }
     let r2 := mongoOrderRepo.AddBook r1.2.1 r1.2.2 lowerSpelling "000000000000000000000009"
     let r3 := mongoOrderRepo.RemoveBook r1.2.1 r1.2.2 lowerSpelling "000000000000000000000009"
     r1.1 = .ok sampleOrder ∧
     r1.2.1.docs = [{ sampleOrderDoc with user_id := some ⟨1⟩, book_ids := .null,
                                          updated_at := some 200 }] ∧
     r2.1 = .error .badValue ∧ r2.2.1.docs = r1.2.1.docs ∧
     r3.1 = .error .badValue ∧ r3.2.1.docs = r1.2.1.docs) := by
  decide

/-! ## C5: which list keys a book write invalidates -/

/-- C5 (counterexample): with the list of genre `sci-fi` cached with
`[sampleBook]`, `Create` of a second `sci-fi` book succeeds, and the next
`ListByGenre "sci-fi"` returns the cached pre-write list `[sampleBook]` while
the store's current result holds both books. -/
theorem C5_genre_list_survives_create :
    let repo := mongoBookRepo noTextMatch
    let r0 := cachedBookRepo.ListByGenre repo sampleBookStore Redis.empty "sci-fi"
    let r1 := cachedBookRepo.Create repo r0.2.1 r0.2.2 newSciFiBook
    let r2 := cachedBookRepo.ListByGenre repo r1.2.1 r1.2.2 "sci-fi"
    r0.1 = .ok (some [sampleBook]) ∧
    r1.1 = .ok { newSciFiBook with ID := ⟨1000⟩ } ∧
    (repo.ListByGenre r1.2.1 "sci-fi").1
      = .ok (some [sampleBook, { newSciFiBook with ID := ⟨1000⟩ }]) ∧
    r2.1 = .ok (some [sampleBook]) ∧
    r2.2.1 = r1.2.1 := by
  decide

/-- C5 (amended): after `cachedBookRepo.Create`, `Update` or `Delete`
succeeds on a healthy cache, the next `ListAll` returns the store's current
result (what the repository's `ListAll` returns on the post-write state).
The write removes no other list key: every key other than `books:all` (and
the book's own key for `Update` and `Delete`) holds what it held before, so
the qualifier lists are not invalidated. -/
theorem C5_write_invalidates_the_all_list {σ : Type} (repo : BookRepository σ)
    (st st1 : σ) (c : Redis BookJSON) (h : c.healthy) (book res : Book) (id : String) :
    (repo.Create st book = (.ok res, st1) →
      (cachedBookRepo.Create repo st c book).1 = .ok res ∧
      (cachedBookRepo.Create repo st c book).2.1 = st1 ∧
      (cachedBookRepo.ListAll repo st1 (cachedBookRepo.Create repo st c book).2.2).1
        = (repo.ListAll st1).1 ∧
      (cachedBookRepo.ListAll repo st1 (cachedBookRepo.Create repo st c book).2.2).2.1
        = (repo.ListAll st1).2 ∧
      ∀ k, k ≠ "books:all" →
        (cachedBookRepo.Create repo st c book).2.2.entry k = c.entry k) ∧
    (repo.Update st book = (.ok res, st1) →
      (cachedBookRepo.Update repo st c book).1 = .ok res ∧
      (cachedBookRepo.Update repo st c book).2.1 = st1 ∧
      (cachedBookRepo.ListAll repo st1 (cachedBookRepo.Update repo st c book).2.2).1
        = (repo.ListAll st1).1 ∧
      (cachedBookRepo.ListAll repo st1 (cachedBookRepo.Update repo st c book).2.2).2.1
        = (repo.ListAll st1).2 ∧
      ∀ k, k ≠ "books:all" → k ≠ "book:" ++ res.ID.Hex →
        (cachedBookRepo.Update repo st c book).2.2.entry k = c.entry k) ∧
    (repo.Delete st id = (none, st1) →
      (cachedBookRepo.Delete repo st c id).1 = none ∧
      (cachedBookRepo.Delete repo st c id).2.1 = st1 ∧
      (cachedBookRepo.ListAll repo st1 (cachedBookRepo.Delete repo st c id).2.2).1
        = (repo.ListAll st1).1 ∧
      (cachedBookRepo.ListAll repo st1 (cachedBookRepo.Delete repo st c id).2.2).2.1
        = (repo.ListAll st1).2 ∧
      ∀ k, k ≠ "books:all" → k ≠ "book:" ++ id →
        (cachedBookRepo.Delete repo st c id).2.2.entry k = c.entry k) := by
  have key : ∀ c1 : Redis BookJSON, c1.healthy →
      (cachedBookRepo.ListAll repo st1 (c1.Del "books:all").2).1 = (repo.ListAll st1).1 ∧
      (cachedBookRepo.ListAll repo st1 (c1.Del "books:all").2).2.1 = (repo.ListAll st1).2 := by
    intro c1 h1
    rw [cachedBookRepo.ListAll_eq]
    apply cachedBookRepo.listRead_miss_fetch
    intro l
    have hg := redisBookCache.GetList_absent (Redis.healthy_Del h1 "books:all")
      (Redis.entry_Del_self h1 "books:all")
    show (redisBookCache.GetList (c1.Del "books:all").2 "books:all").1 ≠ _
    rw [hg]
    simp
  refine ⟨?_, ?_, ?_⟩
  · intro hw
    have e : cachedBookRepo.Create repo st c book = (.ok res, st1, (c.Del "books:all").2) := by
      simp [cachedBookRepo.Create, hw, redisBookCache.Delete, cachedBookRepo.getCacheKeyForList]
    rw [e]
    refine ⟨rfl, rfl, (key c h).1, (key c h).2, ?_⟩
    intro k hk
    exact Redis.entry_Del_other c hk
  · intro hw
    have e : cachedBookRepo.Update repo st c book
        = (.ok res, st1, ((c.Del ("book:" ++ res.ID.Hex)).2.Del "books:all").2) := by
      simp [cachedBookRepo.Update, hw, redisBookCache.Delete, cachedBookRepo.getCacheKeyForList,
        cachedBookRepo.getCacheKeyForBook]
    rw [e]
    have h1 := Redis.healthy_Del h ("book:" ++ res.ID.Hex)
    refine ⟨rfl, rfl, (key _ h1).1, (key _ h1).2, ?_⟩
    intro k hk hk2
    show (((c.Del ("book:" ++ res.ID.Hex)).2.Del "books:all").2).entry k = c.entry k
    rw [Redis.entry_Del_other _ hk, Redis.entry_Del_other _ hk2]
  · intro hw
    have e : cachedBookRepo.Delete repo st c id
        = (none, st1, ((c.Del ("book:" ++ id)).2.Del "books:all").2) := by
      simp [cachedBookRepo.Delete, hw, redisBookCache.Delete, cachedBookRepo.getCacheKeyForList,
        cachedBookRepo.getCacheKeyForBook]
    rw [e]
    have h1 := Redis.healthy_Del h ("book:" ++ id)
    refine ⟨rfl, rfl, (key _ h1).1, (key _ h1).2, ?_⟩
    intro k hk hk2
    show (((c.Del ("book:" ++ id)).2.Del "books:all").2).entry k = c.entry k
    rw [Redis.entry_Del_other _ hk, Redis.entry_Del_other _ hk2]

/-- Witness for C5 (amended): with `books:all` and the `sci-fi` list both
cached, `Create` succeeds; the next `ListAll` is the store's current result
and the `sci-fi` key still holds the pre-write list. -/
theorem C5_write_invalidates_the_all_list_witness :
    let repo := mongoBookRepo noTextMatch
    let c0 : Redis BookJSON :=
      ⟨[("books:all", .list (some [sampleBook]), 5 * Minute),
        ("books:genre:sci-fi", .list (some [sampleBook]), 10 * Minute)], [], []⟩
    let created : Book := { newSciFiBook with ID := ⟨1000⟩ }
    let w := cachedBookRepo.Create repo sampleBookStore c0 newSciFiBook
    let st1 : Collection Book := ⟨[sampleBook, created], [], 1001, 1, 0⟩
    w.1 = .ok created ∧ w.2.1 = st1 ∧
    (cachedBookRepo.ListAll repo st1 w.2.2).1 = .ok (some [sampleBook, created]) ∧
    w.2.2.entry "books:genre:sci-fi" = some (.list (some [sampleBook]), 10 * Minute) := by
  intro repo c0 created w st1
  have hc : c0.healthy := by intro f hf; cases hf
  obtain ⟨h1, h2, h3, _, h5⟩ :=
    (C5_write_invalidates_the_all_list repo sampleBookStore st1
      c0 hc newSciFiBook created lowerSpelling).1 (by decide)
  refine ⟨h1, h2, ?_, ?_⟩
  · rw [h3]; decide
  · rw [h5 "books:genre:sci-fi" (by decide)]; decide

/-! ## C6: scenario S3 -/

theorem Collection.Find_of_healthy {α : Type} {c : Collection α} (h : c.healthy)
    (filter : α → Bool) :
    c.Find filter = (.ok (Slice.collect (c.docs.filter filter)), c.sent) := by
  simp [Collection.Find, Collection.fault_none_of_healthy h]

theorem mongoBookRepo.Create_fresh (st : Collection Book) (book : Book) (h : st.healthy)
    (hID : book.ID = NilObjectID)
    (hfresh : ∀ b ∈ st.docs, b.ID ≠ ⟨st.nextOID % 2 ^ 96⟩) :
    mongoBookRepo.Create st book
      = (.ok { book with ID := ⟨st.nextOID % 2 ^ 96⟩ },
          { st with docs := st.docs ++ [{ book with ID := ⟨st.nextOID % 2 ^ 96⟩ }],
                    faults := st.faults.tail, nextOID := st.nextOID + 1,
                    calls := st.calls + 1 }) := by
  have hf : (st.NewObjectID).2.fault = none := by
    apply Collection.fault_none_of_healthy
    exact h
  have hany :
      (st.docs.any fun d => decide (d.ID = (⟨st.nextOID % 2 ^ 96⟩ : ObjectID))) = false := by
    rw [List.any_eq_false]
    intro b hb
    simpa using hfresh b hb
  unfold mongoBookRepo.Create
  simp only [hID, if_true]
  unfold Collection.InsertOne
  rw [hf]
  simp only [Collection.NewObjectID, hany]
  rfl

theorem mongoBookRepo.Create_fresh_ex (st : Collection Book) (book : Book) (h : st.healthy)
    (hID : book.ID = NilObjectID)
    (hfresh : ∀ b ∈ st.docs, b.ID ≠ ⟨st.nextOID % 2 ^ 96⟩) :
    ∃ st2 : Collection Book,
      mongoBookRepo.Create st book = (.ok { book with ID := ⟨st.nextOID % 2 ^ 96⟩ }, st2) ∧
      st2.healthy ∧ st2.docs = st.docs ++ [{ book with ID := ⟨st.nextOID % 2 ^ 96⟩ }] := by
  refine ⟨_, mongoBookRepo.Create_fresh st book h hID hfresh, ?_, rfl⟩
  intro f hf
  exact h f (List.mem_of_mem_tail hf)

/-- C6: scenario S3.  From an empty cache (whatever its fault schedule) and a
healthy store without a book of genre `sci-fi` whose id generator is fresh,
`ListByGenre "sci-fi"` returns the empty (nil) list, `Create` of a book with
title `X` and genre `sci-fi` and no id succeeds, and the second
`ListByGenre "sci-fi"` returns a list that contains the created book. -/
theorem C6_scenario_S3_genre_list_after_create (textMatch : String → Book → Bool)
    (st : Collection Book) (faults : List (Option String)) (book : Book)
    (hst : st.healthy)
    (hnone : ∀ b ∈ st.docs, b.Genre ≠ "sci-fi")
    (hfresh : ∀ b ∈ st.docs, b.ID ≠ ⟨st.nextOID % 2 ^ 96⟩)
    (hID : book.ID = NilObjectID) (hT : book.Title = "X") (hG : book.Genre = "sci-fi") :
    ∃ st1 c1 created st2 c2 l st3 c3,
      cachedBookRepo.ListByGenre (mongoBookRepo textMatch) st ⟨[], faults, []⟩ "sci-fi"
        = (.ok none, st1, c1) ∧
      cachedBookRepo.Create (mongoBookRepo textMatch) st1 c1 book = (.ok created, st2, c2) ∧
      created.Title = "X" ∧ created.Genre = "sci-fi" ∧
      cachedBookRepo.ListByGenre (mongoBookRepo textMatch) st2 c2 "sci-fi"
        = (.ok (some l), st3, c3) ∧
      created ∈ l := by
  -- first read: a miss, and the store has no such book
  have hfilter : st.docs.filter (fun b => decide (b.Genre = "sci-fi")) = [] := by
    rw [List.filter_eq_nil_iff]
    intro b hb
    simpa using hnone b hb
  have hfetch : (mongoBookRepo textMatch).ListByGenre st "sci-fi" = (.ok none, st.sent) := by
    show mongoBookRepo.ListByGenre st "sci-fi" = _
    unfold mongoBookRepo.ListByGenre mongoBookRepo.findByFilter
    rw [Collection.Find_of_healthy hst, hfilter]
    rfl
  have hmiss0 : ∀ l, (redisBookCache.GetList (⟨[], faults, []⟩ : Redis BookJSON)
      ("books:" ++ ("genre:" ++ "sci-fi"))).1 ≠ .ok (some l) := by
    apply redisBookCache.GetList_null
    intro e he
    cases he
  have hr1 := cachedBookRepo.listRead_miss
    (fun s => (mongoBookRepo textMatch).ListByGenre s "sci-fi")
    ("genre:" ++ "sci-fi") (10 * Minute) st ⟨[], faults, []⟩ hmiss0
  simp only [hfetch] at hr1
  rw [← cachedBookRepo.ListByGenre_eq] at hr1
  -- the only entry the genre key can now hold is JSON null
  obtain ⟨c1, hc1⟩ : ∃ c1, c1 = (redisBookCache.SetList
      ((⟨[], faults, []⟩ : Redis BookJSON).sent (.get ("books:" ++ ("genre:" ++ "sci-fi"))))
      ("books:" ++ ("genre:" ++ "sci-fi")) none (10 * Minute)).2 := ⟨_, rfl⟩
  rw [← hc1] at hr1
  have hnull1 : ∀ e, c1.entry ("books:" ++ ("genre:" ++ "sci-fi")) = some e →
      e.1 = .list none := by
    intro e he
    rw [hc1] at he
    rcases Redis.entry_Set_cases _ _ _ _ _ _ he with ⟨_, h2⟩ | h2
    · rw [h2]
    · cases h2
  -- the write: the generated id is fresh, so the insert succeeds
  have hst1 : st.sent.healthy := Collection.healthy_after_sent hst
  obtain ⟨st2, hcreate, hst2, hdocs2⟩ :=
    mongoBookRepo.Create_fresh_ex st.sent book hst1 hID hfresh
  have hw : cachedBookRepo.Create (mongoBookRepo textMatch) st.sent c1 book
      = (.ok { book with ID := ⟨st.nextOID % 2 ^ 96⟩ }, st2, (c1.Del "books:all").2) := by
    have hc : (mongoBookRepo textMatch).Create st.sent book = _ := hcreate
    simp only [cachedBookRepo.Create, hc, redisBookCache.Delete,
      cachedBookRepo.getCacheKeyForList]
    rfl
  -- second read: the genre key holds nothing or null, so the store answers
  have hmiss2 : ∀ l, (redisBookCache.GetList (c1.Del "books:all").2
      ("books:" ++ ("genre:" ++ "sci-fi"))).1 ≠ .ok (some l) := by
    apply redisBookCache.GetList_null
    intro e he
    exact hnull1 e (Redis.entry_Del_imp _ _ _ _ he)
  have hfetch2 : (mongoBookRepo textMatch).ListByGenre st2 "sci-fi"
      = (.ok (some [{ book with ID := ⟨st.nextOID % 2 ^ 96⟩ }]), st2.sent) := by
    show mongoBookRepo.ListByGenre st2 "sci-fi" = _
    unfold mongoBookRepo.ListByGenre mongoBookRepo.findByFilter
    rw [Collection.Find_of_healthy hst2, hdocs2, List.filter_append]
    have h0 : st.sent.docs.filter (fun b => decide (b.Genre = "sci-fi")) = [] := hfilter
    rw [h0]
    simp [List.filter_cons, hG, Slice.collect]
    rfl
  have hr3 := cachedBookRepo.listRead_miss
    (fun s => (mongoBookRepo textMatch).ListByGenre s "sci-fi")
    ("genre:" ++ "sci-fi") (10 * Minute) st2 _ hmiss2
  simp only [hfetch2] at hr3
  rw [← cachedBookRepo.ListByGenre_eq] at hr3
  exact ⟨_, _, _, _, _, _, _, _, hr1, hw, hT, hG, hr3, List.mem_singleton.mpr rfl⟩

/-- Witness for C6: the scenario on a store that holds one fantasy book. -/
theorem C6_scenario_S3_genre_list_after_create_witness :
    ∃ st1 c1 created st2 c2 l st3 c3,
      cachedBookRepo.ListByGenre (mongoBookRepo noTextMatch) fantasyBookStore ⟨[], [], []⟩
        "sci-fi" = (.ok none, st1, c1) ∧
      cachedBookRepo.Create (mongoBookRepo noTextMatch) st1 c1 newSciFiBook
        = (.ok created, st2, c2) ∧
      created.Title = "X" ∧ created.Genre = "sci-fi" ∧
      cachedBookRepo.ListByGenre (mongoBookRepo noTextMatch) st2 c2 "sci-fi"
        = (.ok (some l), st3, c3) ∧
      created ∈ l :=
  C6_scenario_S3_genre_list_after_create noTextMatch fantasyBookStore [] newSciFiBook
    (by intro f hf; cases hf) (by decide) (by decide) rfl rfl rfl

/-! ## C8: what a failed cache lookup does to a read -/

/-- C8 (counterexample): the store holds the order and is healthy, the cache
lookup fails with a timeout; `mongoOrderRepo.GetByID` returns the (wrapped)
cache error and does not query the store. -/
theorem C8_order_read_surfaces_cache_error :
    mongoOrderRepo.GetByID sampleOrderStore timeoutCache lowerSpelling
      = (.error (.wrapped "redis get error" (.network "i/o timeout")), sampleOrderStore,
          timeoutCache.sent (.get "order:0000000000000000000000ab")) ∧
    (decodeOne OrderDoc.fields (sampleOrderStore.FindOne (fun d => d._id = ⟨171⟩))).1
      = .ok sampleOrder := by
  decide

/-- C8 (amended): an absent key is never surfaced: `mongoOrderRepo.GetByID`
and `ListByUser`, `RedisExchangeCache.ListByUser` and `ListPending` and
`RedisUserLibraryCache.Get` then return what the store read returns.  The
exchange and user-library caches also fall back to the store when the cached
bytes do not decode, but return the cache error, with the store untouched,
when the lookup fails with an I/O error.  The order repository returns the
wrapped cache error, with the store untouched, both on an I/O error and on
bytes that do not decode. -/
theorem C8_cache_lookup_failures {σ τ : Type} (offers : ExchangeRepository σ)
    (lib : UserBookRepo τ) (ttl : Duration) (ost : Collection OrderDoc)
    (oc : Redis OrderJSON)
    (xst : σ) (xc : Redis OffersJSON) (lst : τ) (lc : Redis UserBooksJSON)
    (id userID : String) :
    -- order by id
    ((∀ msg, oc.fault = some msg →
        mongoOrderRepo.GetByID ost oc id
          = (.error (.wrapped "redis get error" (.network msg)), ost,
              oc.sent (.get ("order:" ++ id)))) ∧
     (∀ v t e, oc.fault = none → oc.entry ("order:" ++ id) = some (v, t) →
        unmarshalOrder v = .error e →
        mongoOrderRepo.GetByID ost oc id
          = (.error (.wrapped "json unmarshal error" e), ost,
              oc.sent (.get ("order:" ++ id)))) ∧
     (oc.fault = none → oc.entry ("order:" ++ id) = none →
        (mongoOrderRepo.GetByID ost oc id).1
          = (match ObjectIDFromHex id with
             | .error e => .error e
             | .ok objID =>
               (decodeOne OrderDoc.fields (ost.FindOne (fun d => d._id = objID))).1))) ∧
    -- orders of a user
    ((∀ msg, oc.fault = some msg →
        mongoOrderRepo.ListByUser ost oc userID
          = (.error (.wrapped "redis get error" (.network msg)), ost,
              oc.sent (.get ("user_orders:" ++ userID)))) ∧
     (∀ v t e, oc.fault = none → oc.entry ("user_orders:" ++ userID) = some (v, t) →
        unmarshalOrders v = .error e →
        mongoOrderRepo.ListByUser ost oc userID
          = (.error (.wrapped "json unmarshal error" e), ost,
              oc.sent (.get ("user_orders:" ++ userID)))) ∧
     (oc.fault = none → oc.entry ("user_orders:" ++ userID) = none →
        (mongoOrderRepo.ListByUser ost oc userID).1
          = (match ObjectIDFromHex userID with
             | .error e => .error e
             | .ok uid =>
               (decodeAll OrderDoc.fields (ost.Find (fun d => d.user_id = some uid))).1))) ∧
    -- offers of a user
    ((∀ msg, xc.fault = some msg →
        RedisExchangeCache.ListByUser offers ttl xst xc userID
          = (.error (.network msg), xst,
              xc.sent (.get ("exchange:offers:user:" ++ userID)))) ∧
     (xc.fault = none →
        (xc.entry ("exchange:offers:user:" ++ userID) = none ∨
          ∃ raw t, xc.entry ("exchange:offers:user:" ++ userID) = some (.invalid raw, t)) →
        (RedisExchangeCache.ListByUser offers ttl xst xc userID).1
          = (offers.ListOffersByUser xst userID).1 ∧
        (RedisExchangeCache.ListByUser offers ttl xst xc userID).2.1
          = (offers.ListOffersByUser xst userID).2)) ∧
    -- pending offers
    ((∀ msg, xc.fault = some msg →
        RedisExchangeCache.ListPending offers ttl xst xc
          = (.error (.network msg), xst, xc.sent (.get "exchange:offers:pending"))) ∧
     (xc.fault = none →
        (xc.entry "exchange:offers:pending" = none ∨
          ∃ raw t, xc.entry "exchange:offers:pending" = some (.invalid raw, t)) →
        (RedisExchangeCache.ListPending offers ttl xst xc).1
          = (offers.ListPendingOffers xst).1 ∧
        (RedisExchangeCache.ListPending offers ttl xst xc).2.1
          = (offers.ListPendingOffers xst).2)) ∧
    -- library of a user
    ((∀ msg, lc.fault = some msg →
        RedisUserLibraryCache.Get lib ttl lst lc userID
          = (.error (.network msg), lst, lc.sent (.get ("user_books:" ++ userID)))) ∧
     (lc.fault = none →
        (lc.entry ("user_books:" ++ userID) = none ∨
          ∃ raw t, lc.entry ("user_books:" ++ userID) = some (.invalid raw, t)) →
        (RedisUserLibraryCache.Get lib ttl lst lc userID).1
          = (lib.ListUserBooks lst userID).1 ∧
        (RedisUserLibraryCache.Get lib ttl lst lc userID).2.1
          = (lib.ListUserBooks lst userID).2)) := by
  refine ⟨⟨?_, ?_, ?_⟩, ⟨?_, ?_, ?_⟩, ⟨?_, ?_⟩, ⟨?_, ?_⟩, ⟨?_, ?_⟩⟩
  · intro msg h
    simp [mongoOrderRepo.GetByID, orderCache.Get, orderCache.orderKey, Redis.Get, h]
  · intro v t e h hk hv
    unfold Redis.entry at hk
    simp [mongoOrderRepo.GetByID, orderCache.Get, orderCache.orderKey, Redis.Get, h, hk, hv]
  · intro h hk
    unfold Redis.entry at hk
    simp only [mongoOrderRepo.GetByID, orderCache.Get, orderCache.orderKey, Redis.Get, h, hk,
      if_true]
    cases ObjectIDFromHex id with
    | error e => rfl
    | ok objID =>
      simp only []
      rcases decodeOne OrderDoc.fields (ost.FindOne (fun d => decide (d._id = objID)))
        with ⟨_ | _, _⟩ <;> rfl
  · intro msg h
    simp [mongoOrderRepo.ListByUser, orderCache.GetByUser, orderCache.userOrdersKey,
      Redis.Get, h]
  · intro v t e h hk hv
    unfold Redis.entry at hk
    simp [mongoOrderRepo.ListByUser, orderCache.GetByUser, orderCache.userOrdersKey,
      Redis.Get, h, hk, hv]
  · intro h hk
    unfold Redis.entry at hk
    simp only [mongoOrderRepo.ListByUser, orderCache.GetByUser, orderCache.userOrdersKey,
      Redis.Get, h, hk, if_true]
    cases ObjectIDFromHex userID with
    | error e => rfl
    | ok uid =>
      simp only []
      rcases decodeAll OrderDoc.fields (ost.Find (fun d => decide (d.user_id = some uid)))
        with ⟨_ | _, _⟩ <;> rfl
  · intro msg h
    simp [RedisExchangeCache.ListByUser, Redis.Get, h]
  · intro h hk
    unfold Redis.entry at hk
    rcases hk with hk | ⟨raw, t, hk⟩
    · simp only [RedisExchangeCache.ListByUser, Redis.Get, h, hk]
      rcases offers.ListOffersByUser xst userID with ⟨_ | _, _⟩ <;> simp
    · simp only [RedisExchangeCache.ListByUser, Redis.Get, h, hk, unmarshalOffers]
      rcases offers.ListOffersByUser xst userID with ⟨_ | _, _⟩ <;> simp
  · intro msg h
    simp [RedisExchangeCache.ListPending, Redis.Get, h]
  · intro h hk
    unfold Redis.entry at hk
    rcases hk with hk | ⟨raw, t, hk⟩
    · simp only [RedisExchangeCache.ListPending, Redis.Get, h, hk]
      rcases offers.ListPendingOffers xst with ⟨_ | _, _⟩ <;> simp
    · simp only [RedisExchangeCache.ListPending, Redis.Get, h, hk, unmarshalOffers]
      rcases offers.ListPendingOffers xst with ⟨_ | _, _⟩ <;> simp
  · intro msg h
    simp [RedisUserLibraryCache.Get, Redis.Get, h]
  · intro h hk
    unfold Redis.entry at hk
    rcases hk with hk | ⟨raw, t, hk⟩
    · simp only [RedisUserLibraryCache.Get, Redis.Get, h, hk]
      rcases lib.ListUserBooks lst userID with ⟨_ | _, _⟩ <;> simp
    · simp only [RedisUserLibraryCache.Get, Redis.Get, h, hk, unmarshalUserBooks]
      rcases lib.ListUserBooks lst userID with ⟨_ | _, _⟩ <;> simp

/-- Witness for C8 (amended): a timeout of the cache is returned by the order
read, and bytes that do not decode send the exchange read to the store. -/
theorem C8_cache_lookup_failures_witness :
    mongoOrderRepo.GetByID sampleOrderStore timeoutCache lowerSpelling
      = (.error (.wrapped "redis get error" (.network "i/o timeout")), sampleOrderStore,
          timeoutCache.sent (.get ("order:" ++ lowerSpelling))) ∧
    (RedisExchangeCache.ListByUser mongoExchangeRepo exchangeCacheTTL sampleOfferStore
        garbledOffersCache "000000000000000000000001").1
      = (mongoExchangeRepo.ListOffersByUser sampleOfferStore "000000000000000000000001").1 :=
  ⟨(C8_cache_lookup_failures mongoExchangeRepo mongoUserBookRepo exchangeCacheTTL
      sampleOrderStore timeoutCache sampleOfferStore garbledOffersCache sampleUserBookStore
      Redis.empty lowerSpelling "000000000000000000000001").1.1 "i/o timeout" (by decide),
   ((C8_cache_lookup_failures mongoExchangeRepo mongoUserBookRepo exchangeCacheTTL
      sampleOrderStore timeoutCache sampleOfferStore garbledOffersCache sampleUserBookStore
      Redis.empty lowerSpelling "000000000000000000000001").2.2.1.2 (by decide)
      (Or.inr ⟨"\x7b", 5 * Minute, by decide⟩)).1⟩

/-! ## C9: the TTL of each population -/

theorem cachedBookRepo.listRead_populatesWithTTL {σ : Type}
    (fetch : σ → Except Error (Slice Book) × σ) (listType : String) (ttl : Duration) :
    PopulatesWithTTL (cachedBookRepo.listRead fetch listType ttl) fetch ("books:" ++ listType)
      ttl := by
  intro st st1 c books h hmiss hf
  refine ⟨fun henc =>
    (cachedBookRepo.listRead_miss_ok fetch listType ttl st st1 c books h hmiss henc hf).2.2.2,
    fun henc => ?_⟩
  rw [cachedBookRepo.listRead_miss fetch listType ttl st c hmiss, hf]
  simp only [redisBookCache.SetList_refused _ _ _ _ henc]
  rfl

/-- C9 (counterexample): the entry that `cachedBookRepo.GetByID` writes for a
book has a TTL of 10 minutes, not 15. -/
theorem C9_book_entry_has_ten_minutes :
    (cachedBookRepo.GetByID (mongoBookRepo noTextMatch) sampleBookStore Redis.empty
        lowerSpelling).2.2.entry ("book:" ++ lowerSpelling)
      = some (.book sampleBook, 10 * Minute) ∧
    10 * Minute ≠ 15 * Minute := by
  decide

/-- C9 (amended): on a healthy cache, a population uses 5 minutes for the
all-books list and the pending-offers list, 10 minutes for the
by-genre/by-author/by-language lists, 15 minutes for top-rated, 30 minutes
for new-arrivals and recommendations, 15 minutes for an order by id and a
user by id, and 10 minutes for a book by id.  A book or book list that
`json.Marshal` refuses (a rating or price that is not finite) is not written,
with no TTL at all: the cache table stays as it was. -/
theorem C9_population_ttls {σ τ : Type} (books : BookRepository σ)
    (offers : ExchangeRepository τ) :
    PopulatesWithTTL (cachedBookRepo.ListAll books) books.ListAll "books:all" (5 * Minute) ∧
    (∀ g, PopulatesWithTTL (fun st c => cachedBookRepo.ListByGenre books st c g)
      (fun st => books.ListByGenre st g) ("books:" ++ ("genre:" ++ g)) (10 * Minute)) ∧
    (∀ a, PopulatesWithTTL (fun st c => cachedBookRepo.ListByAuthor books st c a)
      (fun st => books.ListByAuthor st a) ("books:" ++ ("author:" ++ a)) (10 * Minute)) ∧
    (∀ l, PopulatesWithTTL (fun st c => cachedBookRepo.ListByLanguage books st c l)
      (fun st => books.ListByLanguage st l) ("books:" ++ ("language:" ++ l)) (10 * Minute)) ∧
    PopulatesWithTTL (cachedBookRepo.ListTopRated books) books.ListTopRated "books:top_rated"
      (15 * Minute) ∧
    PopulatesWithTTL (cachedBookRepo.ListNewArrivals books) books.ListNewArrivals
      "books:new_arrivals" (30 * Minute) ∧
    (∀ b, PopulatesWithTTL (fun st c => cachedBookRepo.RecommendBooks books st c b)
      (fun st => books.RecommendBooks st b) ("books:" ++ ("recommend:" ++ b)) (30 * Minute)) ∧
    (∀ (st st1 : τ) (c : Redis OffersJSON) (l : Slice ExchangeOffer),
      c.healthy → c.entry "exchange:offers:pending" = none →
      offers.ListPendingOffers st = (.ok l, st1) →
      (RedisExchangeCache.ListPending offers exchangeCacheTTL st c).2.2.entry
        "exchange:offers:pending" = some (.list l, 5 * Minute)) ∧
    (∀ (st st1 : σ) (c : Redis BookJSON) (id : String) (book : Book),
      c.healthy → c.entry ("book:" ++ id) = none →
      books.GetByID st id = (.ok book, st1) →
      (book.Rating.finite = true ∧ book.Price.finite = true →
        (cachedBookRepo.GetByID books st c id).2.2.entry ("book:" ++ id)
          = some (.book book, 10 * Minute)) ∧
      (¬ (book.Rating.finite = true ∧ book.Price.finite = true) →
        (cachedBookRepo.GetByID books st c id).2.2.kv = c.kv)) ∧
    (∀ (st st1 : Collection OrderDoc) (c : Redis OrderJSON) (id : String) (oid : ObjectID)
        (d : OrderDoc),
      c.healthy → c.entry ("order:" ++ id) = none →
      ObjectIDFromHex id = .ok oid →
      st.FindOne (fun d => d._id = oid) = (.ok d, st1) →
      (mongoOrderRepo.GetByID st c id).2.2.entry ("order:" ++ d.fields.ID.Hex)
        = some (.order d.fields, 15 * Minute)) ∧
    (∀ (st st1 : Collection User) (c : Redis UserJSON) (id : String) (oid : ObjectID)
        (u : User),
      c.healthy → c.entry ("user:" ++ id) = none →
      ObjectIDFromHex id = .ok oid →
      st.FindOne (fun d => d.ID = oid) = (.ok u, st1) →
      (mongoUserRepo.GetByID st c id).2.2.entry ("user:" ++ u.ID.Hex)
        = some (.user u, 15 * Minute)) := by
  refine ⟨?_, fun g => ?_, fun a => ?_, fun l => ?_, ?_, ?_, fun b => ?_, ?_, ?_, ?_, ?_⟩
  · exact cachedBookRepo.listRead_populatesWithTTL books.ListAll "all" (5 * Minute)
  · exact cachedBookRepo.listRead_populatesWithTTL _ ("genre:" ++ g) (10 * Minute)
  · exact cachedBookRepo.listRead_populatesWithTTL _ ("author:" ++ a) (10 * Minute)
  · exact cachedBookRepo.listRead_populatesWithTTL _ ("language:" ++ l) (10 * Minute)
  · exact cachedBookRepo.listRead_populatesWithTTL books.ListTopRated "top_rated" (15 * Minute)
  · exact cachedBookRepo.listRead_populatesWithTTL books.ListNewArrivals "new_arrivals"
      (30 * Minute)
  · exact cachedBookRepo.listRead_populatesWithTTL _ ("recommend:" ++ b) (30 * Minute)
  · intro st st1 c l h hk hf
    have hfa := Redis.fault_of_healthy h
    have hs := Redis.fault_of_healthy (Redis.healthy_sent h (.get "exchange:offers:pending"))
    unfold Redis.entry at hk
    simp only [RedisExchangeCache.ListPending, Redis.Get, hfa, hk, hf]
    exact Redis.entry_Set _ _ _ _ hs
  · intro st st1 c id book h hk hf
    have hfa := Redis.fault_of_healthy h
    have hs := Redis.fault_of_healthy (Redis.healthy_sent h (.get ("book:" ++ id)))
    unfold Redis.entry at hk
    simp only [cachedBookRepo.GetByID, cachedBookRepo.getCacheKeyForBook, redisBookCache.Get,
      Redis.Get, hfa, hk, hf]
    refine ⟨fun henc => ?_, fun henc => ?_⟩
    · rw [redisBookCache.Set_encodable _ _ _ _ henc]
      exact Redis.entry_Set _ _ _ _ hs
    · rw [redisBookCache.Set_refused _ _ _ _ henc]
      rfl
  · intro st st1 c id oid d h hk hid hf
    have hfa := Redis.fault_of_healthy h
    have hs := Redis.fault_of_healthy (Redis.healthy_sent h (.get ("order:" ++ id)))
    unfold Redis.entry at hk
    simp only [mongoOrderRepo.GetByID, orderCache.Get, orderCache.orderKey, Redis.Get, hfa, hk,
      hid, hf, if_true, orderCache.Set, decodeOne]
    rw [Redis.Set_of_fault_none _ _ _ _ hs]
    simp [Redis.entry, List.lookup, orderCacheTTL]
  · intro st st1 c id oid u h hk hid hf
    have hfa := Redis.fault_of_healthy h
    have hs := Redis.fault_of_healthy (Redis.healthy_sent h (.get ("user:" ++ id)))
    unfold Redis.entry at hk
    simp only [mongoUserRepo.GetByID, UserCache.Get, userKey, Redis.Get, hfa, hk,
      hid, hf, if_true, UserCache.Set]
    rw [Redis.Set_of_fault_none _ _ _ _ hs]
    simp [Redis.entry, List.lookup, userCacheTTL]

/-- Witness for C9 (amended): the first `ListAll` on a healthy empty cache
stores the list under `books:all` with 5 minutes, and the first `GetByID` of
a stored order stores it with 15 minutes. -/
theorem C9_population_ttls_witness :
    (cachedBookRepo.ListAll (mongoBookRepo noTextMatch) sampleBookStore
        Redis.empty).2.2.entry "books:all" = some (.list (some [sampleBook]), 5 * Minute) ∧
    (mongoOrderRepo.GetByID sampleOrderStore Redis.empty lowerSpelling).2.2.entry
        ("order:" ++ sampleOrder.ID.Hex) = some (.order sampleOrder, 15 * Minute) :=
  ⟨((C9_population_ttls (mongoBookRepo noTextMatch) mongoExchangeRepo).1
      sampleBookStore sampleBookStore.sent Redis.empty (some [sampleBook]) Redis.healthy_empty
      (by intro l; simp [redisBookCache.GetList, Redis.Get, Redis.fault, Redis.empty])
      (by decide)).1 (by decide),
   (C9_population_ttls (mongoBookRepo noTextMatch) mongoExchangeRepo).2.2.2.2.2.2.2.2.2.1
      sampleOrderStore sampleOrderStore.sent Redis.empty lowerSpelling ⟨171⟩ sampleOrderDoc
      Redis.healthy_empty (by decide) (by decide) (by decide)⟩

/-! ## C10: status transitions of offers -/

theorem find_updateFirst {α : Type} (filter : α → Bool) (update : α → α) (l : List α)
    (d : α)
    (h : l.find? filter = some d) (hu : filter (update d) = true) :
    (updateFirst filter update l).find? filter = some (update d) := by
  induction l with
  | nil => cases h
  | cons x xs ih =>
    unfold updateFirst
    by_cases hx : filter x = true
    · have hd : x = d := by simpa [List.find?, hx] using h
      subst hd
      simp [hx, List.find?, hu]
    · have hx2 : filter x = false := by simpa using hx
      have h2 : xs.find? filter = some d := by simpa [List.find?, hx2] using h
      simp [hx2, List.find?, ih h2]

theorem mongoExchangeRepo.updateStatus_found (st : Collection OfferDoc)
    (id status : String) (oid : ObjectID) (d : OfferDoc) (hst : st.healthy)
    (hid : ObjectIDFromHex id = .ok oid)
    (hfind : st.docs.find? (fun d => d._id = oid) = some d) :
    (mongoExchangeRepo.updateStatus st id status).1
      = .ok { d.fields with Status := status } ∧
    (mongoExchangeRepo.updateStatus st id status).2.docs.find? (fun d => d._id = oid)
      = some { d with fields := { d.fields with Status := status },
                      updated_at := some st.clock } := by
  have hoid : d._id = oid := by
    have := List.find?_some hfind
    simpa using this
  simp only [mongoExchangeRepo.updateStatus, hid, Collection.FindOneAndUpdate,
    Collection.fault_none_of_healthy hst, hfind, decodeOne]
  refine ⟨trivial, ?_⟩
  exact find_updateFirst _ _ _ _ hfind (by simpa using hoid)

/-- C10 (counterexample): scenario S4 through the handlers.  An offer is
created; the store keeps it in a document whose `_id` is `...ab`.  The offer
is declined under that id, and the stored status is `DECLINED`.  The accept
attempt that follows is not rejected: it returns the offer with status
`ACCEPTED` and the stored status becomes `ACCEPTED`. -/
theorem C10_accept_after_decline_succeeds :
    let fmt : DateTime → String := fun _ => ""
    let r1 := ExchangeHandler.CreateOffer mongoExchangeRepo fmt 100 freshOfferStore Redis.empty
      ⟨[], []⟩ (some sampleCreateOffer)
    let r2 := ExchangeHandler.DeclineOffer mongoExchangeRepo fmt { r1.2.1 with clock := 150 }
      r1.2.2.1 r1.2.2.2 (some ⟨"0000000000000000000000ab"⟩)
    let r3 := ExchangeHandler.AcceptOffer mongoExchangeRepo fmt { r2.2.1 with clock := 200 }
      r2.2.2.1 r2.2.2.2 (some ⟨"0000000000000000000000ab", "000000000000000000000002"⟩)
    r1.1.toOption.map (fun pb => pb.Status) = some "PENDING" ∧
    r1.2.1.docs = [sampleOfferDoc] ∧
    r2.1.toOption.map (fun pb => pb.Status) = some "DECLINED" ∧
    r2.2.1.docs = [declinedOfferDoc] ∧
    r3.1.toOption.map (fun pb => pb.Status) = some "ACCEPTED" ∧
    r3.2.1.docs.map (fun d => d.fields.Status) = ["ACCEPTED"] := by
  decide

/-- C10 (amended): the status transitions of offers are not guarded.  For
every stored offer document, whatever its status (`DECLINED` and `ACCEPTED`
included), with the store reachable `AcceptOffer` and `DeclineOffer` called
with the id of the document succeed, return the offer with status `ACCEPTED`
and `DECLINED` respectively and set the stored status to it.
`ExchangeHandler.AcceptOffer` and `DeclineOffer` publish nothing on any path,
so no `exchange.accepted` event is published. -/
theorem C10_offer_transitions_are_unguarded (st : Collection OfferDoc)
    (c : Redis OffersJSON) (nc : Nats) (fmtTime : DateTime → String)
    (id requesterID : String) (oid : ObjectID) (d : OfferDoc)
    (hst : st.healthy) (hid : ObjectIDFromHex id = .ok oid)
    (hfind : st.docs.find? (fun d => d._id = oid) = some d) :
    (exchangeUseCase.AcceptOffer mongoExchangeRepo st c id requesterID).1
      = .ok { d.fields with Status := "ACCEPTED" } ∧
    ((exchangeUseCase.AcceptOffer mongoExchangeRepo st c id requesterID).2.1.docs.find?
        (fun d => d._id = oid)).map (fun d => d.fields.Status) = some "ACCEPTED" ∧
    (exchangeUseCase.DeclineOffer mongoExchangeRepo st c id).1
      = .ok { d.fields with Status := "DECLINED" } ∧
    ((exchangeUseCase.DeclineOffer mongoExchangeRepo st c id).2.1.docs.find?
        (fun d => d._id = oid)).map (fun d => d.fields.Status) = some "DECLINED" ∧
    (∀ req, (ExchangeHandler.AcceptOffer mongoExchangeRepo fmtTime st c nc req).2.2.2 = nc) ∧
    (∀ req, (ExchangeHandler.DeclineOffer mongoExchangeRepo fmtTime st c nc req).2.2.2 = nc) := by
  obtain ⟨ha1, ha2⟩ := mongoExchangeRepo.updateStatus_found st id "ACCEPTED" oid d hst hid hfind
  obtain ⟨hd1, hd2⟩ := mongoExchangeRepo.updateStatus_found st id "DECLINED" oid d hst hid hfind
  have hA : mongoExchangeRepo.AcceptOffer st id
      = (.ok { d.fields with Status := "ACCEPTED" },
          (mongoExchangeRepo.updateStatus st id "ACCEPTED").2) := by
    unfold mongoExchangeRepo.AcceptOffer
    rw [← ha1]
  have hD : mongoExchangeRepo.DeclineOffer st id
      = (.ok { d.fields with Status := "DECLINED" },
          (mongoExchangeRepo.updateStatus st id "DECLINED").2) := by
    unfold mongoExchangeRepo.DeclineOffer
    rw [← hd1]
  have hA2 : (mongoExchangeRepo : ExchangeRepository _).AcceptOffer st id = _ := hA
  have hD2 : (mongoExchangeRepo : ExchangeRepository _).DeclineOffer st id = _ := hD
  refine ⟨?_, ?_, ?_, ?_, ?_, ?_⟩
  · simp only [exchangeUseCase.AcceptOffer, hA2]
  · simp only [exchangeUseCase.AcceptOffer, hA2]
    rw [ha2]
    rfl
  · simp only [exchangeUseCase.DeclineOffer, hD2]
  · simp only [exchangeUseCase.DeclineOffer, hD2]
    rw [hd2]
    rfl
  · intro req
    unfold ExchangeHandler.AcceptOffer
    cases req with
    | none => rfl
    | some r =>
      simp only []
      split
      · rfl
      · split <;> rfl
  · intro req
    unfold ExchangeHandler.DeclineOffer
    cases req with
    | none => rfl
    | some r =>
      simp only []
      split
      · rfl
      · split <;> rfl

/-- Witness for C10 (amended): accepting the stored declined offer succeeds
and stores `ACCEPTED`. -/
theorem C10_offer_transitions_are_unguarded_witness :
    declinedOfferDoc.fields.Status = "DECLINED" ∧
    (exchangeUseCase.AcceptOffer mongoExchangeRepo declinedOfferStore Redis.empty lowerSpelling
        "000000000000000000000002").1
      = .ok { declinedOffer with Status := "ACCEPTED" } :=
  ⟨rfl, (C10_offer_transitions_are_unguarded declinedOfferStore Redis.empty ⟨[], []⟩
    (fun _ => "") lowerSpelling "000000000000000000000002" ⟨171⟩ declinedOfferDoc
    (by intro f hf; cases hf) (by decide) (by decide)).1⟩

/-! ## C11: status transitions of orders -/

theorem Collection.FindOneAndUpdate_ok {α : Type} (c c1 : Collection α) (filter : α → Bool)
    (update : α → α) (r : α) (h : c.FindOneAndUpdate filter update = (.ok r, c1)) :
    ∃ d, c.docs.find? filter = some d ∧ r = update d ∧
      c1.docs = updateFirst filter update c.docs := by
  unfold Collection.FindOneAndUpdate at h
  cases hf : c.fault with
  | some msg => rw [hf] at h; cases h
  | none =>
    rw [hf] at h
    cases hd : c.docs.find? filter with
    | none => rw [hd] at h; cases h
    | some d =>
      rw [hd] at h
      simp only [Prod.mk.injEq, Except.ok.injEq] at h
      exact ⟨d, rfl, h.1.symm, by rw [← h.2]⟩

theorem Collection.FindOneAndUpdate_found {α : Type} (c : Collection α) (filter : α → Bool)
    (update : α → α) (d : α) (hc : c.healthy) (hd : c.docs.find? filter = some d) :
    c.FindOneAndUpdate filter update
      = (.ok (update d), { c.sent with docs := updateFirst filter update c.docs }) := by
  simp [Collection.FindOneAndUpdate, Collection.fault_none_of_healthy hc, hd]

theorem Collection.FindOne_found {α : Type} (c : Collection α) (filter : α → Bool)
    (d : α) (hc : c.healthy) (hd : c.docs.find? filter = some d) :
    c.FindOne filter = (.ok d, c.sent) := by
  simp [Collection.FindOne, Collection.fault_none_of_healthy hc, hd]

theorem mongoOrderRepo.updateStatusWithCache_found (st : Collection OrderDoc)
    (c : Redis OrderJSON) (id status : String) (oid : ObjectID) (d : OrderDoc)
    (hst : st.healthy) (hid : ObjectIDFromHex id = .ok oid)
    (hfind : st.docs.find? (fun d => d._id = oid) = some d) :
    (mongoOrderRepo.updateStatusWithCache st c id status).1
      = .ok { d.fields with Status := status } ∧
    (mongoOrderRepo.updateStatusWithCache st c id status).2.1.docs.find?
        (fun d => d._id = oid)
      = some { d with fields := { d.fields with Status := status },
                      updated_at := some st.clock } := by
  have hoid : d._id = oid := by
    have := List.find?_some hfind
    simpa using this
  have h1 := Collection.FindOne_found st (fun d => decide (d._id = oid)) d hst hfind
  have h2 := Collection.FindOneAndUpdate_found st.sent (fun d => decide (d._id = oid))
    (fun d => { d with fields := { d.fields with Status := status },
                       updated_at := some st.clock }) d
    (Collection.healthy_after_sent hst) hfind
  simp only [mongoOrderRepo.updateStatusWithCache, hid, h1, h2, decodeOne]
  refine ⟨trivial, ?_⟩
  exact find_updateFirst _ _ _ _ hfind (by simpa using hoid)

/-- C11 (counterexample): an order is created; the store keeps it in a
document whose `_id` is `...ab`.  The order is cancelled under that id, and
the stored status is `Cancelled`.  `Return` on it is then not rejected: it
returns the order with status `Returned` and the stored status becomes
`Returned`.  `Cancel` on the cancelled order succeeds as well. -/
theorem C11_return_after_cancel_succeeds :
    (let r0 := mongoOrderRepo.Create freshOrderStore Redis.empty sampleNewOrder
     let r1 := mongoOrderRepo.Cancel { r0.2.1 with clock := 150 } r0.2.2
       "0000000000000000000000ab"
     let r2 := mongoOrderRepo.Return { r1.2.1 with clock := 200 } r1.2.2
       "0000000000000000000000ab"
     r0.1 = .ok sampleOrder ∧
     r0.2.1.docs = [sampleOrderDoc] ∧
     r1.1 = .ok cancelledOrder ∧
     r1.2.1.docs = [cancelledOrderDoc] ∧
     cancelledOrderDoc.fields.Status = "Cancelled" ∧
     r2.1 = .ok { cancelledOrder with Status := "Returned" } ∧
     r2.2.1.docs.map (fun d => d.fields.Status) = ["Returned"]) ∧
    (mongoOrderRepo.Cancel cancelledOrderStore Redis.empty lowerSpelling).1
      = .ok cancelledOrder := by
  decide

/-- C11 (amended): the status transitions of orders are not guarded.  For
every stored order document, whatever its status (`Cancelled` and `Returned`
included), with the store reachable `mongoOrderRepo.Cancel` and `Return`
called with the id of the document succeed, return the order with status
`Cancelled` and `Returned` respectively and set the stored status to it. -/
theorem C11_order_transitions_are_unguarded (st : Collection OrderDoc) (c : Redis OrderJSON)
    (id : String) (oid : ObjectID) (d : OrderDoc)
    (hst : st.healthy) (hid : ObjectIDFromHex id = .ok oid)
    (hfind : st.docs.find? (fun d => d._id = oid) = some d) :
    (mongoOrderRepo.Cancel st c id).1 = .ok { d.fields with Status := "Cancelled" } ∧
    ((mongoOrderRepo.Cancel st c id).2.1.docs.find? (fun d => d._id = oid)).map
        (fun d => d.fields.Status) = some "Cancelled" ∧
    (mongoOrderRepo.Return st c id).1 = .ok { d.fields with Status := "Returned" } ∧
    ((mongoOrderRepo.Return st c id).2.1.docs.find? (fun d => d._id = oid)).map
        (fun d => d.fields.Status) = some "Returned" := by
  obtain ⟨h1, h2⟩ :=
    mongoOrderRepo.updateStatusWithCache_found st c id "Cancelled" oid d hst hid hfind
  obtain ⟨h3, h4⟩ :=
    mongoOrderRepo.updateStatusWithCache_found st c id "Returned" oid d hst hid hfind
  refine ⟨h1, ?_, h3, ?_⟩
  · unfold mongoOrderRepo.Cancel
    rw [h2]
    rfl
  · unfold mongoOrderRepo.Return
    rw [h4]
    rfl

/-- Witness for C11 (amended): `Return` on the stored cancelled order
succeeds. -/
theorem C11_order_transitions_are_unguarded_witness :
    cancelledOrderDoc.fields.Status = "Cancelled" ∧
    (mongoOrderRepo.Return cancelledOrderStore Redis.empty lowerSpelling).1
      = .ok { cancelledOrder with Status := "Returned" } :=
  ⟨rfl, (C11_order_transitions_are_unguarded cancelledOrderStore Redis.empty lowerSpelling
    ⟨171⟩ cancelledOrderDoc (by intro f hf; cases hf) (by decide) (by decide)).2.2.1⟩

/-! ## C12: `updatedAt` across successive writes -/

theorem Collection.FindOneAndUpdate_stored {α : Type} (c c1 : Collection α)
    (filter : α → Bool) (update : α → α) (r : α)
    (hp : ∀ d, filter d = true → filter (update d) = true)
    (h : c.FindOneAndUpdate filter update = (.ok r, c1)) :
    (∃ d, r = update d) ∧ c1.docs.find? filter = some r := by
  obtain ⟨d, hd, hr, hdocs⟩ := Collection.FindOneAndUpdate_ok c c1 filter update r h
  refine ⟨⟨d, hr⟩, ?_⟩
  rw [hdocs, hr]
  exact find_updateFirst filter update c.docs d hd (hp d (List.find?_some hd))

theorem Collection.FindOneAndUpdateWith_stored {α : Type} (c c1 : Collection α)
    (filter : α → Bool) (update : α → Except Error α) (r : α)
    (hp : ∀ d d1, filter d = true → update d = .ok d1 → filter d1 = true)
    (h : c.FindOneAndUpdateWith filter update = (.ok r, c1)) :
    (∃ d, update d = .ok r) ∧ c1.docs.find? filter = some r := by
  unfold Collection.FindOneAndUpdateWith at h
  cases hf : c.fault with
  | some msg => simp [hf] at h
  | none =>
    cases hd : c.docs.find? filter with
    | none => simp [hf, hd] at h
    | some d =>
      cases hu : update d with
      | error e => simp [hf, hd, hu] at h
      | ok d1 =>
        simp only [hf, hd, hu, Prod.mk.injEq, Except.ok.injEq] at h
        obtain ⟨h1, h2⟩ := h
        subst h1
        refine ⟨⟨d, hu⟩, ?_⟩
        rw [← h2]
        exact find_updateFirst filter (fun _ => d1) c.docs d hd
          (hp d d1 (List.find?_some hd) hu)

theorem decodeOne_ok {δ α σ : Type} (decode : δ → α) (x : Except Error δ × σ) (a : α)
    (s : σ) (h : decodeOne decode x = (.ok a, s)) : ∃ d, x = (.ok d, s) ∧ decode d = a := by
  rcases x with ⟨e | d, s1⟩
  · cases h
  · simp only [decodeOne, Prod.mk.injEq, Except.ok.injEq] at h
    exact ⟨d, by rw [h.2], h.1⟩

/-- Every successful write to an offer stores the clock reading of that write
in the field `updated_at` of the document it addresses. -/
theorem OfferWrite.run_ok (w : OfferWrite) (st st1 : Collection OfferDoc)
    (o : ExchangeOffer) (oid : ObjectID) (hw : w.docID = .ok oid)
    (h : w.run st = (.ok o, st1)) :
    OfferDoc.updatedAtOf st1.docs oid = some st.clock := by
  have status : ∀ id status, ObjectIDFromHex id = .ok oid →
      mongoExchangeRepo.updateStatus st id status = (.ok o, st1) →
      OfferDoc.updatedAtOf st1.docs oid = some st.clock := by
    intro id status hid h
    unfold mongoExchangeRepo.updateStatus at h
    rw [hid] at h
    obtain ⟨d, hx, _⟩ := decodeOne_ok _ _ _ _ h
    obtain ⟨⟨d0, hr⟩, hs⟩ := Collection.FindOneAndUpdate_stored _ _ _ _ _
      (by intro d hd; simpa using hd) hx
    unfold OfferDoc.updatedAtOf
    rw [hs, hr]
    rfl
  have book : ∀ (update : OfferDoc → Except Error ArrayField),
      decodeOne OfferDoc.fields (st.FindOneAndUpdateWith (fun d => d._id = oid)
        (fun d => (update d).map
          (fun a => { d with offered_book_ids := a, updated_at := some st.clock })))
        = (.ok o, st1) →
      OfferDoc.updatedAtOf st1.docs oid = some st.clock := by
    intro update h
    obtain ⟨d, hx, _⟩ := decodeOne_ok _ _ _ _ h
    obtain ⟨⟨d0, hr⟩, hs⟩ := Collection.FindOneAndUpdateWith_stored _ _ _ _ _
      (by
        intro d d1 hd hu
        cases hv : update d with
        | error e => rw [hv] at hu; cases hu
        | ok a =>
          rw [hv] at hu
          simp only [Except.map, Except.ok.injEq] at hu
          subst hu
          simpa using hd) hx
    unfold OfferDoc.updatedAtOf
    rw [hs]
    cases hv : update d0 with
    | error e => rw [hv] at hr; cases hr
    | ok a =>
      rw [hv] at hr
      simp only [Except.map, Except.ok.injEq] at hr
      subst hr
      rfl
  cases w with
  | accept id => exact status id "ACCEPTED" hw h
  | decline id => exact status id "DECLINED" hw h
  | update offer =>
    simp only [OfferWrite.docID, Except.ok.injEq] at hw
    simp only [OfferWrite.run, mongoExchangeRepo.UpdateOffer, hw] at h
    obtain ⟨d, hx, _⟩ := decodeOne_ok _ _ _ _ h
    obtain ⟨⟨d0, hr⟩, hs⟩ := Collection.FindOneAndUpdate_stored _ _ _ _ _
      (by intro d hd; simpa using hd) hx
    unfold OfferDoc.updatedAtOf
    rw [hs, hr]
    rfl
  | addBook offerID bookID =>
    simp only [OfferWrite.docID] at hw
    simp only [OfferWrite.run, mongoExchangeRepo.AddOfferedBook, hw] at h
    cases hb : ObjectIDFromHex bookID with
    | error e => rw [hb] at h; cases h
    | ok bid =>
      rw [hb] at h
      exact book _ h
  | removeBook offerID bookID =>
    simp only [OfferWrite.docID] at hw
    simp only [OfferWrite.run, mongoExchangeRepo.RemoveOfferedBook, hw] at h
    cases hb : ObjectIDFromHex bookID with
    | error e => rw [hb] at h; cases h
    | ok bid =>
      rw [hb] at h
      exact book _ h

/-- Every successful write to an order stores the clock reading of that write
in the field `updated_at` of the document it addresses. -/
theorem OrderWrite.run_order_ok (w : OrderWrite) (st st1 : Collection OrderDoc)
    (c c1 : Redis OrderJSON) (o : Order) (oid : ObjectID) (hw : w.docID = .ok oid)
    (h : w.run st c = (.ok o, st1, c1)) :
    OrderDoc.updatedAtOf st1.docs oid = some st.clock := by
  have status : ∀ id status, ObjectIDFromHex id = .ok oid →
      mongoOrderRepo.updateStatusWithCache st c id status = (.ok o, st1, c1) →
      OrderDoc.updatedAtOf st1.docs oid = some st.clock := by
    intro id status hid h
    unfold mongoOrderRepo.updateStatusWithCache at h
    rw [hid] at h
    simp only at h
    rcases h1 : decodeOne OrderDoc.fields (st.FindOne (fun d => decide (d._id = oid)))
      with ⟨e | existing, s1⟩
    · rw [h1] at h; cases h
    · rw [h1] at h
      simp only at h
      rcases h2 : decodeOne OrderDoc.fields (s1.FindOneAndUpdate
          (fun d => decide (d._id = oid))
          (fun d => { d with fields := { d.fields with Status := status },
                             updated_at := some st.clock })) with ⟨e | updated, s2⟩
      · rw [h2] at h; cases h
      · rw [h2] at h
        simp only [Prod.mk.injEq, Except.ok.injEq] at h
        obtain ⟨ho, hs, _⟩ := h
        subst ho hs
        obtain ⟨d, hx, _⟩ := decodeOne_ok _ _ _ _ h2
        obtain ⟨⟨d0, hr⟩, hst⟩ := Collection.FindOneAndUpdate_stored _ _ _ _ _
          (by intro d hd; simpa using hd) hx
        unfold OrderDoc.updatedAtOf
        rw [hst, hr]
        rfl
  have book : ∀ (update : OrderDoc → Except Error ArrayField) (s2 : Collection OrderDoc)
      (updated : Order),
      decodeOne OrderDoc.fields (st.FindOneAndUpdateWith (fun d => d._id = oid)
        (fun d => (update d).map
          (fun a => { d with book_ids := a, updated_at := some st.clock })))
        = (.ok updated, s2) →
      OrderDoc.updatedAtOf s2.docs oid = some st.clock := by
    intro update s2 updated h
    obtain ⟨d, hx, _⟩ := decodeOne_ok _ _ _ _ h
    obtain ⟨⟨d0, hr⟩, hs⟩ := Collection.FindOneAndUpdateWith_stored _ _ _ _ _
      (by
        intro d d1 hd hu
        cases hv : update d with
        | error e => rw [hv] at hu; cases hu
        | ok a =>
          rw [hv] at hu
          simp only [Except.map, Except.ok.injEq] at hu
          subst hu
          simpa using hd) hx
    unfold OrderDoc.updatedAtOf
    rw [hs]
    cases hv : update d0 with
    | error e => rw [hv] at hr; cases hr
    | ok a =>
      rw [hv] at hr
      simp only [Except.map, Except.ok.injEq] at hr
      subst hr
      rfl
  cases w with
  | cancel id => exact status id "Cancelled" hw h
  | giveBack id => exact status id "Returned" hw h
  | update order =>
    simp only [OrderWrite.docID, Except.ok.injEq] at hw
    simp only [OrderWrite.run, mongoOrderRepo.Update, hw] at h
    rcases h2 : decodeOne OrderDoc.fields (st.FindOneAndUpdate
        (fun d => decide (d._id = oid))
        (fun d => { d with fields := { d.fields with Status := order.Status },
                           user_id := some order.UserID,
                           book_ids := ArrayField.ofSlice order.BookIDs,
                           updated_at := some st.clock })) with ⟨e | updated, s2⟩
    · rw [h2] at h; cases h
    · rw [h2] at h
      simp only [Prod.mk.injEq, Except.ok.injEq] at h
      obtain ⟨ho, hs, _⟩ := h
      subst ho hs
      obtain ⟨d, hx, _⟩ := decodeOne_ok _ _ _ _ h2
      obtain ⟨⟨d0, hr⟩, hst⟩ := Collection.FindOneAndUpdate_stored _ _ _ _ _
        (by intro d hd; simpa using hd) hx
      unfold OrderDoc.updatedAtOf
      rw [hst, hr]
      rfl
  | addBook orderID bookID =>
    simp only [OrderWrite.docID] at hw
    simp only [OrderWrite.run, mongoOrderRepo.AddBook, hw] at h
    cases hb : ObjectIDFromHex bookID with
    | error e => rw [hb] at h; cases h
    | ok bid =>
      rw [hb] at h
      simp only at h
      rcases h2 : decodeOne OrderDoc.fields (st.FindOneAndUpdateWith
          (fun d => decide (d._id = oid))
          (fun d => (d.book_ids.push bid).map
            (fun a => { d with book_ids := a, updated_at := some st.clock })))
        with ⟨e | updated, s2⟩
      · rw [h2] at h; cases h
      · rw [h2] at h
        simp only [Prod.mk.injEq, Except.ok.injEq] at h
        obtain ⟨ho, hs, _⟩ := h
        subst ho hs
        exact book _ _ _ h2
  | removeBook orderID bookID =>
    simp only [OrderWrite.docID] at hw
    simp only [OrderWrite.run, mongoOrderRepo.RemoveBook, hw] at h
    cases hb : ObjectIDFromHex bookID with
    | error e => rw [hb] at h; cases h
    | ok bid =>
      rw [hb] at h
      simp only at h
      rcases h2 : decodeOne OrderDoc.fields (st.FindOneAndUpdateWith
          (fun d => decide (d._id = oid))
          (fun d => (d.book_ids.pull bid).map
            (fun a => { d with book_ids := a, updated_at := some st.clock })))
        with ⟨e | updated, s2⟩
      · rw [h2] at h; cases h
      · rw [h2] at h
        simp only [Prod.mk.injEq, Except.ok.injEq] at h
        obtain ⟨ho, hs, _⟩ := h
        subst ho hs
        exact book _ _ _ h2

/-- C12 (counterexample): two successive successful writes within one
millisecond (the clock reads 200 at both, which is non-decreasing) store the
same `updated_at`, so the second is not strictly greater: `Cancel` then
`Return` on an order, and `AcceptOffer` then `DeclineOffer` on an offer. -/
theorem C12_same_millisecond_same_updatedAt :
    (let r1 := mongoOrderRepo.Cancel sampleOrderStore Redis.empty lowerSpelling
     let r2 := mongoOrderRepo.Return { r1.2.1 with clock := 200 } r1.2.2 lowerSpelling
     r1.1.toOption.map (fun o => o.Status) = some "Cancelled" ∧
     r1.2.1.docs.map (fun d => (d.fields.Status, d.updated_at)) = [("Cancelled", some 200)] ∧
     r2.1.toOption.map (fun o => o.Status) = some "Returned" ∧
     r2.2.1.docs.map (fun d => (d.fields.Status, d.updated_at)) = [("Returned", some 200)]) ∧
    (let r1 := mongoExchangeRepo.AcceptOffer sampleOfferStore lowerSpelling
     let r2 := mongoExchangeRepo.DeclineOffer { r1.2 with clock := 200 } lowerSpelling
     r1.1.toOption.map (fun o => o.Status) = some "ACCEPTED" ∧
     r1.2.docs.map (fun d => d.updated_at) = [some 200] ∧
     r2.1.toOption.map (fun o => o.Status) = some "DECLINED" ∧
     r2.2.docs.map (fun d => d.updated_at) = [some 200]) ∧
    ¬ ((200 : DateTime) < 200) := by
  decide

/-- C12 (amended): every successful write to an offer or an order (status
transition, update, add or remove book) stores the clock reading of that
write in the field `updated_at` of the document it addresses.  So for two
successive successful writes with a non-decreasing clock the second
`updated_at` is greater than or equal to the first, and strictly greater
exactly when the clock reading advanced between the two writes. -/
theorem C12_updatedAt_is_the_clock_reading
    (w1 w2 : OfferWrite) (st st1 st2 : Collection OfferDoc) (o1 o2 : ExchangeOffer)
    (i1 i2 : ObjectID)
    (v1 v2 : OrderWrite) (ot ot1 ot2 : Collection OrderDoc) (c c1 c2 : Redis OrderJSON)
    (p1 p2 : Order) (j1 j2 : ObjectID) (t2 : DateTime) :
    (w1.docID = .ok i1 → w2.docID = .ok i2 →
      w1.run st = (.ok o1, st1) → st.clock ≤ t2 →
      w2.run { st1 with clock := t2 } = (.ok o2, st2) →
      OfferDoc.updatedAtOf st1.docs i1 = some st.clock ∧
      OfferDoc.updatedAtOf st2.docs i2 = some t2 ∧
      (∀ u1 u2, OfferDoc.updatedAtOf st1.docs i1 = some u1 →
        OfferDoc.updatedAtOf st2.docs i2 = some u2 →
        u1 ≤ u2 ∧ (u1 < u2 ↔ st.clock < t2))) ∧
    (v1.docID = .ok j1 → v2.docID = .ok j2 →
      v1.run ot c = (.ok p1, ot1, c1) → ot.clock ≤ t2 →
      v2.run { ot1 with clock := t2 } c1 = (.ok p2, ot2, c2) →
      OrderDoc.updatedAtOf ot1.docs j1 = some ot.clock ∧
      OrderDoc.updatedAtOf ot2.docs j2 = some t2 ∧
      (∀ u1 u2, OrderDoc.updatedAtOf ot1.docs j1 = some u1 →
        OrderDoc.updatedAtOf ot2.docs j2 = some u2 →
        u1 ≤ u2 ∧ (u1 < u2 ↔ ot.clock < t2))) := by
  constructor
  · intro hi1 hi2 h1 hle h2
    have a1 := OfferWrite.run_ok w1 st st1 o1 i1 hi1 h1
    have a2 : OfferDoc.updatedAtOf st2.docs i2 = some t2 :=
      OfferWrite.run_ok w2 _ st2 o2 i2 hi2 h2
    refine ⟨a1, a2, ?_⟩
    intro u1 u2 e1 e2
    rw [a1] at e1
    rw [a2] at e2
    cases e1
    cases e2
    exact ⟨hle, Iff.rfl⟩
  · intro hj1 hj2 h1 hle h2
    have a1 := OrderWrite.run_order_ok v1 ot ot1 c c1 p1 j1 hj1 h1
    have a2 : OrderDoc.updatedAtOf ot2.docs j2 = some t2 :=
      OrderWrite.run_order_ok v2 _ ot2 c1 c2 p2 j2 hj2 h2
    refine ⟨a1, a2, ?_⟩
    intro u1 u2 e1 e2
    rw [a1] at e1
    rw [a2] at e2
    cases e1
    cases e2
    exact ⟨hle, Iff.rfl⟩

/-- Witness for C12 (amended): `Cancel` at clock reading 200 and `Return` at
clock reading 205 store 200 and 205 in `updated_at`. -/
theorem C12_updatedAt_is_the_clock_reading_witness :
    OrderDoc.updatedAtOf
        (mongoOrderRepo.Cancel sampleOrderStore Redis.empty lowerSpelling).2.1.docs ⟨171⟩
      = some 200 ∧
    OrderDoc.updatedAtOf
        (mongoOrderRepo.Return
          { (mongoOrderRepo.Cancel sampleOrderStore Redis.empty lowerSpelling).2.1
              with clock := 205 }
          (mongoOrderRepo.Cancel sampleOrderStore Redis.empty lowerSpelling).2.2
          lowerSpelling).2.1.docs ⟨171⟩
      = some 205 :=
  have h := (C12_updatedAt_is_the_clock_reading (.accept "") (.accept "") sampleOfferStore
      sampleOfferStore sampleOfferStore sampleOffer sampleOffer ⟨0⟩ ⟨0⟩
      (.cancel lowerSpelling) (.giveBack lowerSpelling) sampleOrderStore
      (mongoOrderRepo.Cancel sampleOrderStore Redis.empty lowerSpelling).2.1
      (mongoOrderRepo.Return
        { (mongoOrderRepo.Cancel sampleOrderStore Redis.empty lowerSpelling).2.1
            with clock := 205 }
        (mongoOrderRepo.Cancel sampleOrderStore Redis.empty lowerSpelling).2.2
        lowerSpelling).2.1
      Redis.empty
      (mongoOrderRepo.Cancel sampleOrderStore Redis.empty lowerSpelling).2.2
      (mongoOrderRepo.Return
        { (mongoOrderRepo.Cancel sampleOrderStore Redis.empty lowerSpelling).2.1
            with clock := 205 }
        (mongoOrderRepo.Cancel sampleOrderStore Redis.empty lowerSpelling).2.2
        lowerSpelling).2.2
      { sampleOrder with Status := "Cancelled" }
      { sampleOrder with Status := "Returned" } ⟨171⟩ ⟨171⟩ 205).2
      (by decide) (by decide) (by decide) (by decide) (by decide)
  ⟨h.1, h.2.1⟩

/-! ## C13, C17: creating an order -/

theorem Nats.Publish_accepted (nc : Nats) (subject : String) (data : Payload)
    (h : (nc.Publish subject data).1 = none) :
    (nc.Publish subject data).2.published = nc.published ++ [(subject, data)] := by
  unfold Nats.Publish at h ⊢
  split
  · rename_i heq
    rw [heq] at h
    simp at h
  · rfl

theorem Nats.Publish_rejected (nc : Nats) (subject : String) (data : Payload) (e : Error)
    (h : (nc.Publish subject data).1 = some e) :
    (nc.Publish subject data).2.published = nc.published := by
  unfold Nats.Publish at h ⊢
  split
  · rfl
  · rename_i heq
    split at h
    · rename_i msg rest h2
      exact absurd h2 (heq msg rest)
    · simp at h

theorem OrderHandler.parseBookIDs_all (ids : List String)
    (h : ∀ id ∈ ids, ∃ oid, ObjectIDFromHex id = .ok oid) (acc : Slice ObjectID) :
    ∃ bids, OrderHandler.parseBookIDs ids acc = .ok bids := by
  induction ids generalizing acc with
  | nil => exact ⟨acc, rfl⟩
  | cons id rest ih =>
    obtain ⟨oid, hoid⟩ := h id (List.mem_cons_self _ _)
    obtain ⟨bids, hb⟩ := ih (fun x hx => h x (List.mem_cons_of_mem _ hx))
      (some (acc.getD [] ++ [oid]))
    exact ⟨bids, by simp only [OrderHandler.parseBookIDs, hoid, hb]⟩

theorem mongoOrderRepo.Create_fresh_order (st : Collection OrderDoc) (c : Redis OrderJSON)
    (order : Order) (h : st.healthy)
    (hfresh : ∀ d ∈ st.docs, d._id ≠ ⟨(st.nextOID + 1) % 2 ^ 96⟩) :
    ∃ st1 c1, mongoOrderRepo.Create st c order
      = (.ok { order with ID := ⟨st.nextOID % 2 ^ 96⟩, CreatedAt := st.clock,
                          UpdatedAt := st.clock }, st1, c1) ∧
      st1.docs = st.docs ++ [⟨⟨(st.nextOID + 1) % 2 ^ 96⟩,
        { order with ID := ⟨st.nextOID % 2 ^ 96⟩, CreatedAt := st.clock,
                     UpdatedAt := st.clock }, none, .missing, none⟩] := by
  have hf : ({ st with nextOID := st.nextOID + 1 + 1 } : Collection OrderDoc).fault
      = none := by
    apply Collection.fault_none_of_healthy
    exact h
  have hany :
      (st.docs.any fun d => decide (d._id = (⟨(st.nextOID + 1) % 2 ^ 96⟩ : ObjectID)))
        = false := by
    rw [List.any_eq_false]
    intro b hb
    simpa using hfresh b hb
  simp only [mongoOrderRepo.Create, Collection.NewObjectID, Collection.InsertOne, hf, hany]
  exact ⟨_, _, rfl, rfl⟩

/-- C13: scenario S2, order creation.  For every `CreateOrder` request whose
user id parses and whose non-empty book id list all parse, on a reachable
store whose id generator is fresh (the document id it draws is not in use)
the insert succeeds and adds one document that holds the created order, the
response is the
created order with status `Created` and the user of the request, and the
effect on the bus is that of exactly one `Publish` on `orders.created` whose
payload has `order_id` equal to the id of the returned order, `user_id`
equal to the hex of its user id and `book_ids` equal to the book ids of the
request in their order; when the bus accepts it, it is the one message
added. -/
theorem C13_create_order_publishes_orders_created (fmtTime : DateTime → String)
    (newID : ObjectID) (st : Collection OrderDoc) (c : Redis OrderJSON) (nc : Nats)
    (req : CreateOrderRequest) (uid : ObjectID)
    (huid : ObjectIDFromHex req.UserId = .ok uid)
    (hne : req.BookIds ≠ [])
    (hbooks : ∀ id ∈ req.BookIds, ∃ oid, ObjectIDFromHex id = .ok oid)
    (hst : st.healthy) (hfresh : ∀ d ∈ st.docs, d._id ≠ ⟨(st.nextOID + 1) % 2 ^ 96⟩) :
    ∃ created st1 c1 resp,
      OrderHandler.CreateOrder mongoOrderRepo fmtTime newID (st, c) nc (some req)
        = (.ok resp, (st1, c1),
            (nc.Publish "orders.created"
              [("order_id", .str resp.Id), ("user_id", .str created.UserID.Hex),
               ("book_ids", .strs req.BookIds)]).2) ∧
      resp = OrderHandler.mapDomain fmtTime created ∧
      resp.Status = "Created" ∧ created.UserID = uid ∧
      st1.docs = st.docs ++ [⟨⟨(st.nextOID + 1) % 2 ^ 96⟩, created, none, .missing, none⟩] ∧
      ((nc.Publish "orders.created"
          [("order_id", .str resp.Id), ("user_id", .str created.UserID.Hex),
           ("book_ids", .strs req.BookIds)]).1 = none →
        (OrderHandler.CreateOrder mongoOrderRepo fmtTime newID (st, c) nc
            (some req)).2.2.published
          = nc.published ++ [("orders.created",
              [("order_id", .str resp.Id), ("user_id", .str created.UserID.Hex),
               ("book_ids", .strs req.BookIds)])]) := by
  obtain ⟨bids, hb⟩ := OrderHandler.parseBookIDs_all req.BookIds hbooks none
  have hu : req.UserId ≠ "" := by
    intro h0
    have hbad : ObjectIDFromHex "" = .error .invalidHex := by decide
    rw [h0, hbad] at huid
    cases huid
  have hl : req.BookIds.length ≠ 0 := by
    intro h0
    exact hne (List.length_eq_zero.mp h0)
  obtain ⟨st1, c1, hc, hdocs⟩ := mongoOrderRepo.Create_fresh_order st c
    { ID := newID, UserID := uid, BookIDs := bids, Status := "Created",
      CreatedAt := 0, UpdatedAt := 0 } hst hfresh
  obtain ⟨created, hcreated⟩ : ∃ created : Order, created =
      { ID := ⟨st.nextOID % 2 ^ 96⟩, UserID := uid, BookIDs := bids,
        Status := "Created", CreatedAt := st.clock, UpdatedAt := st.clock } := ⟨_, rfl⟩
  rw [← hcreated] at hc hdocs
  have hrepo : (mongoOrderRepo : OrderRepository _).Create (st, c)
      { ID := newID, UserID := uid, BookIDs := bids, Status := "Created",
        CreatedAt := 0, UpdatedAt := 0 } = (.ok created, (st1, c1)) := by
    show (let r := mongoOrderRepo.Create st c _; (r.1, r.2.1, r.2.2)) = _
    rw [hc]
  have hres : OrderHandler.CreateOrder mongoOrderRepo fmtTime newID (st, c) nc (some req)
      = (.ok (OrderHandler.mapDomain fmtTime created), (st1, c1),
          (nc.Publish "orders.created"
            [("order_id", .str (OrderHandler.mapDomain fmtTime created).Id),
             ("user_id", .str created.UserID.Hex), ("book_ids", .strs req.BookIds)]).2) := by
    simp only [OrderHandler.CreateOrder, hu, hl, huid, hb, orderUseCase.CreateOrder, hrepo,
      false_or, if_false, OrderHandler.mapDomain]
  refine ⟨created, st1, c1, OrderHandler.mapDomain fmtTime created, hres, rfl, ?_, ?_, hdocs,
    ?_⟩
  · rw [hcreated]; rfl
  · rw [hcreated]
  · intro hacc
    rw [hres]
    exact Nats.Publish_accepted nc _ _ hacc

/-- Witness for C13: the sample request on an empty store and an accepting
bus. -/
theorem C13_create_order_publishes_orders_created_witness :
    ∃ created st1 c1 resp,
      OrderHandler.CreateOrder mongoOrderRepo (fun _ => "") ⟨5⟩ (emptyOrderStore, Redis.empty)
          upBus (some sampleCreateOrder)
        = (.ok resp, (st1, c1),
            (upBus.Publish "orders.created"
              [("order_id", .str resp.Id), ("user_id", .str created.UserID.Hex),
               ("book_ids", .strs sampleCreateOrder.BookIds)]).2) ∧
      resp = OrderHandler.mapDomain (fun _ => "") created ∧
      resp.Status = "Created" ∧ created.UserID = ⟨1⟩ ∧
      st1.docs = emptyOrderStore.docs
        ++ [⟨⟨(emptyOrderStore.nextOID + 1) % 2 ^ 96⟩, created, none, .missing, none⟩] ∧
      ((upBus.Publish "orders.created"
          [("order_id", .str resp.Id), ("user_id", .str created.UserID.Hex),
           ("book_ids", .strs sampleCreateOrder.BookIds)]).1 = none →
        (OrderHandler.CreateOrder mongoOrderRepo (fun _ => "") ⟨5⟩
            (emptyOrderStore, Redis.empty) upBus (some sampleCreateOrder)).2.2.published
          = upBus.published ++ [("orders.created",
              [("order_id", .str resp.Id), ("user_id", .str created.UserID.Hex),
               ("book_ids", .strs sampleCreateOrder.BookIds)])]) :=
  C13_create_order_publishes_orders_created (fun _ => "") ⟨5⟩ emptyOrderStore Redis.empty
    upBus sampleCreateOrder ⟨1⟩ (by decide) (by decide)
    (by
      intro id hid
      simp only [sampleCreateOrder, List.mem_cons, List.mem_singleton, List.not_mem_nil,
        or_false] at hid
      rcases hid with h | h
      · exact ⟨⟨177⟩, by rw [h]; decide⟩
      · exact ⟨⟨178⟩, by rw [h]; decide⟩)
    (by intro f hf; cases hf) (by intro d hd; cases hd)

/-- C17: scenario S5, a bus outage is not fatal.  For every repository
implementation and every request, the response of `CreateOrder` and the
store state it leaves do not depend on the state of the bus; in particular,
when the write succeeds the response is the created order, without error,
whether `Publish` succeeds or returns an error. -/
theorem C17_bus_outage_is_non_fatal {σ : Type} (repo : OrderRepository σ)
    (fmtTime : DateTime → String) (newID : ObjectID) (st : σ) (nc nc2 : Nats)
    (req : Option CreateOrderRequest) :
    (OrderHandler.CreateOrder repo fmtTime newID st nc req).1
      = (OrderHandler.CreateOrder repo fmtTime newID st nc2 req).1 ∧
    (OrderHandler.CreateOrder repo fmtTime newID st nc req).2.1
      = (OrderHandler.CreateOrder repo fmtTime newID st nc2 req).2.1 ∧
    (∀ r uid bids created st1, req = some r → r.UserId ≠ "" → r.BookIds ≠ [] →
      ObjectIDFromHex r.UserId = .ok uid →
      OrderHandler.parseBookIDs r.BookIds none = .ok bids →
      repo.Create st { ID := newID, UserID := uid, BookIDs := bids, Status := "Created",
                       CreatedAt := 0, UpdatedAt := 0 } = (.ok created, st1) →
      (OrderHandler.CreateOrder repo fmtTime newID st nc req).1
        = .ok (OrderHandler.mapDomain fmtTime created) ∧
      (OrderHandler.CreateOrder repo fmtTime newID st nc req).2.1 = st1) := by
  refine ⟨?_, ?_, ?_⟩
  · unfold OrderHandler.CreateOrder
    cases req with
    | none => rfl
    | some r =>
      simp only
      split
      · rfl
      · split
        · rfl
        · split
          · rfl
          · split <;> rfl
  · unfold OrderHandler.CreateOrder
    cases req with
    | none => rfl
    | some r =>
      simp only
      split
      · rfl
      · split
        · rfl
        · split
          · rfl
          · split <;> rfl
  · intro r uid bids created st1 hreq hu hne huid hb hc
    have hl : r.BookIds.length ≠ 0 := fun h0 => hne (List.length_eq_zero.mp h0)
    subst hreq
    simp only [OrderHandler.CreateOrder, hu, hl, huid, hb, orderUseCase.CreateOrder, hc,
      false_or, if_false, and_self]

/-- Witness for C17: the sample request with the bus down returns the created
order, the same response as with the bus up, and no message is delivered. -/
theorem C17_bus_outage_is_non_fatal_witness :
    (OrderHandler.CreateOrder mongoOrderRepo (fun _ => "") ⟨5⟩ (emptyOrderStore, Redis.empty)
        downBus (some sampleCreateOrder)).1
      = .ok (OrderHandler.mapDomain (fun _ => "")
          { ID := ⟨1000⟩, UserID := ⟨1⟩, BookIDs := some [⟨177⟩, ⟨178⟩], Status := "Created",
            CreatedAt := 200, UpdatedAt := 200 }) ∧
    (OrderHandler.CreateOrder mongoOrderRepo (fun _ => "") ⟨5⟩ (emptyOrderStore, Redis.empty)
        downBus (some sampleCreateOrder)).2.2.published = [] :=
  ⟨((C17_bus_outage_is_non_fatal mongoOrderRepo (fun _ => "") ⟨5⟩
      (emptyOrderStore, Redis.empty) downBus upBus (some sampleCreateOrder)).2.2
      sampleCreateOrder ⟨1⟩ (some [⟨177⟩, ⟨178⟩])
      { ID := ⟨1000⟩, UserID := ⟨1⟩, BookIDs := some [⟨177⟩, ⟨178⟩], Status := "Created",
        CreatedAt := 200, UpdatedAt := 200 }
      (mongoOrderRepo.Create emptyOrderStore Redis.empty
        { ID := ⟨5⟩, UserID := ⟨1⟩, BookIDs := some [⟨177⟩, ⟨178⟩], Status := "Created",
          CreatedAt := 0, UpdatedAt := 0 }).2
      rfl (by decide) (by decide) (by decide) (by decide) (by decide)).1,
   by decide⟩

/-! ## C14, C15: events of transitions and deletions -/

/-- C14 (code bug): `ExchangeHandler.AcceptOffer` and
`ExchangeHandler.DeclineOffer` never publish: for every repository
implementation, state and request the bus is left as it was.  In particular
the successful calls on the stored sample offer, with the bus accepting
messages, return the offer as `ACCEPTED` and `DECLINED` and leave the bus
without any message, so none on `exchange.accepted` or
`exchange.declined`. -/
theorem C14_offer_transitions_publish_nothing {σ : Type} (repo : ExchangeRepository σ)
    (fmtTime : DateTime → String) (st : σ) (c : Redis OffersJSON) (nc : Nats)
    (acc : Option AcceptOfferRequest) (dec : Option OfferID) :
    (ExchangeHandler.AcceptOffer repo fmtTime st c nc acc).2.2.2 = nc ∧
    (ExchangeHandler.DeclineOffer repo fmtTime st c nc dec).2.2.2 = nc ∧
    (let r := ExchangeHandler.AcceptOffer mongoExchangeRepo (fun _ => "") sampleOfferStore
       Redis.empty upBus (some ⟨lowerSpelling, "000000000000000000000002"⟩)
     r.1.toOption.map (fun pb => pb.Status) = some "ACCEPTED" ∧ r.2.2.2.published = []) ∧
    (let r := ExchangeHandler.DeclineOffer mongoExchangeRepo (fun _ => "") sampleOfferStore
       Redis.empty upBus (some ⟨lowerSpelling⟩)
     r.1.toOption.map (fun pb => pb.Status) = some "DECLINED" ∧ r.2.2.2.published = []) := by
  refine ⟨?_, ?_, by decide, by decide⟩
  · unfold ExchangeHandler.AcceptOffer
    rcases acc with _ | r
    · rfl
    · dsimp only
      split
      · rfl
      · split <;> rfl
  · unfold ExchangeHandler.DeclineOffer
    rcases dec with _ | r
    · rfl
    · dsimp only
      split
      · rfl
      · split <;> rfl

/-- C15 (code bug): `OrderHandler.DeleteOrder` never publishes: for every
repository implementation, state and request the bus is left as it was, and
the same holds of `OrderHandler.ReturnBook` (as the claim says).  In
particular the successful deletion of the stored sample order, with the bus
accepting messages, returns no error, removes the order and leaves the bus
without any message, so none on `order.deleted`. -/
theorem C15_delete_order_publishes_nothing {σ : Type} (repo : OrderRepository σ)
    (fmtTime : DateTime → String) (st : σ) (nc : Nats) (req : Option OrderID) :
    (OrderHandler.DeleteOrder repo st nc req).2.2 = nc ∧
    (OrderHandler.ReturnBook repo fmtTime st nc req).2.2 = nc ∧
    (let r := OrderHandler.DeleteOrder mongoOrderRepo (sampleOrderStore, Redis.empty) upBus
       (some ⟨lowerSpelling⟩)
     r.1 = none ∧ r.2.1.1.docs = [] ∧ r.2.2.published = []) := by
  refine ⟨?_, ?_, by decide⟩
  · unfold OrderHandler.DeleteOrder
    rcases req with _ | r
    · rfl
    · dsimp only
      split
      · rfl
      · split <;> rfl
  · unfold OrderHandler.ReturnBook
    rcases req with _ | r
    · rfl
    · dsimp only
      split
      · rfl
      · split <;> rfl

/-! ## C16: no event without a committed write -/

/-- C16: no event without a committed write.  For every repository
implementation, bus state and request, each of the eight emitting handlers
either returns an error and leaves the bus as it was, or the request passed
validation, the use-case write returned a record without error, and the bus
is the result of one `Publish` on the handler's subject, made after that
write, whose payload carries the id of the record the write returned
(`CreateBook`, `CreateUser`, `CreateOrder`, `CreateOffer`) or the ids the
request addressed (`AssignBook`, `UnassignBook`, `DeleteEntry`,
`UpdateEntry`). -/
theorem C16_no_event_without_committed_write {σb σu σo σx σl : Type}
    (books : BookRepository σb) (users : UserRepository σu) (orders : OrderRepository σo)
    (offers : ExchangeRepository σx) (lib : UserBookRepo σl)
    (fmtTime : DateTime → String) (now : DateTime) (newID : ObjectID) (nc : Nats) :
    (∀ (st : σb) (req : Option CreateBookRequest),
      ((∃ e, (BookHandler.CreateBook books st nc req).1 = .error e) ∧
          (BookHandler.CreateBook books st nc req).2.2 = nc) ∨
        (∃ b created st1 resp, req = some ⟨some b⟩ ∧
          bookUseCase.CreateBook books st
            { ID := NilObjectID, Title := b.Title, Author := b.Author, Genre := b.Genre,
              Language := b.Language, Description := b.Description, Rating := b.Rating,
              Price := b.Price, Pages := b.Pages, PublishedDate := b.PublishedDate }
            = (.ok created, st1) ∧
          BookHandler.CreateBook books st nc req
            = (.ok resp, st1, (nc.Publish "book.created" [("id", .str created.ID.Hex),
                ("title", .str created.Title), ("author", .str created.Author)]).2) ∧
          resp.Id = created.ID.Hex)) ∧
    (∀ (st : σu) (req : Option CreateUserRequest),
      ((∃ e, (UserHandler.CreateUser users st nc req).1 = .error e) ∧
          (UserHandler.CreateUser users st nc req).2.2 = nc) ∨
        (∃ u created st1 resp, req = some ⟨some u⟩ ∧
          userUseCase.CreateUser users st
            { ID := NilObjectID, Name := u.Name, Email := u.Email, Password := u.Password }
            = (.ok created, st1) ∧
          UserHandler.CreateUser users st nc req
            = (.ok resp, st1, (nc.Publish "user.created" [("id", .str created.ID.Hex),
                ("name", .str created.Name), ("email", .str created.Email)]).2) ∧
          resp.Id = created.ID.Hex)) ∧
    (∀ (st : σo) (req : Option CreateOrderRequest),
      ((∃ e, (OrderHandler.CreateOrder orders fmtTime newID st nc req).1 = .error e) ∧
          (OrderHandler.CreateOrder orders fmtTime newID st nc req).2.2 = nc) ∨
        (∃ r uid bids created st1, req = some r ∧
          (r.UserId ≠ "" ∧ r.BookIds.length ≠ 0) ∧
          ObjectIDFromHex r.UserId = .ok uid ∧
          OrderHandler.parseBookIDs r.BookIds none = .ok bids ∧
          orderUseCase.CreateOrder orders st
            { ID := newID, UserID := uid, BookIDs := bids, Status := "Created",
              CreatedAt := 0, UpdatedAt := 0 } = (.ok created, st1) ∧
          OrderHandler.CreateOrder orders fmtTime newID st nc req
            = (.ok (OrderHandler.mapDomain fmtTime created), st1,
                (nc.Publish "orders.created" [("order_id", .str created.ID.Hex),
                  ("user_id", .str created.UserID.Hex), ("book_ids", .strs r.BookIds)]).2) ∧
          (OrderHandler.mapDomain fmtTime created).Id = created.ID.Hex)) ∧
    (∀ (st : σx) (c : Redis OffersJSON) (req : Option CreateOfferRequest),
      ((∃ e, (ExchangeHandler.CreateOffer offers fmtTime now st c nc req).1 = .error e) ∧
          (ExchangeHandler.CreateOffer offers fmtTime now st c nc req).2.2.2 = nc) ∨
        (∃ r owner cp created st1 c1, req = some r ∧
          (r.OwnerId ≠ "" ∧ r.CounterpartyId ≠ "" ∧
            r.OfferedBookIds.length ≠ 0 ∧ r.RequestedBookIds.length ≠ 0) ∧
          ObjectIDFromHex r.OwnerId = .ok owner ∧
          ObjectIDFromHex r.CounterpartyId = .ok cp ∧
          exchangeUseCase.CreateOffer offers st c
            { ID := NilObjectID, OwnerID := owner, CounterpartyID := cp,
              OfferedBookIDs := toObjectIDs r.OfferedBookIds,
              RequestedBookIDs := toObjectIDs r.RequestedBookIds,
              Status := "PENDING", CreatedAt := now, UpdatedAt := now }
            = (.ok created, st1, c1) ∧
          ExchangeHandler.CreateOffer offers fmtTime now st c nc req
            = (.ok (mapDomain fmtTime created), st1, c1,
                (nc.Publish "exchange.created" [("offer_id", .str created.ID.Hex)]).2) ∧
          (mapDomain fmtTime created).Id = created.ID.Hex)) ∧
    (∀ (st : σl) (c : Redis UserBooksJSON) (req : AssignBookRequest),
      ((∃ e, (UserLibraryHandler.AssignBook lib newID st c nc req).1 = .error e) ∧
          (UserLibraryHandler.AssignBook lib newID st c nc req).2.2.2 = nc) ∨
        (∃ entry st1 c1, (req.UserId ≠ "" ∧ req.BookId ≠ "") ∧
          userLibraryUseCase.AssignBook lib newID st c req.UserId req.BookId
            = (.ok entry, st1, c1) ∧
          UserLibraryHandler.AssignBook lib newID st c nc req
            = (.ok (toProto entry), st1, c1,
                (nc.Publish "userlibrary.book.assigned"
                  [("user_id", .str req.UserId), ("book_id", .str req.BookId)]).2))) ∧
    (∀ (st : σl) (c : Redis UserBooksJSON) (req : AssignBookRequest),
      ((∃ e, (UserLibraryHandler.UnassignBook lib st c nc req).1 = some e) ∧
          (UserLibraryHandler.UnassignBook lib st c nc req).2.2.2 = nc) ∨
        (∃ st1 c1, (req.UserId ≠ "" ∧ req.BookId ≠ "") ∧
          userLibraryUseCase.UnassignBook lib st c req.UserId req.BookId = (none, st1, c1) ∧
          UserLibraryHandler.UnassignBook lib st c nc req
            = (none, st1, c1,
                (nc.Publish "userlibrary.book.unassigned"
                  [("user_id", .str req.UserId), ("book_id", .str req.BookId)]).2))) ∧
    (∀ (st : σl) (c : Redis UserBooksJSON) (req : EntryIDRequest),
      ((∃ e, (UserLibraryHandler.DeleteEntry lib st c nc req).1 = some e) ∧
          (UserLibraryHandler.DeleteEntry lib st c nc req).2.2.2 = nc) ∨
        (∃ e st1 c1 st2 c2, req.Id ≠ "" ∧
          userLibraryUseCase.GetEntry lib st c req.Id = (.ok e, st1, c1) ∧
          userLibraryUseCase.DeleteEntry lib st1 c1 req.Id = (none, st2, c2) ∧
          UserLibraryHandler.DeleteEntry lib st c nc req
            = (none, st2, c2,
                (nc.Publish "userlibrary.entry.deleted"
                  [("id", .str req.Id), ("user_id", .str e.UserID.Hex)]).2))) ∧
    (∀ (st : σl) (c : Redis UserBooksJSON) (req : UpdateEntryRequest),
      ((∃ e, (UserLibraryHandler.UpdateEntry lib st c nc req).1 = .error e) ∧
          (UserLibraryHandler.UpdateEntry lib st c nc req).2.2.2 = nc) ∨
        (∃ entry oid uo bo updated st1 c1, req.Entry = some entry ∧ entry.Id ≠ "" ∧
          ObjectIDFromHex entry.Id = .ok oid ∧ ObjectIDFromHex entry.UserId = .ok uo ∧
          ObjectIDFromHex entry.BookId = .ok bo ∧
          userLibraryUseCase.UpdateEntry lib st c { ID := oid, UserID := uo, BookID := bo }
            = (.ok updated, st1, c1) ∧
          UserLibraryHandler.UpdateEntry lib st c nc req
            = (.ok (toProto updated), st1, c1,
                (nc.Publish "userlibrary.entry.updated"
                  [("id", .str entry.Id), ("user_id", .str entry.UserId),
                   ("book_id", .str entry.BookId)]).2))) := by
  refine ⟨?_, ?_, ?_, ?_, ?_, ?_, ?_, ?_⟩
  · intro st req
    unfold BookHandler.CreateBook
    rcases req with _ | ⟨_ | b⟩
    · exact Or.inl ⟨⟨_, rfl⟩, rfl⟩
    · exact Or.inl ⟨⟨_, rfl⟩, rfl⟩
    · dsimp only
      rcases h : bookUseCase.CreateBook books st _ with ⟨_ | created, st1⟩
      · exact Or.inl ⟨⟨_, rfl⟩, rfl⟩
      · exact Or.inr ⟨b, created, st1, _, rfl, h, rfl, rfl⟩
  · intro st req
    unfold UserHandler.CreateUser
    rcases req with _ | ⟨_ | u⟩
    · exact Or.inl ⟨⟨_, rfl⟩, rfl⟩
    · exact Or.inl ⟨⟨_, rfl⟩, rfl⟩
    · dsimp only
      rcases h : userUseCase.CreateUser users st _ with ⟨_ | created, st1⟩
      · exact Or.inl ⟨⟨_, rfl⟩, rfl⟩
      · exact Or.inr ⟨u, created, st1, _, rfl, h, rfl, rfl⟩
  · intro st req
    unfold OrderHandler.CreateOrder
    rcases req with _ | r
    · exact Or.inl ⟨⟨_, rfl⟩, rfl⟩
    · dsimp only
      by_cases hv : r.UserId = "" ∨ r.BookIds.length = 0
      · rw [if_pos hv]; exact Or.inl ⟨⟨_, rfl⟩, rfl⟩
      · rw [if_neg hv]
        rcases hu : ObjectIDFromHex r.UserId with _ | uid
        · exact Or.inl ⟨⟨_, rfl⟩, rfl⟩
        · dsimp only
          rcases hb : OrderHandler.parseBookIDs r.BookIds none with _ | bids
          · exact Or.inl ⟨⟨_, rfl⟩, rfl⟩
          · dsimp only
            rcases h : orderUseCase.CreateOrder orders st _ with ⟨_ | created, st1⟩
            · exact Or.inl ⟨⟨_, rfl⟩, rfl⟩
            · exact Or.inr ⟨r, uid, bids, created, st1, rfl, not_or.mp hv, hu, hb, h,
                rfl, rfl⟩
  · intro st c req
    unfold ExchangeHandler.CreateOffer
    rcases req with _ | r
    · exact Or.inl ⟨⟨_, rfl⟩, rfl⟩
    · dsimp only
      by_cases hv : r.OwnerId = "" ∨ r.CounterpartyId = "" ∨
          r.OfferedBookIds.length = 0 ∨ r.RequestedBookIds.length = 0
      · rw [if_pos hv]; exact Or.inl ⟨⟨_, rfl⟩, rfl⟩
      · rw [if_neg hv]
        have hv2 : r.OwnerId ≠ "" ∧ r.CounterpartyId ≠ "" ∧
            r.OfferedBookIds.length ≠ 0 ∧ r.RequestedBookIds.length ≠ 0 := by
          simpa [not_or] using hv
        rcases hu : ObjectIDFromHex r.OwnerId with _ | owner
        · exact Or.inl ⟨⟨_, rfl⟩, rfl⟩
        · dsimp only
          rcases hc : ObjectIDFromHex r.CounterpartyId with _ | cp
          · exact Or.inl ⟨⟨_, rfl⟩, rfl⟩
          · dsimp only
            rcases h : exchangeUseCase.CreateOffer offers st c _ with ⟨_ | created, st1, c1⟩
            · exact Or.inl ⟨⟨_, rfl⟩, rfl⟩
            · exact Or.inr ⟨r, owner, cp, created, st1, c1, rfl, hv2, hu, hc, h, rfl, rfl⟩
  · intro st c req
    unfold UserLibraryHandler.AssignBook
    by_cases hv : req.UserId = "" ∨ req.BookId = ""
    · rw [if_pos hv]; exact Or.inl ⟨⟨_, rfl⟩, rfl⟩
    · rw [if_neg hv]
      rcases h : userLibraryUseCase.AssignBook lib newID st c req.UserId req.BookId
        with ⟨_ | entry, st1, c1⟩
      · exact Or.inl ⟨⟨_, rfl⟩, rfl⟩
      · exact Or.inr ⟨entry, st1, c1, not_or.mp hv, rfl, rfl⟩
  · intro st c req
    unfold UserLibraryHandler.UnassignBook
    by_cases hv : req.UserId = "" ∨ req.BookId = ""
    · rw [if_pos hv]; exact Or.inl ⟨⟨_, rfl⟩, rfl⟩
    · rw [if_neg hv]
      rcases h : userLibraryUseCase.UnassignBook lib st c req.UserId req.BookId
        with ⟨_ | err, st1, c1⟩
      · exact Or.inr ⟨st1, c1, not_or.mp hv, rfl, rfl⟩
      · exact Or.inl ⟨⟨_, rfl⟩, rfl⟩
  · intro st c req
    unfold UserLibraryHandler.DeleteEntry
    by_cases hv : req.Id = ""
    · rw [if_pos hv]; exact Or.inl ⟨⟨_, rfl⟩, rfl⟩
    · rw [if_neg hv]
      rcases hg : userLibraryUseCase.GetEntry lib st c req.Id with ⟨_ | e, st1, c1⟩
      · exact Or.inl ⟨⟨_, rfl⟩, rfl⟩
      · dsimp only
        rcases hd : userLibraryUseCase.DeleteEntry lib st1 c1 req.Id with ⟨_ | err, st2, c2⟩
        · exact Or.inr ⟨e, st1, c1, st2, c2, hv, rfl, hd, rfl⟩
        · exact Or.inl ⟨⟨_, rfl⟩, rfl⟩
  · intro st c req
    unfold UserLibraryHandler.UpdateEntry
    rcases he : req.Entry with _ | entry
    · exact Or.inl ⟨⟨_, rfl⟩, rfl⟩
    · dsimp only
      by_cases hv : entry.Id = ""
      · rw [if_pos hv]; exact Or.inl ⟨⟨_, rfl⟩, rfl⟩
      · rw [if_neg hv]
        rcases h1 : ObjectIDFromHex entry.Id with _ | oid
        · exact Or.inl ⟨⟨_, rfl⟩, rfl⟩
        · dsimp only
          rcases h2 : ObjectIDFromHex entry.UserId with _ | uo
          · exact Or.inl ⟨⟨_, rfl⟩, rfl⟩
          · dsimp only
            rcases h3 : ObjectIDFromHex entry.BookId with _ | bo
            · exact Or.inl ⟨⟨_, rfl⟩, rfl⟩
            · dsimp only
              rcases h : userLibraryUseCase.UpdateEntry lib st c _ with ⟨_ | updated, st1, c1⟩
              · exact Or.inl ⟨⟨_, rfl⟩, rfl⟩
              · exact Or.inr ⟨entry, oid, uo, bo, updated, st1, c1, rfl, hv, h1, h2, h3,
                  h, rfl⟩

/-! ## C18, C19, C20: the notifier -/

theorem Mentions.middle (a s b : String) : Mentions (a ++ s ++ b) s :=
  ⟨a.data, b.data, by simp [String.data_append]⟩

theorem Mentions.append_right {x s : String} (y : String) (h : Mentions x s) :
    Mentions (x ++ y) s := by
  obtain ⟨p, q, hpq⟩ := h
  exact ⟨p, q ++ y.data, by simp [String.data_append, ← hpq]⟩

theorem Notifier.lookup_then_mail (userClient : UserServiceClient) (w : Outbox)
    (id subject body : String) :
    (match Notifier.getEmail userClient w id with
      | (.error _, w1) => w1
      | (.ok email, w1) => w1.sendEmail email subject body).lookups = w.lookups ++ [id] ∧
    (∀ err, userClient id = .error err →
      (match Notifier.getEmail userClient w id with
        | (.error _, w1) => w1
        | (.ok email, w1) => w1.sendEmail email subject body).mails = w.mails) ∧
    ((match Notifier.getEmail userClient w id with
        | (.error _, w1) => w1
        | (.ok email, w1) => w1.sendEmail email subject body).mails = w.mails ∨
      ∃ m, (match Notifier.getEmail userClient w id with
        | (.error _, w1) => w1
        | (.ok email, w1) => w1.sendEmail email subject body).mails = w.mails ++ [m]) := by
  unfold Notifier.getEmail
  rcases h : userClient id with err | user <;> simp [Outbox.sendEmail]

theorem Notifier.lookup_ok_mail (userClient : UserServiceClient) (w : Outbox)
    (id subject body : String) (user : UserPB) (h : userClient id = .ok user) :
    (match Notifier.getEmail userClient w id with
      | (.error _, w1) => w1
      | (.ok email, w1) => w1.sendEmail email subject body)
      = { lookups := w.lookups ++ [id], mails := w.mails ++ [⟨user.Email, subject, body⟩] } := by
  simp [Notifier.getEmail, h, Outbox.sendEmail]

/-- C18: scenario S1, the welcome mail.  For every `user.created` event with
name `n` and e-mail `a` (and every accounts client and earlier record),
`Notifier.SendWelcome` makes no `GetUser` call and calls the e-mail sink
exactly once, with recipient `a` and a body that contains `n`; and the
callback registered on `user.created` does exactly that on the message
`UserHandler.CreateUser` publishes. -/
theorem C18_welcome_mail (userClient : UserServiceClient) (w : Outbox)
    (i n a : String) :
    (∃ subject body,
      Notifier.SendWelcome userClient w ⟨i, n, a⟩
        = { lookups := w.lookups, mails := w.mails ++ [⟨a, subject, body⟩] } ∧
      Mentions body n) ∧
    SubscribeAll.onUserCreated userClient w
        (some [("id", .str i), ("name", .str n), ("email", .str a)])
      = Notifier.SendWelcome userClient w ⟨i, n, a⟩ :=
  ⟨⟨_, _, rfl, Mentions.middle _ _ _⟩, by
    simp [SubscribeAll.onUserCreated, unmarshalUserCreated, Payload.stringField, List.lookup]⟩

/-- C19: drop on lookup failure.  Each of the ten notifier methods other
than `SendWelcome` makes one `GetUser` call, does not call the e-mail sink
when that call returns an error, and calls the sink at most once per
event. -/
theorem C19_drop_on_lookup_failure :
    DropsOnLookupFailure Notifier.SendOrderConfirmation (fun evt => evt.UserID) ∧
    DropsOnLookupFailure Notifier.SendOrderCompleted (fun evt => evt.UserID) ∧
    DropsOnLookupFailure Notifier.SendOrderDeleted (fun evt => evt.UserID) ∧
    DropsOnLookupFailure Notifier.SendOfferCreated (fun evt => evt.OwnerID) ∧
    DropsOnLookupFailure Notifier.SendOfferAccepted (fun evt => evt.OwnerID) ∧
    DropsOnLookupFailure Notifier.SendOfferDeclined (fun evt => evt.OwnerID) ∧
    DropsOnLookupFailure Notifier.SendBookAssigned (fun evt => evt.UserID) ∧
    DropsOnLookupFailure Notifier.SendBookUnassigned (fun evt => evt.UserID) ∧
    DropsOnLookupFailure Notifier.SendEntryDeleted (fun evt => evt.UserID) ∧
    DropsOnLookupFailure Notifier.SendEntryUpdated (fun evt => evt.UserID) := by
  refine ⟨?_, ?_, ?_, ?_, ?_, ?_, ?_, ?_, ?_, ?_⟩ <;>
  · intro userClient w evt
    exact Notifier.lookup_then_mail userClient w _ _ _

/-- Witness for C19: with the accounts service down, an `order.deleted`
event leaves the sink uncalled; one lookup has been made. -/
theorem C19_drop_on_lookup_failure_witness :
    (Notifier.SendOrderDeleted accountsDown emptyOutbox ⟨"o1", lowerSpelling, none⟩).mails = [] ∧
    (Notifier.SendOrderDeleted accountsDown emptyOutbox ⟨"o1", lowerSpelling, none⟩).lookups
      = [lowerSpelling] :=
  ⟨(C19_drop_on_lookup_failure.2.2.1 accountsDown emptyOutbox ⟨"o1", lowerSpelling, none⟩).2.1
      (.status "Unavailable" "no connection") rfl,
   (C19_drop_on_lookup_failure.2.2.1 accountsDown emptyOutbox ⟨"o1", lowerSpelling, none⟩).1⟩

/-- C20: recipient resolution and body content.  For each of the ten
notifier methods other than `SendWelcome`, when `GetUser` succeeds the
lookup was made with the event's `UserID` (order and library events) or
`OwnerID` (offer events), the sink is called exactly once with the e-mail
address of the response as recipient, and the body contains the event's
primary id: the order id, the offer id, the book id (assigned, unassigned)
or the entry id (entry deleted, updated). -/
theorem C20_recipient_and_body :
    MailsTheUser Notifier.SendOrderConfirmation (fun evt => evt.UserID)
      (fun evt => evt.OrderID) ∧
    MailsTheUser Notifier.SendOrderCompleted (fun evt => evt.UserID) (fun evt => evt.OrderID) ∧
    MailsTheUser Notifier.SendOrderDeleted (fun evt => evt.UserID) (fun evt => evt.OrderID) ∧
    MailsTheUser Notifier.SendOfferCreated (fun evt => evt.OwnerID) (fun evt => evt.OfferID) ∧
    MailsTheUser Notifier.SendOfferAccepted (fun evt => evt.OwnerID) (fun evt => evt.OfferID) ∧
    MailsTheUser Notifier.SendOfferDeclined (fun evt => evt.OwnerID) (fun evt => evt.OfferID) ∧
    MailsTheUser Notifier.SendBookAssigned (fun evt => evt.UserID) (fun evt => evt.BookID) ∧
    MailsTheUser Notifier.SendBookUnassigned (fun evt => evt.UserID) (fun evt => evt.BookID) ∧
    MailsTheUser Notifier.SendEntryDeleted (fun evt => evt.UserID) (fun evt => evt.EntryID) ∧
    MailsTheUser Notifier.SendEntryUpdated (fun evt => evt.UserID)
      (fun evt => evt.EntryID) := by
  refine ⟨?_, ?_, ?_, ?_, ?_, ?_, ?_, ?_, ?_, ?_⟩ <;>
  · intro userClient w evt user h
    first
      | exact ⟨_, _, Notifier.lookup_ok_mail userClient w _ _ _ user h, Mentions.middle _ _ _⟩
      | exact ⟨_, _, Notifier.lookup_ok_mail userClient w _ _ _ user h,
          Mentions.append_right _ (Mentions.append_right _ (Mentions.middle _ _ _))⟩

/-- Witness for C20: an `exchange.accepted` event whose owner is Ada sends
one mail to Ada's address, after one lookup of the owner id. -/
theorem C20_recipient_and_body_witness :
    ∃ subject body,
      Notifier.SendOfferAccepted accountsWithAda emptyOutbox ⟨"f1", lowerSpelling, "c1"⟩
        = { lookups := emptyOutbox.lookups ++ [lowerSpelling],
            mails := emptyOutbox.mails ++ [⟨"ada@example.org", subject, body⟩] } ∧
      Mentions body "f1" :=
  C20_recipient_and_body.2.2.2.2.1 accountsWithAda emptyOutbox ⟨"f1", lowerSpelling, "c1"⟩
    ⟨lowerSpelling, "Ada", "ada@example.org", "secret"⟩ (by decide)

/-! ## C21: scenario S6, a library update -/

theorem ObjectIDFromHex_ne_empty {s : String} {oid : ObjectID}
    (h : ObjectIDFromHex s = .ok oid) : s ≠ "" := by
  intro h0
  have hbad : ObjectIDFromHex "" = .error .invalidHex := by decide
  rw [h0, hbad] at h
  cases h

/-- C21: scenario S6, library update.  For every `UpdateEntry` request whose
entry id, user id and new book id `b2` parse and whose use-case write
succeeds, the handler returns the updated entry and its effect on the bus is
that of exactly one `Publish` on `userlibrary.entry.updated` with the fields
`id`, `user_id` and `book_id = b2` of the request (the one message added when
the bus accepts it); and on that message the subscriber's callback is
`Notifier.SendEntryUpdated` on the decoded event, which, when the lookup of
the user succeeds, sends one mail whose body contains both the entry id and
`b2`. -/
theorem C21_library_update_emits_entry_updated {σ : Type} (lib : UserBookRepo σ)
    (st st1 : σ) (c c1 : Redis UserBooksJSON) (nc : Nats) (entry : UserBookPB)
    (oid uo bo : ObjectID) (updated : UserBook)
    (hid : ObjectIDFromHex entry.Id = .ok oid)
    (hu : ObjectIDFromHex entry.UserId = .ok uo)
    (hb : ObjectIDFromHex entry.BookId = .ok bo)
    (hw : userLibraryUseCase.UpdateEntry lib st c { ID := oid, UserID := uo, BookID := bo }
            = (.ok updated, st1, c1)) :
    UserLibraryHandler.UpdateEntry lib st c nc ⟨some entry⟩
      = (.ok (toProto updated), st1, c1,
          (nc.Publish "userlibrary.entry.updated"
            [("id", .str entry.Id), ("user_id", .str entry.UserId),
             ("book_id", .str entry.BookId)]).2) ∧
    ((nc.Publish "userlibrary.entry.updated"
        [("id", .str entry.Id), ("user_id", .str entry.UserId),
         ("book_id", .str entry.BookId)]).1 = none →
      (UserLibraryHandler.UpdateEntry lib st c nc ⟨some entry⟩).2.2.2.published
        = nc.published ++ [("userlibrary.entry.updated",
            [("id", .str entry.Id), ("user_id", .str entry.UserId),
             ("book_id", .str entry.BookId)])]) ∧
    (∀ (userClient : UserServiceClient) (w : Outbox) (user : UserPB),
      SubscribeAll.onEntryUpdated userClient w
          (some [("id", .str entry.Id), ("user_id", .str entry.UserId),
                 ("book_id", .str entry.BookId)])
        = Notifier.SendEntryUpdated userClient w ⟨entry.Id, entry.UserId, entry.BookId⟩ ∧
      (userClient entry.UserId = .ok user →
        ∃ subject body,
          Notifier.SendEntryUpdated userClient w ⟨entry.Id, entry.UserId, entry.BookId⟩
            = { lookups := w.lookups ++ [entry.UserId],
                mails := w.mails ++ [⟨user.Email, subject, body⟩] } ∧
          Mentions body entry.Id ∧ Mentions body entry.BookId)) := by
  have hne : entry.Id ≠ "" := ObjectIDFromHex_ne_empty hid
  have hres : UserLibraryHandler.UpdateEntry lib st c nc ⟨some entry⟩
      = (.ok (toProto updated), st1, c1,
          (nc.Publish "userlibrary.entry.updated"
            [("id", .str entry.Id), ("user_id", .str entry.UserId),
             ("book_id", .str entry.BookId)]).2) := by
    simp only [UserLibraryHandler.UpdateEntry, hne, if_false, hid, hu, hb, hw]
  refine ⟨hres, ?_, ?_⟩
  · intro hpub
    rw [hres]
    exact (Nats.Publish_accepted nc _ _ hpub)
  · intro userClient w user
    refine ⟨?_, ?_⟩
    · simp [SubscribeAll.onEntryUpdated, unmarshalEntryUpdated, Payload.stringField,
        List.lookup]
    · intro hok
      exact ⟨_, _, Notifier.lookup_ok_mail userClient w _ _ _ user hok,
        Mentions.append_right _ (Mentions.append_right _ (Mentions.middle _ _ _)),
        Mentions.middle _ _ _⟩

/-- Witness for C21: the request to give the stored document `...07` of
user `...01` the book `...03` in place of `...02`; the bus, empty before,
holds the one `userlibrary.entry.updated` message with `book_id` `...03`. -/
theorem C21_library_update_emits_entry_updated_witness :
    (UserLibraryHandler.UpdateEntry mongoUserBookRepo sampleUserBookStore Redis.empty upBus
        ⟨some sampleUpdateEntry⟩).2.2.2.published
      = [("userlibrary.entry.updated",
          [("id", .str "000000000000000000000007"),
           ("user_id", .str "000000000000000000000001"),
           ("book_id", .str "000000000000000000000003")])] :=
  (C21_library_update_emits_entry_updated mongoUserBookRepo sampleUserBookStore
    (userLibraryUseCase.UpdateEntry mongoUserBookRepo sampleUserBookStore Redis.empty
      ⟨⟨7⟩, ⟨1⟩, ⟨3⟩⟩).2.1
    Redis.empty
    (userLibraryUseCase.UpdateEntry mongoUserBookRepo sampleUserBookStore Redis.empty
      ⟨⟨7⟩, ⟨1⟩, ⟨3⟩⟩).2.2
    upBus sampleUpdateEntry ⟨7⟩ ⟨1⟩ ⟨3⟩ sampleUserBook
    (by decide) (by decide) (by decide) (by decide)).2.1 (by decide)

/-! ## C22: the subjects the notification service subscribes to -/

theorem Subscriptions.Subscribe_ok (s : Subscriptions) (subject : String)
    (h : ∀ f ∈ s.faults, f = none) :
    s.Subscribe subject = (none, ⟨s.subjects ++ [subject], s.faults.tail⟩) := by
  unfold Subscriptions.Subscribe
  cases hf : s.faults with
  | nil => rfl
  | cons f fs =>
    have : f = none := h f (by simp [hf])
    subst this
    rfl

theorem subscribeEach_ok (l : List String) (s : Subscriptions)
    (h : ∀ f ∈ s.faults, f = none) :
    (subscribeEach l s).1 = none ∧ (subscribeEach l s).2.subjects = s.subjects ++ l := by
  induction l generalizing s with
  | nil => simp [subscribeEach]
  | cons x xs ih =>
    have h1 : ∀ f ∈ (⟨s.subjects ++ [x], s.faults.tail⟩ : Subscriptions).faults, f = none :=
      fun f hf => h f (List.mem_of_mem_tail hf)
    obtain ⟨a, b⟩ := ih ⟨s.subjects ++ [x], s.faults.tail⟩ h1
    simp only [subscribeEach, Subscriptions.Subscribe_ok s x h]
    exact ⟨a, by rw [b]; simp⟩

/-- C22 (counterexample): on a connection where every `Subscribe` succeeds,
`SubscribeAll` returns without error and `book.created` is not among the
subscribed subjects, although `BookHandler.CreateBook` publishes its message
on `book.created`. -/
theorem C22_book_created_has_no_subscriber :
    (SubscribeAll freshSubscriptions).1 = none ∧
    "book.created" ∉ (SubscribeAll freshSubscriptions).2.subjects ∧
    (BookHandler.CreateBook (mongoBookRepo noTextMatch) emptyBookStore upBus
        (some sampleCreateBook)).2.2.published.map (fun m => m.1) = ["book.created"] := by
  decide

/-- C22 (amended): when no `Subscribe` call fails, `SubscribeAll` returns
without error and registers a handler for each of `user.created`,
`orders.created`, `order.completed`, `order.deleted`, `exchange.accepted`,
`exchange.declined`, `exchange.offered` and the four `userlibrary.*`
subjects; it does not subscribe to `book.created` (that subject is
subscribed afterwards only if it was before). -/
theorem C22_subscribed_subjects (s : Subscriptions) (h : ∀ f ∈ s.faults, f = none) :
    (SubscribeAll s).1 = none ∧
    (∀ subject ∈ ["user.created", "orders.created", "order.completed", "order.deleted",
        "exchange.accepted", "exchange.declined", "exchange.offered",
        "userlibrary.book.assigned", "userlibrary.book.unassigned",
        "userlibrary.entry.deleted", "userlibrary.entry.updated"],
      subject ∈ (SubscribeAll s).2.subjects) ∧
    ("book.created" ∈ (SubscribeAll s).2.subjects → "book.created" ∈ s.subjects) := by
  obtain ⟨a, b⟩ := subscribeEach_ok
    ["orders.created", "user.created", "order.completed", "order.deleted",
     "exchange.offered", "exchange.accepted", "exchange.declined",
     "userlibrary.book.assigned", "userlibrary.book.unassigned",
     "userlibrary.entry.deleted", "userlibrary.entry.updated"] s h
  refine ⟨a, ?_, ?_⟩
  · intro subject hs
    show subject ∈ (subscribeEach _ s).2.subjects
    rw [b]
    refine List.mem_append_right _ ?_
    simp only [List.mem_cons, List.mem_singleton, List.not_mem_nil, or_false] at hs ⊢
    tauto
  · intro hin
    have hin2 : "book.created" ∈ (subscribeEach _ s).2.subjects := hin
    rw [b] at hin2
    rcases List.mem_append.mp hin2 with h1 | h2
    · exact h1
    · exact absurd h2 (by decide)

/-- Witness for C22 (amended): after `SubscribeAll` on a fresh connection
`userlibrary.entry.updated` is subscribed. -/
theorem C22_subscribed_subjects_witness :
    "userlibrary.entry.updated" ∈ (SubscribeAll freshSubscriptions).2.subjects :=
  (C22_subscribed_subjects freshSubscriptions (by intro f hf; cases hf)).2.1
    "userlibrary.entry.updated" (by decide)

/-! ## Strings as cache keys -/

theorem append_ne_of_char_ne (p q x y : String) (i : Nat) (hp : i < p.data.length)
    (hq : i < q.data.length) (h : p.data[i]? ≠ q.data[i]?) : p ++ x ≠ q ++ y := by
  intro heq
  have h0 := congrArg String.data heq
  simp only [String.data_append] at h0
  have h1 : (p.data ++ x.data)[i]? = p.data[i]? := List.getElem?_append_left hp
  have h2 : (q.data ++ y.data)[i]? = q.data[i]? := List.getElem?_append_left hq
  rw [h0, h2] at h1
  exact h h1.symm

theorem append_left_cancel_str (p a b : String) (h : p ++ a = p ++ b) : a = b := by
  have h0 := congrArg String.data h
  simp only [String.data_append, List.append_cancel_left_eq] at h0
  exact String.ext h0

theorem pending_ne_user_key (x : String) :
    "exchange:offers:pending" ≠ "exchange:offers:user:" ++ x := by
  have h := append_ne_of_char_ne "exchange:offers:pending" "exchange:offers:user:" "" x 16
    (by decide) (by decide) (by decide)
  simpa using h

theorem Redis.Del_log {β : Type} (r : Redis β) (key : String) :
    (r.Del key).2.log = r.log ++ [.del key] := by
  unfold Redis.Del
  cases r.fault <;> rfl

/-! ## C23: offer writes and the exchange cache -/

/-- The two invalidations of a successful offer write: `DEL` of the pending
list, then `DEL` of the list of `owner`, and nothing else; with the cache
reachable both keys are absent afterwards. -/
theorem RedisExchangeCache.invalidate_pending_then_user (c : Redis OffersJSON)
    (owner : String) :
    ((RedisExchangeCache.InvalidateUser (RedisExchangeCache.InvalidatePending c).2 owner).2.log
      = c.log ++ [.del "exchange:offers:pending", .del ("exchange:offers:user:" ++ owner)]) ∧
    (c.healthy →
      (RedisExchangeCache.InvalidateUser (RedisExchangeCache.InvalidatePending c).2
          owner).2.entry "exchange:offers:pending" = none ∧
      (RedisExchangeCache.InvalidateUser (RedisExchangeCache.InvalidatePending c).2
          owner).2.entry ("exchange:offers:user:" ++ owner) = none) := by
  unfold RedisExchangeCache.InvalidateUser RedisExchangeCache.InvalidatePending
  refine ⟨by rw [Redis.Del_log, Redis.Del_log]; simp, fun hc => ⟨?_, ?_⟩⟩
  · rw [Redis.entry_Del_other _ (pending_ne_user_key owner)]
    exact Redis.entry_Del_self hc _
  · exact Redis.entry_Del_self (Redis.healthy_Del hc _) _

/-- C23: offer writes invalidate the pending list and exactly the owner's
list.  For every repository implementation: when `CreateOffer`,
`DeclineOffer` or `DeleteOffer` of the use case succeeds, the cache has been
sent `DEL` of the pending list and then one `DEL` of a user list, that of the
hex id of the offer's owner (the input's for `CreateOffer`, the returned
offer's for `DeclineOffer`, the fetched offer's for `DeleteOffer`), and
nothing else; with the cache reachable both keys are absent afterwards.  The
offer `mongoExchangeRepo.CreateOffer` returns has the `OwnerID` of the
input. -/
theorem C23_offer_writes_invalidate_pending_and_owner {σ : Type}
    (repo : ExchangeRepository σ) (st st1 st2 : σ) (c : Redis OffersJSON)
    (offer o : ExchangeOffer) (id : String) :
    (repo.CreateOffer st offer = (.ok o, st1) →
      ∃ c2, exchangeUseCase.CreateOffer repo st c offer = (.ok o, st1, c2) ∧
        c2.log = c.log ++ [.del "exchange:offers:pending",
          .del ("exchange:offers:user:" ++ offer.OwnerID.Hex)] ∧
        (c.healthy → c2.entry "exchange:offers:pending" = none ∧
          c2.entry ("exchange:offers:user:" ++ offer.OwnerID.Hex) = none)) ∧
    (repo.DeclineOffer st id = (.ok o, st1) →
      ∃ c2, exchangeUseCase.DeclineOffer repo st c id = (.ok o, st1, c2) ∧
        c2.log = c.log ++ [.del "exchange:offers:pending",
          .del ("exchange:offers:user:" ++ o.OwnerID.Hex)] ∧
        (c.healthy → c2.entry "exchange:offers:pending" = none ∧
          c2.entry ("exchange:offers:user:" ++ o.OwnerID.Hex) = none)) ∧
    (repo.GetOffer st id = (.ok o, st1) → repo.DeleteOffer st1 id = (none, st2) →
      ∃ c2, exchangeUseCase.DeleteOffer repo st c id = (none, st2, c2) ∧
        c2.log = c.log ++ [.del "exchange:offers:pending",
          .del ("exchange:offers:user:" ++ o.OwnerID.Hex)] ∧
        (c.healthy → c2.entry "exchange:offers:pending" = none ∧
          c2.entry ("exchange:offers:user:" ++ o.OwnerID.Hex) = none)) ∧
    (∀ (mt mt1 : Collection OfferDoc) (created : ExchangeOffer),
      mongoExchangeRepo.CreateOffer mt offer = (.ok created, mt1) →
      created.OwnerID = offer.OwnerID) := by
  refine ⟨?_, ?_, ?_, ?_⟩
  · intro h
    obtain ⟨hl, he⟩ := RedisExchangeCache.invalidate_pending_then_user c offer.OwnerID.Hex
    exact ⟨_, by simp only [exchangeUseCase.CreateOffer, h], hl, he⟩
  · intro h
    obtain ⟨hl, he⟩ := RedisExchangeCache.invalidate_pending_then_user c o.OwnerID.Hex
    exact ⟨_, by simp only [exchangeUseCase.DeclineOffer, h], hl, he⟩
  · intro h hd
    obtain ⟨hl, he⟩ := RedisExchangeCache.invalidate_pending_then_user c o.OwnerID.Hex
    exact ⟨_, by simp only [exchangeUseCase.DeleteOffer, h, hd], hl, he⟩
  · intro mt mt1 created h
    unfold mongoExchangeRepo.CreateOffer at h
    dsimp only [Collection.NewObjectID] at h
    split at h
    · cases h
    · cases h
      rfl

/-- Witness for C23: declining the stored sample offer, whose owner is
`...01`, sends the cache `DEL` of the pending list and `DEL` of the list of
`...01`. -/
theorem C23_offer_writes_invalidate_pending_and_owner_witness :
    ∃ c2, exchangeUseCase.DeclineOffer mongoExchangeRepo sampleOfferStore Redis.empty
        lowerSpelling
        = (.ok { sampleOffer with Status := "DECLINED" },
            (mongoExchangeRepo.DeclineOffer sampleOfferStore lowerSpelling).2, c2) ∧
      c2.log = (Redis.empty : Redis OffersJSON).log ++ [.del "exchange:offers:pending",
        .del ("exchange:offers:user:" ++ "000000000000000000000001")] ∧
      ((Redis.empty : Redis OffersJSON).healthy →
        c2.entry "exchange:offers:pending" = none ∧
        c2.entry ("exchange:offers:user:" ++ "000000000000000000000001") = none) :=
  (C23_offer_writes_invalidate_pending_and_owner mongoExchangeRepo sampleOfferStore
    (mongoExchangeRepo.DeclineOffer sampleOfferStore lowerSpelling).2
    (mongoExchangeRepo.DeclineOffer sampleOfferStore lowerSpelling).2
    Redis.empty sampleOffer { sampleOffer with Status := "DECLINED" }
    lowerSpelling).2.1 (by decide)

/-! ## C24: accepting an offer -/

/-- C24 (code bug): `exchangeUseCase.AcceptOffer` makes no call of the
library client: for every repository implementation, state and arguments the
library client is left as it was.  In particular the successful call on the
stored sample offer (one offered book, one requested book) returns the offer
as `ACCEPTED` and sends the cache `DEL` of the pending list and of two user
lists (the owner's and the requester's), while the library client has
received no `UnassignBook` and no `AssignBook` call. -/
theorem C24_accept_offer_makes_no_library_call {σ : Type} (repo : ExchangeRepository σ)
    (u : ExchangeUseCaseState σ) (offerID requesterID : String) :
    (exchangeUseCase.AcceptOffer.run repo u offerID requesterID).2.libClient = u.libClient ∧
    (let r := exchangeUseCase.AcceptOffer.run mongoExchangeRepo
       ⟨sampleOfferStore, Redis.empty, idleLibraryClient⟩ lowerSpelling
       "000000000000000000000002"
     r.1 = .ok { sampleOffer with Status := "ACCEPTED" } ∧
     (sampleOffer.OfferedBookIDs.elems.length = 1 ∧
       sampleOffer.RequestedBookIDs.elems.length = 1) ∧
     r.2.cache.log = [.del "exchange:offers:pending",
       .del "exchange:offers:user:000000000000000000000001",
       .del "exchange:offers:user:000000000000000000000002"] ∧
     r.2.libClient.unassignCalls.length = 0 ∧ r.2.libClient.assignCalls.length = 0) :=
  ⟨rfl, by decide⟩

/-! ## C25: read paths of the exchange use case -/

/-- C25: the exchange read paths are pure delegations.  For every repository
implementation, state and argument, `ListOffersByUser` is one call of the
cache's `ListByUser` and `ListPendingOffers` one call of the cache's
`ListPending` (same result, same store and cache state afterwards), and
`GetOfferByID` returns the result of the repository's `GetOffer`, leaves the
store as that call leaves it and does not touch the cache; so when the
repository returns an error, `GetOfferByID` returns that error. -/
theorem C25_exchange_reads_delegate {σ : Type} (repo : ExchangeRepository σ)
    (ttl : Duration) (st : σ) (c : Redis OffersJSON) (ownerID id : String) :
    exchangeUseCase.ListOffersByUser repo ttl st c ownerID
      = RedisExchangeCache.ListByUser repo ttl st c ownerID ∧
    exchangeUseCase.ListPendingOffers repo ttl st c
      = RedisExchangeCache.ListPending repo ttl st c ∧
    exchangeUseCase.GetOfferByID repo st c id
      = ((repo.GetOffer st id).1, (repo.GetOffer st id).2, c) ∧
    (∀ e st1, repo.GetOffer st id = (.error e, st1) →
      exchangeUseCase.GetOfferByID repo st c id = (.error e, st1, c)) := by
  refine ⟨rfl, rfl, rfl, ?_⟩
  intro e st1 h
  simp only [exchangeUseCase.GetOfferByID, h]

/-- Witness for C25: the id `err` is no hex id, the repository returns an
error and so does `GetOfferByID`. -/
theorem C25_exchange_reads_delegate_witness :
    exchangeUseCase.GetOfferByID mongoExchangeRepo sampleOfferStore Redis.empty "err"
      = (.error .invalidHex, sampleOfferStore, Redis.empty) :=
  (C25_exchange_reads_delegate mongoExchangeRepo exchangeCacheTTL sampleOfferStore
    Redis.empty "u1" "err").2.2.2 .invalidHex sampleOfferStore (by decide)

/-! ## C26, C29: library writes and the cached list of a user -/

/-- C26 (code bug): `userLibraryUseCase.DeleteEntry` does not touch the
cache, on any path.  In particular: user `...01` is assigned the book
`...02`, which stores the entry in the document `...07`; an `UpdateEntry` on
that document writes its `user_id`; `ListUserBooks` of the user reads the
entry from the store and caches the list; the successful `DeleteEntry` of
`...07` removes the document and leaves `user_books:...01` in the cache, so
the next `ListUserBooks` of the user is served from the cache (the store is
not read) and still contains the deleted entry. -/
theorem C26_delete_entry_leaves_cached_list {σ : Type} (repo : UserBookRepo σ) (st : σ)
    (c : Redis UserBooksJSON) (id : String) :
    (userLibraryUseCase.DeleteEntry repo st c id).2.2 = c ∧
    (let r0 := userLibraryUseCase.AssignBook mongoUserBookRepo ⟨5⟩ freshUserBookStore
       Redis.empty "000000000000000000000001" "000000000000000000000002"
     let r1 := userLibraryUseCase.UpdateEntry mongoUserBookRepo r0.2.1 r0.2.2 ⟨⟨7⟩, ⟨1⟩, ⟨2⟩⟩
     let r2 := userLibraryUseCase.ListUserBooks mongoUserBookRepo userLibraryCacheTTL
       r1.2.1 r1.2.2 "000000000000000000000001"
     let r3 := userLibraryUseCase.DeleteEntry mongoUserBookRepo r2.2.1 r2.2.2
       "000000000000000000000007"
     let r4 := userLibraryUseCase.ListUserBooks mongoUserBookRepo userLibraryCacheTTL
       r3.2.1 r3.2.2 "000000000000000000000001"
     r0.1 = .ok sampleUserBook ∧ r0.2.1.docs = [sampleUserBookDoc] ∧
     r1.1 = .ok sampleUserBook ∧
     r1.2.1.docs = [{ sampleUserBookDoc with user_id := some ⟨1⟩, book_id := some ⟨2⟩ }] ∧
     r2.1 = .ok (some [sampleUserBook]) ∧
     r3.1 = none ∧ r3.2.1.docs = [] ∧ r3.2.2 = r2.2.2 ∧
     r3.2.2.entry "user_books:000000000000000000000001"
       = some (.list (some [sampleUserBook]), userLibraryCacheTTL) ∧
     r4.1 = .ok (some [sampleUserBook]) ∧ r4.2.1 = r3.2.1) :=
  ⟨rfl, by decide⟩

/-- C29 (code bug): `userLibraryUseCase.UpdateEntry` sends the cache at most
one `DEL`, that of the list of the owner named in its argument (the new
owner).  In particular: user `...01` is assigned the book `...02`, which
stores the entry in the document `...07`; an `UpdateEntry` on that document
writes its `user_id`; `ListUserBooks` of user `...01` reads the entry from
the store and caches the list; the successful `UpdateEntry` that hands the
document to user `...03` sends `DEL user_books:...03` only, so the next
`ListUserBooks` of user `...01` is served from the cache and still contains
the entry, which the store now lists for user `...03` and no longer for user
`...01`. -/
theorem C29_update_entry_leaves_old_owner_list {σ : Type} (repo : UserBookRepo σ) (st : σ)
    (c : Redis UserBooksJSON) (ub : UserBook) :
    ((userLibraryUseCase.UpdateEntry repo st c ub).2.2 = c ∨
      (userLibraryUseCase.UpdateEntry repo st c ub).2.2
        = (RedisUserLibraryCache.Invalidate c ub.UserID.Hex).2) ∧
    (let r0 := userLibraryUseCase.AssignBook mongoUserBookRepo ⟨5⟩ freshUserBookStore
       Redis.empty "000000000000000000000001" "000000000000000000000002"
     let r1 := userLibraryUseCase.UpdateEntry mongoUserBookRepo r0.2.1 r0.2.2 ⟨⟨7⟩, ⟨1⟩, ⟨2⟩⟩
     let r2 := userLibraryUseCase.ListUserBooks mongoUserBookRepo userLibraryCacheTTL
       r1.2.1 r1.2.2 "000000000000000000000001"
     let r3 := userLibraryUseCase.UpdateEntry mongoUserBookRepo r2.2.1 r2.2.2 ⟨⟨7⟩, ⟨3⟩, ⟨2⟩⟩
     let r4 := userLibraryUseCase.ListUserBooks mongoUserBookRepo userLibraryCacheTTL
       r3.2.1 r3.2.2 "000000000000000000000001"
     r0.2.1.docs = [sampleUserBookDoc] ∧
     r1.2.1.docs = [{ sampleUserBookDoc with user_id := some ⟨1⟩, book_id := some ⟨2⟩ }] ∧
     r2.1 = .ok (some [sampleUserBook]) ∧
     r3.1.toOption.isSome = true ∧
     r3.2.1.docs = [{ sampleUserBookDoc with user_id := some ⟨3⟩, book_id := some ⟨2⟩ }] ∧
     r3.2.2.log = r2.2.2.log ++ [.del "user_books:000000000000000000000003"] ∧
     (mongoUserBookRepo.ListUserBooks r3.2.1 "000000000000000000000001").1 = .ok none ∧
     (mongoUserBookRepo.ListUserBooks r3.2.1 "000000000000000000000003").1
       = .ok (some [sampleUserBook]) ∧
     r4.1 = .ok (some [sampleUserBook]) ∧ r4.2.1 = r3.2.1) := by
  refine ⟨?_, by decide⟩
  unfold userLibraryUseCase.UpdateEntry
  split
  · exact Or.inl rfl
  · exact Or.inr rfl

/-! ## C27: malformed ids in `CreateOffer` -/

/-- C27 (counterexample): the only offered book id of the request is no hex
id, yet `ExchangeHandler.CreateOffer` returns an offer without error: the
zero id stands in the place of the malformed one, the offer is stored and
the event is published. -/
theorem C27_malformed_book_id_is_accepted :
    ObjectIDFromHex "not-an-id" = .error .invalidHex ∧
    (let r := ExchangeHandler.CreateOffer mongoExchangeRepo (fun _ => "") 0 emptyOfferStore
       Redis.empty upBus (some malformedBookOffer)
     r.1.toOption.map (fun pb => pb.OfferedBookIds) = some ["000000000000000000000000"] ∧
     r.2.1.docs.map (fun d => d.fields.OfferedBookIDs) = [some [NilObjectID]] ∧
     r.2.2.2.published.map (fun m => m.1) = ["exchange.created"]) := by
  decide

/-- C27 (amended): for every `ExchangeHandler.CreateOffer` request whose
owner id or counterparty id is no valid hex id, the handler returns an
`InvalidArgument` error, leaves store and cache as they were (no offer is
stored) and publishes nothing.  The elements of the two book id lists are
not validated: a request with valid owner and counterparty ids and
non-empty lists is never answered with `InvalidArgument`, whatever the
strings in its lists. -/
theorem C27_malformed_owner_or_counterparty_is_rejected {σ : Type}
    (repo : ExchangeRepository σ) (fmtTime : DateTime → String) (now : DateTime) (st : σ)
    (c : Redis OffersJSON) (nc : Nats) (r : CreateOfferRequest) :
    (((∃ e, ObjectIDFromHex r.OwnerId = .error e) ∨
        (∃ e, ObjectIDFromHex r.CounterpartyId = .error e)) →
      ∃ msg, ExchangeHandler.CreateOffer repo fmtTime now st c nc (some r)
        = (.error (.status "InvalidArgument" msg), st, c, nc)) ∧
    (∀ owner cp, ObjectIDFromHex r.OwnerId = .ok owner →
      ObjectIDFromHex r.CounterpartyId = .ok cp →
      r.OfferedBookIds ≠ [] → r.RequestedBookIds ≠ [] →
      ∀ msg, (ExchangeHandler.CreateOffer repo fmtTime now st c nc (some r)).1
        ≠ .error (.status "InvalidArgument" msg)) := by
  constructor
  · intro hbad
    unfold ExchangeHandler.CreateOffer
    dsimp only
    split
    · exact ⟨_, rfl⟩
    · rcases ho : ObjectIDFromHex r.OwnerId with e1 | owner
      · exact ⟨_, rfl⟩
      · dsimp only
        rcases hc : ObjectIDFromHex r.CounterpartyId with e2 | cp
        · exact ⟨_, rfl⟩
        · rcases hbad with ⟨e, he⟩ | ⟨e, he⟩
          · rw [ho] at he; cases he
          · rw [hc] at he; cases he
  · intro owner cp ho hc h1 h2 msg
    have hno : r.OwnerId ≠ "" := ObjectIDFromHex_ne_empty ho
    have hnc : r.CounterpartyId ≠ "" := ObjectIDFromHex_ne_empty hc
    have hl1 : r.OfferedBookIds.length ≠ 0 := fun h0 => h1 (List.length_eq_zero.mp h0)
    have hl2 : r.RequestedBookIds.length ≠ 0 := fun h0 => h2 (List.length_eq_zero.mp h0)
    simp only [ExchangeHandler.CreateOffer, hno, hnc, hl1, hl2, or_self, if_false, ho, hc]
    split
    · intro h; cases h
    · intro h; cases h

/-- Witness for C27 (amended): the counterparty id `nobody` is rejected;
nothing is stored and nothing published. -/
theorem C27_malformed_owner_or_counterparty_is_rejected_witness :
    ∃ msg, ExchangeHandler.CreateOffer mongoExchangeRepo (fun _ => "") 0 emptyOfferStore
        Redis.empty upBus (some malformedCounterpartyOffer)
      = (.error (.status "InvalidArgument" msg), emptyOfferStore, Redis.empty, upBus) :=
  (C27_malformed_owner_or_counterparty_is_rejected mongoExchangeRepo (fun _ => "") 0
    emptyOfferStore Redis.empty upBus malformedCounterpartyOffer).1
    (Or.inr ⟨.invalidHex, by decide⟩)

/-! ## C28: cache keys -/

theorem append_ne_lit (p x q : String) (i : Nat) (hp : i < p.data.length)
    (hq : i < q.data.length) (h : p.data[i]? ≠ q.data[i]?) : p ++ x ≠ q := by
  have h0 := append_ne_of_char_ne p q x "" i hp hq h
  simpa using h0

theorem lit_ne_append (p q y : String) (i : Nat) (hp : i < p.data.length)
    (hq : i < q.data.length) (h : p.data[i]? ≠ q.data[i]?) : p ≠ q ++ y := by
  have h0 := append_ne_of_char_ne p q "" y i hp hq h
  simpa using h0

theorem keyFamilies_pairwise :
    keyFamilies.Pairwise (fun f g => ∀ x y, f x ≠ g y) := by
  simp only [keyFamilies, List.pairwise_cons, List.mem_cons, List.mem_singleton,
    forall_eq_or_imp, forall_eq, List.not_mem_nil, false_implies, implies_true,
    List.Pairwise.nil, and_true, cachedBookRepo.getCacheKeyForBook,
    cachedBookRepo.getCacheKeyForList, orderCache.orderKey, orderCache.userOrdersKey, userKey]
  refine ⟨⟨?_, ?_, ?_, ?_, ?_, ?_, ?_⟩, ⟨?_, ?_, ?_, ?_, ?_, ?_⟩, ⟨?_, ?_, ?_, ?_, ?_⟩,
    ⟨?_, ?_, ?_, ?_⟩, ⟨?_, ?_, ?_⟩, ⟨?_, ?_⟩, ?_⟩ <;> intro x y <;>
  first
    | exact append_ne_of_char_ne _ _ x y 0 (by decide) (by decide) (by decide)
    | exact append_ne_of_char_ne _ _ x y 4 (by decide) (by decide) (by decide)
    | exact append_ne_of_char_ne _ _ x y 5 (by decide) (by decide) (by decide)
    | exact append_ne_lit _ x _ 0 (by decide) (by decide) (by decide)
    | exact append_ne_lit _ x _ 16 (by decide) (by decide) (by decide)

theorem bookListQualifiers_pairwise :
    bookListQualifiers.Pairwise (fun f g => ∀ x y, f x ≠ g y) := by
  simp only [bookListQualifiers, List.pairwise_cons, List.mem_cons, List.mem_singleton,
    forall_eq_or_imp, forall_eq, List.not_mem_nil, false_implies, implies_true,
    List.Pairwise.nil, and_true]
  refine ⟨⟨?_, ?_, ?_, ?_, ?_, ?_⟩, ⟨?_, ?_, ?_, ?_, ?_⟩, ⟨?_, ?_, ?_, ?_⟩,
    ⟨?_, ?_, ?_⟩, ⟨?_, ?_⟩, ?_⟩ <;> intro x y <;>
  first
    | decide
    | exact append_ne_of_char_ne _ _ x y 0 (by decide) (by decide) (by decide)
    | exact append_ne_lit _ x _ 0 (by decide) (by decide) (by decide)
    | exact lit_ne_append _ _ y 0 (by decide) (by decide) (by decide)
    | exact lit_ne_append _ _ y 1 (by decide) (by decide) (by decide)

/-- C28: cache keys are collision-free.  For all argument strings the keys
of two different key families (`book:`, `books:`, `order:`, `user_orders:`,
`user:`, `user_books:`, `exchange:offers:user:` and
`exchange:offers:pending`) differ; and within the book list family the
keys of two different qualifier kinds (`all`, `genre:g`, `author:a`,
`language:l`, `top_rated`, `new_arrivals`, `recommend:id`) differ, and the
key of each kind with an argument determines that argument. -/
theorem C28_cache_keys_are_collision_free :
    keyFamilies.Pairwise (fun f g => ∀ x y, f x ≠ g y) ∧
    bookListQualifiers.Pairwise (fun f g => ∀ x y,
      cachedBookRepo.getCacheKeyForList (f x) ≠ cachedBookRepo.getCacheKeyForList (g y)) ∧
    (∀ a b, cachedBookRepo.getCacheKeyForList ("genre:" ++ a)
        = cachedBookRepo.getCacheKeyForList ("genre:" ++ b) → a = b) ∧
    (∀ a b, cachedBookRepo.getCacheKeyForList ("author:" ++ a)
        = cachedBookRepo.getCacheKeyForList ("author:" ++ b) → a = b) ∧
    (∀ a b, cachedBookRepo.getCacheKeyForList ("language:" ++ a)
        = cachedBookRepo.getCacheKeyForList ("language:" ++ b) → a = b) ∧
    (∀ a b, cachedBookRepo.getCacheKeyForList ("recommend:" ++ a)
        = cachedBookRepo.getCacheKeyForList ("recommend:" ++ b) → a = b) := by
  refine ⟨keyFamilies_pairwise, ?_, ?_, ?_, ?_, ?_⟩
  · exact bookListQualifiers_pairwise.imp (fun h x y heq =>
      h x y (append_left_cancel_str _ _ _ heq))
  all_goals
    intro a b h
    exact append_left_cancel_str _ _ _ (append_left_cancel_str _ _ _ h)

/-! ## C30: deleting an offer that cannot be fetched -/

/-- C30: `exchangeUseCase.DeleteOffer` is atomic on lookup failure.  For
every repository implementation: when `GetOffer` returns an error `e`,
`DeleteOffer` returns `e`, the store is in the state `GetOffer` left it in
(the repository's `DeleteOffer` has not run) and the cache, its command
record included, is as it was: neither the pending list nor a user list has
been invalidated; when `GetOffer` succeeds and the repository's
`DeleteOffer` fails with `e`, that error is returned and the cache is as it
was.  For the Mongo repository a failed `GetOffer` leaves the stored offers
as they were, after at most one driver command. -/
theorem C30_delete_offer_is_atomic_on_lookup_failure {σ : Type}
    (repo : ExchangeRepository σ) (st : σ) (c : Redis OffersJSON) (id : String) :
    (∀ e st1, repo.GetOffer st id = (.error e, st1) →
      exchangeUseCase.DeleteOffer repo st c id = (some e, st1, c)) ∧
    (∀ o st1 e st2, repo.GetOffer st id = (.ok o, st1) →
      repo.DeleteOffer st1 id = (some e, st2) →
      exchangeUseCase.DeleteOffer repo st c id = (some e, st2, c)) ∧
    (∀ (mt mt1 : Collection OfferDoc) e,
      mongoExchangeRepo.GetOffer mt id = (.error e, mt1) →
      exchangeUseCase.DeleteOffer mongoExchangeRepo mt c id = (some e, mt1, c) ∧
      mt1.docs = mt.docs ∧ mt1.calls ≤ mt.calls + 1) := by
  refine ⟨?_, ?_, ?_⟩
  · intro e st1 h
    simp only [exchangeUseCase.DeleteOffer, h]
  · intro o st1 e st2 h hd
    simp only [exchangeUseCase.DeleteOffer, h, hd]
  · intro mt mt1 e h
    have h0 : mongoExchangeRepo.GetOffer mt id = (.error e, mt1) := h
    refine ⟨by simp only [exchangeUseCase.DeleteOffer, mongoExchangeRepo, h0], ?_⟩
    unfold mongoExchangeRepo.GetOffer at h
    cases hid : ObjectIDFromHex id with
    | error e1 =>
      rw [hid] at h
      cases h
      exact ⟨rfl, Nat.le_succ _⟩
    | ok objID =>
      rw [hid] at h
      unfold Collection.FindOne at h
      cases hf : mt.fault with
      | some msg =>
        simp only [hf, decodeOne, Prod.mk.injEq] at h
        rw [← h.2]
        exact ⟨rfl, Nat.le_refl _⟩
      | none =>
        cases hd : mt.docs.find? (fun d => decide (d._id = objID)) with
        | none =>
          simp only [hf, hd, decodeOne, Prod.mk.injEq] at h
          rw [← h.2]
          exact ⟨rfl, Nat.le_refl _⟩
        | some d =>
          simp only [hf, hd, decodeOne, Prod.mk.injEq] at h
          cases h.1

/-- Witness for C30: no offer is stored, so `GetOffer` fails with
`mongo.ErrNoDocuments`; `DeleteOffer` returns it and the cache has been sent
no command. -/
theorem C30_delete_offer_is_atomic_on_lookup_failure_witness :
    exchangeUseCase.DeleteOffer mongoExchangeRepo emptyOfferStore Redis.empty lowerSpelling
      = (some .noDocuments, emptyOfferStore.sent, Redis.empty) :=
  (C30_delete_offer_is_atomic_on_lookup_failure mongoExchangeRepo emptyOfferStore
    Redis.empty lowerSpelling).1 .noDocuments emptyOfferStore.sent (by decide)

end ReadSpace
